import Mathlib

/-!
Sweet Barista: the simulation core, embedded in Lean

A shallow embedding of the level state machine (src/src/game/Level.js), the
conveyor cup (src/src/game/Cup.js), the sugar cube (src/src/game/Sugar.js), the
drop logic of the hand (src/src/game/Hand.js), the bounding-box test
(src/src/utils/CollisionDetection.js) and, of the session
(src/src/game/Game.js), level creation and reset, the drop input, the level
progression with its fade transition, the collision resolver, the cup loop and
the frame update.

Conventions of the embedding:

* JavaScript numbers that hold times, positions and speeds are rationals, and
  their arithmetic is exact.  The one integer the program derives from such
  arithmetic, the score of a level, is computed with the rounding of doubles
  (roundDouble).  Counters are integers.
* Every method becomes a function from the object before the call to the
  object after it (paired with the returned value when there is one).
* The wall clock read by Date.now() and the draws of Math.random() are explicit
  arguments named now and rand.
* Console output, audio, particles and the fields that only feed the renderer
  through Math.sin (wobble, previewPulse, scale, the preview zone of a cup,
  the motion trail of a cube) are left out; none of them is read by the
  simulation.
* Math.sin itself has no rational model: the one place where the simulation
  state depends on it (the arc of a bouncing cube) takes the function
  p ↦ Math.sin(p * Math.PI) as the argument sinPi; the frame update reads
  it, Math.sin and the presence of the audio manager from a Host record.
-/

namespace SweetBarista

/-! ## Configuration (src/src/config.js) -/

/-- One record of CONFIG.LEVELS. -/
structure LevelConfig where
  level : Nat
  time : ℚ
  speed : ℚ
  cups : Nat
  totalSugar : Int × Int
  difficulty : String

/-- The table CONFIG.LEVELS, in source order. -/
def LEVELS : List LevelConfig :=
  [ ⟨1, 60, 13/10, 3, (5, 6), "Tutorial"⟩,
    ⟨2, 60, 14/10, 4, (7, 8), "Easy"⟩,
    ⟨3, 60, 15/10, 5, (9, 10), "Easy"⟩,
    ⟨4, 60, 16/10, 6, (11, 12), "Medium"⟩,
    ⟨5, 60, 17/10, 7, (13, 14), "Medium"⟩,
    ⟨6, 55, 18/10, 8, (15, 16), "Medium"⟩,
    ⟨7, 55, 19/10, 9, (17, 18), "Hard"⟩,
    ⟨8, 50, 20/10, 10, (19, 20), "Hard"⟩,
    ⟨9, 50, 21/10, 11, (21, 23), "Hard"⟩,
    ⟨10, 45, 22/10, 12, (24, 26), "Very Hard"⟩,
    ⟨11, 45, 23/10, 13, (27, 29), "Very Hard"⟩,
    ⟨12, 40, 24/10, 14, (30, 32), "Expert"⟩,
    ⟨13, 40, 25/10, 15, (33, 35), "Expert"⟩,
    ⟨14, 35, 26/10, 16, (36, 38), "Expert"⟩,
    ⟨15, 35, 28/10, 17, (39, 42), "Master"⟩ ]

/-- The first record of the table, used as the fallback of the Level constructor. -/
def LEVEL_ONE : LevelConfig := ⟨1, 60, 13/10, 3, (5, 6), "Tutorial"⟩

/-- CONFIG.SUGAR_DISTRIBUTION.ONE_SUGAR. -/
def ONE_SUGAR : ℚ := 3/10

/-- CONFIG.SUGAR_DISTRIBUTION.TWO_SUGAR. -/
def TWO_SUGAR : ℚ := 5/10

/-- CONFIG.SUGAR_DISTRIBUTION.THREE_SUGAR. -/
def THREE_SUGAR : ℚ := 2/10

/-- CONFIG.PHYSICS.GRAVITY. -/
def GRAVITY : ℚ := 180

/-! ## Double-precision arithmetic

The score of a level is an integer obtained by flooring products and a
quotient of JavaScript numbers, so its value depends on how those operations
round.  Numbers are rationals here; an arithmetic result that the source
floors is first rounded to the nearest double. -/

/-- Round to the nearest integer, a tie going to the even neighbour. -/
def roundHalfEven (m : ℚ) : Int :=
  if m - ⌊m⌋ < 1 / 2 then ⌊m⌋
  else if m - ⌊m⌋ > 1 / 2 then ⌊m⌋ + 1
  else if ⌊m⌋ % 2 = 0 then ⌊m⌋
  else ⌊m⌋ + 1

/-- The IEEE 754 binary64 value nearest to x (round to nearest, ties to even):
53 significant bits at the binary exponent of x, with the fixed spacing of the
subnormal range below 2^(-1022).  Overflow to Infinity is outside the model. -/
def roundDouble (x : ℚ) : ℚ :=
  if x = 0 then 0
  else
    let e : Int := max (Int.log 2 |x|) (-1022)
    let ulp : ℚ := (2 : ℚ) ^ (e - 52)
    (roundHalfEven (x / ulp) : ℚ) * ulp

/-! ## Level (src/src/game/Level.js) -/

/-- The fields of a Level object. -/
structure Level where
  levelNumber : Int
  config : LevelConfig
  maxTime : ℚ
  timeRemaining : ℚ
  isComplete : Bool
  isFailed : Bool
  isStarted : Bool
  totalCupsNeeded : Int
  cupsCompleted : Int
  totalSugarNeeded : Int
  sugarDelivered : Int
  startTime : Int
  endTime : Int
  score : Int
  isPaused : Bool
  pauseStartTime : Int
  totalPausedTime : Int

namespace Level

/-- The lookup CONFIG.LEVELS[levelNumber - 1] with the fallback to the first record. -/
def lookupConfig (levelNumber : Int) : LevelConfig :=
  if 1 ≤ levelNumber then
    match LEVELS.get? (levelNumber - 1).toNat with
    | some c => c
    | none => LEVEL_ONE
  else LEVEL_ONE

/-- Level.generateTotalSugarTarget, on the draw rand of Math.random(). -/
def generateTotalSugarTarget (config : LevelConfig) (rand : ℚ) : Int :=
  ⌊rand * ((config.totalSugar.2 - config.totalSugar.1 + 1 : Int) : ℚ)⌋ + config.totalSugar.1

/-- The constructor of Level. -/
def new (levelNumber : Int) (rand : ℚ) : Level :=
  let config := lookupConfig levelNumber
  { levelNumber := levelNumber
    config := config
    maxTime := config.time
    timeRemaining := config.time
    isComplete := false
    isFailed := false
    isStarted := false
    totalCupsNeeded := config.cups
    cupsCompleted := 0
    totalSugarNeeded := generateTotalSugarTarget config rand
    sugarDelivered := 0
    startTime := 0
    endTime := 0
    score := 0
    isPaused := false
    pauseStartTime := 0
    totalPausedTime := 0 }

/-- Level.start. -/
def start (l : Level) (now : Int) : Level :=
  { l with isStarted := true, startTime := now }

/-- Level.calculateScore.  The product timeRemaining * 10, the quotient
sugarDelivered / totalSugarNeeded and its product with 100 are rounded to
doubles before the floor, as the source computes them; a zero totalSugarNeeded
(Infinity or NaN in the source) is outside the model. -/
def calculateScore (l : Level) : Level :=
  let timeBonus : Int := max 0 ⌊roundDouble (l.timeRemaining * 10)⌋
  let efficiencyBonus : Int :=
    ⌊roundDouble (roundDouble ((l.sugarDelivered : ℚ) / (l.totalSugarNeeded : ℚ)) * 100)⌋
  { l with score := timeBonus + efficiencyBonus }

/-- Level.complete. -/
def complete (l : Level) (now : Int) : Level :=
  if !l.isComplete then
    calculateScore { l with isComplete := true, endTime := now }
  else l

/-- Level.fail. -/
def fail (l : Level) (now : Int) : Level :=
  if !l.isFailed then
    { l with isFailed := true, endTime := now }
  else l

/-- Level.update. -/
def update (l : Level) (deltaTime : ℚ) (completedCups totalCups totalSugarDelivered : Int)
    (now : Int) : Level :=
  if !l.isStarted || l.isComplete || l.isFailed || l.isPaused then l
  else
    let l1 := { l with timeRemaining := l.timeRemaining - deltaTime / 1000 }
    let l2 := { l1 with cupsCompleted := completedCups
                        totalCupsNeeded := totalCups
                        sugarDelivered := totalSugarDelivered }
    if completedCups > 0 ∧ completedCups = totalCups then
      complete l2 now
    else if l2.timeRemaining ≤ 0 then
      fail { l2 with timeRemaining := 0 } now
    else l2

/-- Level.pause. -/
def pause (l : Level) (now : Int) : Level :=
  if !l.isPaused && l.isStarted && !l.isComplete && !l.isFailed then
    { l with isPaused := true, pauseStartTime := now }
  else l

/-- Level.resume. -/
def resume (l : Level) (now : Int) : Level :=
  if l.isPaused then
    { l with isPaused := false
             totalPausedTime := l.totalPausedTime + (now - l.pauseStartTime)
             pauseStartTime := 0 }
  else l

/-- Level.getTimeRemaining. -/
def getTimeRemaining (l : Level) : ℚ := max 0 l.timeRemaining

/-- Level.getTimerPercentage. -/
def getTimerPercentage (l : Level) : ℚ := (l.timeRemaining / l.maxTime) * 100

/-- Level.isTimeWarning. -/
def isTimeWarning (l : Level) : Bool :=
  decide (l.timeRemaining ≤ 10) && decide (l.timeRemaining > 0)

/-- A level is running when update acts on it: started, not paused, not
complete and not failed (the negation of the guard of Level.update). -/
def running (l : Level) : Prop :=
  l.isStarted = true ∧ l.isPaused = false ∧ l.isComplete = false ∧ l.isFailed = false

instance (l : Level) : Decidable l.running := by
  unfold running; infer_instance

/-- The arguments of one call of Level.update, with the clock reading. -/
structure UpdateCall where
  deltaTime : ℚ
  completedCups : Int
  totalCups : Int
  totalSugarDelivered : Int
  now : Int

/-- A sequence of Level.update calls, applied in order. -/
def updates (l : Level) (calls : List UpdateCall) : Level :=
  calls.foldl
    (fun acc call =>
      acc.update call.deltaTime call.completedCups call.totalCups call.totalSugarDelivered
        call.now)
    l

/-- A level whose two terminal flags are both clear. -/
def inProgress (l : Level) : Prop := l.isComplete = false ∧ l.isFailed = false

/-- The states a Level object can take: the constructor followed by any
sequence of start, update (with a non-negative deltaTime), pause and resume. -/
inductive Reachable : Level → Prop
  | new (levelNumber : Int) (rand : ℚ) : Reachable (Level.new levelNumber rand)
  | start {l : Level} (now : Int) : Reachable l → Reachable (l.start now)
  | update {l : Level} (deltaTime : ℚ) (completedCups totalCups totalSugarDelivered now : Int) :
      0 ≤ deltaTime → Reachable l →
      Reachable (l.update deltaTime completedCups totalCups totalSugarDelivered now)
  | pause {l : Level} (now : Int) : Reachable l → Reachable (l.pause now)
  | resume {l : Level} (now : Int) : Reachable l → Reachable (l.resume now)

end Level

/-! ## Cup (src/src/game/Cup.js) -/

/-- The three size classes a cup is created with. -/
inductive CupSize
  | small
  | medium
  | large
  deriving DecidableEq, Repr

/-- The fields of a Cup object that the simulation reads or writes. -/
structure Cup where
  startX : ℚ
  x : ℚ
  y : ℚ
  conveyorY : ℚ
  slotIndex : Int
  slotSpacing : ℚ
  offScreenStart : ℚ
  totalSlots : Int
  size : CupSize
  width : ℚ
  height : ℚ
  opacity : ℚ
  requiredSugar : Int
  currentSugar : Int
  isComplete : Bool
  isActive : Bool
  animationTime : ℚ
  completionTime : Int
  hasBeenServed : Bool
  isOverfilled : Bool
  overfillFlashTime : ℚ
  maxOverfillFlash : ℚ
  customerName : Option String
  isCustomerDataLocked : Bool

/-- The result object of Cup.update. -/
structure WrapResult where
  wrapped : Bool
  completedSugar : Int
  deriving DecidableEq, Repr

/-- The snapshot taken by Cup.update before and after a wrap. -/
structure WrapSnapshot where
  sugar : Int
  required : Int
  complete : Bool
  customer : Option String

namespace Cup

/-- The factor applied to sizes when window.innerWidth is at most 768. -/
def mobileScale (mobile : Bool) : ℚ := if mobile then 3/4 else 1

/-- Cup.getSizeWidth. -/
def getSizeWidth (size : CupSize) (mobile : Bool) : ℚ :=
  let baseWidth : ℚ := match size with
    | .small => 70
    | .medium => 90
    | .large => 110
  ((⌊baseWidth * mobileScale mobile⌋ : Int) : ℚ)

/-- Cup.getSizeHeight. -/
def getSizeHeight (size : CupSize) (mobile : Bool) : ℚ :=
  let baseHeight : ℚ := match size with
    | .small => 60
    | .medium => 75
    | .large => 90
  ((⌊baseHeight * mobileScale mobile⌋ : Int) : ℚ)

/-- Cup.generateSugarRequirement, on the draw rand of Math.random(). -/
def generateSugarRequirement (rand : ℚ) : Int :=
  if rand < ONE_SUGAR then 1
  else if rand < ONE_SUGAR + TWO_SUGAR then 2
  else 3

/-- The name pool of Cup.generateCustomerName. -/
def names : List String :=
  [ "John", "Caitlyn", "Paul", "Sarah", "Mike", "Emma", "Alex", "Lisa",
    "David", "Anna", "Tom", "Maria", "Chris", "Kate", "Sam", "Nina",
    "Josh", "Amy", "Ben", "Zoe", "Max", "Lily", "Luke", "Eva",
    "Ryan", "Maya", "Jake", "Mia", "Leo", "Ava", "Owen", "Sophie" ]

/-- Cup.generateCustomerName, on the draw rand of Math.random(); an index
outside the pool reads as undefined, here none. -/
def generateCustomerName (rand : ℚ) : Option String :=
  let i : Int := ⌊rand * (names.length : ℚ)⌋
  if 0 ≤ i then names.get? i.toNat else none

/-- The constructor of Cup. -/
def new (x y : ℚ) (size : CupSize) (conveyorY : ℚ) (mobile : Bool)
    (randSugar randName : ℚ) : Cup :=
  let maxCupWidth : Int := ⌊110 * mobileScale mobile⌋
  let safetyMargin : Int := ⌊50 * mobileScale mobile⌋
  { startX := x
    x := x
    y := y
    conveyorY := conveyorY
    slotIndex := 0
    slotSpacing := ((maxCupWidth + safetyMargin : Int) : ℚ)
    offScreenStart := -800
    totalSlots := 3
    size := size
    width := getSizeWidth size mobile
    height := getSizeHeight size mobile
    opacity := 1
    requiredSugar := generateSugarRequirement randSugar
    currentSugar := 0
    isComplete := false
    isActive := true
    animationTime := 0
    completionTime := 0
    hasBeenServed := false
    isOverfilled := false
    overfillFlashTime := 0
    maxOverfillFlash := 300
    customerName := generateCustomerName randName
    isCustomerDataLocked := false }

/-- Cup.addSugar: the cup after the call and the returned flag. -/
def addSugar (c : Cup) (now : Int) : Cup × Bool :=
  if c.currentSugar < c.requiredSugar then
    let c1 := { c with currentSugar := c.currentSugar + 1, isCustomerDataLocked := true }
    if c1.currentSugar = c1.requiredSugar then
      ({ c1 with isComplete := true, completionTime := now }, true)
    else (c1, true)
  else (c, false)

/-- Cup.tryOverfill: the cup after the call and the returned flag. -/
def tryOverfill (c : Cup) : Cup × Bool :=
  if c.isComplete then
    ({ c with isOverfilled := true, overfillFlashTime := 0, currentSugar := 0,
              isComplete := false }, true)
  else (c, false)

/-- Cup.canAcceptSugar. -/
def canAcceptSugar (c : Cup) : Bool :=
  decide (c.currentSugar < c.requiredSugar) && c.isActive

/-- Cup.calculateSlotPosition. -/
def calculateSlotPosition (c : Cup) : ℚ :=
  c.offScreenStart + (c.slotIndex : ℚ) * c.slotSpacing

/-- Cup.resetCup: it changes nothing and returns 0. -/
def resetCup (c : Cup) : Cup × Int := (c, 0)

/-- The object literal Cup.update builds from the four protected fields. -/
def snapshot (c : Cup) : WrapSnapshot :=
  ⟨c.currentSugar, c.requiredSugar, c.isComplete, c.customerName⟩

/-- Cup.update: the cup after the call and the returned result. -/
def update (c : Cup) (deltaTime conveyorSpeed canvasWidth : ℚ) : Cup × WrapResult :=
  let c1 := { c with animationTime := c.animationTime + deltaTime }
  let c2 := { c1 with x := c1.x + conveyorSpeed * (deltaTime / 1000) * 60 }
  let c3 :=
    if c2.isOverfilled then
      let c2a := { c2 with overfillFlashTime := c2.overfillFlashTime + deltaTime }
      if c2a.overfillFlashTime ≥ c2a.maxOverfillFlash then
        { c2a with isOverfilled := false, overfillFlashTime := 0 }
      else c2a
    else c2
  if c3.x - c3.width / 2 > canvasWidth then
    let stateBeforeWrap := snapshot c3
    let c4 := { c3 with x := calculateSlotPosition c3 }
    let r := resetCup c4
    let c5 := r.1
    let completedSugar := r.2
    let stateAfterWrap := snapshot c5
    let c6 :=
      if stateBeforeWrap.sugar < stateBeforeWrap.required then
        if stateAfterWrap.sugar ≠ stateBeforeWrap.sugar ∨
           stateAfterWrap.required ≠ stateBeforeWrap.required ∨
           stateAfterWrap.customer ≠ stateBeforeWrap.customer then
          { c5 with currentSugar := stateBeforeWrap.sugar
                    requiredSugar := stateBeforeWrap.required
                    isComplete := stateBeforeWrap.complete
                    customerName := stateBeforeWrap.customer }
        else c5
      else c5
    (c6, ⟨true, completedSugar⟩)
  else (c3, ⟨false, 0⟩)

/-- Cup.validateState. -/
def validateState (c : Cup) : Bool :=
  decide (c.currentSugar ≥ 0) && decide (c.currentSugar ≤ c.requiredSugar) &&
  decide (c.requiredSugar ≥ 1) && decide (c.requiredSugar ≤ 3) &&
  (match c.customerName with
   | some n => decide (n.length > 0)
   | none => false)

/-- Cup.recoverState, on the draws it may consume. -/
def recoverState (c : Cup) (randSugar randName : ℚ) : Cup :=
  let c1 := if c.currentSugar < 0 then { c with currentSugar := 0 } else c
  let c2 :=
    if c1.requiredSugar < 1 ∨ c1.requiredSugar > 3 then
      { c1 with requiredSugar := generateSugarRequirement randSugar }
    else c1
  let c3 :=
    match c2.customerName with
    | some n => if n.length = 0 then { c2 with customerName := generateCustomerName randName }
                else c2
    | none => { c2 with customerName := generateCustomerName randName }
  let c4 :=
    if c3.currentSugar > c3.requiredSugar then { c3 with currentSugar := c3.requiredSugar }
    else c3
  { c4 with isComplete := decide (c4.currentSugar = c4.requiredSugar) }

/-- The cup after n calls of Cup.update with the same arguments. -/
def updateN (c : Cup) (deltaTime conveyorSpeed canvasWidth : ℚ) : Nat → Cup
  | 0 => c
  | n + 1 => ((updateN c deltaTime conveyorSpeed canvasWidth n).update deltaTime conveyorSpeed
      canvasWidth).1

/-- The slot assignment Game.setupSlotBasedPositioning makes on a fresh cup. -/
def assignSlot (c : Cup) (slotIndex : Int) (slotSpacing offScreenStart : ℚ)
    (totalSlots : Int) : Cup :=
  { c with slotIndex := slotIndex, slotSpacing := slotSpacing,
           offScreenStart := offScreenStart, totalSlots := totalSlots }

/-- The states a Cup object can take: the constructor followed by any sequence
of the slot assignment, addSugar, tryOverfill, update and recoverState. -/
inductive Reachable : Cup → Prop
  | new (x y : ℚ) (size : CupSize) (conveyorY : ℚ) (mobile : Bool) (randSugar randName : ℚ) :
      Reachable (Cup.new x y size conveyorY mobile randSugar randName)
  | assignSlot {c : Cup} (slotIndex : Int) (slotSpacing offScreenStart : ℚ) (totalSlots : Int) :
      Reachable c → Reachable (c.assignSlot slotIndex slotSpacing offScreenStart totalSlots)
  | addSugar {c : Cup} (now : Int) : Reachable c → Reachable (c.addSugar now).1
  | tryOverfill {c : Cup} : Reachable c → Reachable c.tryOverfill.1
  | update {c : Cup} (deltaTime conveyorSpeed canvasWidth : ℚ) :
      Reachable c → Reachable (c.update deltaTime conveyorSpeed canvasWidth).1
  | recoverState {c : Cup} (randSugar randName : ℚ) :
      Reachable c → Reachable (c.recoverState randSugar randName)

/-- The invariant of the fill state carried by every reachable cup: the count
is between 0 and the requirement, the requirement is 1, 2 or 3, the completion
flag mirrors equality of the two, and the cup is active. -/
def Inv (c : Cup) : Prop :=
  0 ≤ c.currentSugar ∧ c.currentSugar ≤ c.requiredSugar ∧
  (c.requiredSugar = 1 ∨ c.requiredSugar = 2 ∨ c.requiredSugar = 3) ∧
  (c.isComplete = true ↔ c.currentSugar = c.requiredSugar) ∧ c.isActive = true

end Cup

/-! ## Sugar cube (src/src/game/Sugar.js) -/

/-- The fields of a Sugar object. -/
structure Sugar where
  startX : ℚ
  startY : ℚ
  x : ℚ
  y : ℚ
  width : ℚ
  height : ℚ
  velocityX : ℚ
  velocityY : ℚ
  gravity : ℚ
  rotation : ℚ
  rotationSpeed : ℚ
  scale : ℚ
  opacity : ℚ
  isActive : Bool
  isFalling : Bool
  isSplashing : Bool
  isBouncing : Bool
  hasLanded : Bool
  splashTime : ℚ
  maxSplashTime : ℚ
  bounceTime : ℚ
  maxBounceTime : ℚ
  bounceHeight : ℚ
  bounceStartY : Option ℚ
  lifetime : ℚ
  maxLifetime : ℚ

namespace Sugar

/-- The constructor of Sugar, on its two draws of Math.random(). -/
def new (x y : ℚ) (randVelocity randRotation : ℚ) : Sugar :=
  { startX := x
    startY := y
    x := x
    y := y
    width := 16
    height := 16
    velocityX := (randVelocity - 1/2) * 20
    velocityY := 5
    gravity := GRAVITY
    rotation := 0
    rotationSpeed := (randRotation - 1/2) * 8
    scale := 1
    opacity := 1
    isActive := true
    isFalling := true
    isSplashing := false
    isBouncing := false
    hasLanded := false
    splashTime := 0
    maxSplashTime := 300
    bounceTime := 0
    maxBounceTime := 500
    bounceHeight := 30
    bounceStartY := none
    lifetime := 0
    maxLifetime := 5000 }

/-- Sugar.splash. -/
def splash (s : Sugar) : Sugar :=
  { s with isSplashing := true, splashTime := 0 }

/-- Sugar.bounce. -/
def bounce (s : Sugar) : Sugar :=
  { s with isBouncing := true, isFalling := false, bounceTime := 0, bounceStartY := some s.y }

/-- Sugar.updateSplashAnimation. -/
def updateSplashAnimation (s : Sugar) (deltaTime : ℚ) : Sugar :=
  let s1 := { s with splashTime := s.splashTime + deltaTime }
  let progress := s1.splashTime / s1.maxSplashTime
  let s2 := { s1 with opacity := max 0 (1 - progress), scale := 1 + progress * (3/2) }
  if s2.splashTime ≥ s2.maxSplashTime then { s2 with isActive := false } else s2

/-- Sugar.hitGround. -/
def hitGround (s : Sugar) (canvasHeight : ℚ) : Sugar :=
  if !s.hasLanded then
    splash { s with hasLanded := true, isFalling := false,
                    y := canvasHeight - 50 - s.height / 2, velocityY := 0 }
  else s

/-- Sugar.updateFallingPhysics; dt is in seconds. -/
def updateFallingPhysics (s : Sugar) (dt canvasHeight : ℚ) : Sugar :=
  let s1 := { s with velocityY := s.velocityY + s.gravity * dt }
  let s2 := { s1 with x := s1.x + s1.velocityX * dt }
  let s3 := { s2 with y := s2.y + s2.velocityY * dt }
  let s4 := { s3 with velocityX := s3.velocityX * (995/1000) }
  let s5 := { s4 with rotation := s4.rotation + s4.rotationSpeed * dt }
  if s5.y + s5.height / 2 ≥ canvasHeight - 50 then hitGround s5 canvasHeight else s5

/-- Sugar.updateBounceAnimation.  A cube that bounces without a recorded
bounceStartY (NaN in the source, never the case after Sugar.bounce) keeps its y. -/
def updateBounceAnimation (sinPi : ℚ → ℚ) (s : Sugar) (deltaTime : ℚ) : Sugar :=
  let s1 := { s with bounceTime := s.bounceTime + deltaTime }
  let progress := s1.bounceTime / s1.maxBounceTime
  let bounceProgress := sinPi progress
  let s2 := { s1 with y := match s1.bounceStartY with
                           | some y0 => y0 - bounceProgress * s1.bounceHeight
                           | none => s1.y }
  let s3 := { s2 with opacity := max 0 (1 - progress), scale := max (1/2) (1 - progress * (1/2)) }
  let s4 := { s3 with rotation := s3.rotation + s3.rotationSpeed * (deltaTime / 1000) * 2 }
  if s4.bounceTime ≥ s4.maxBounceTime then { s4 with isActive := false } else s4

/-- Sugar.update; deltaTime is in milliseconds. -/
def update (sinPi : ℚ → ℚ) (s : Sugar) (deltaTime canvasHeight : ℚ) : Sugar :=
  let s1 := { s with lifetime := s.lifetime + deltaTime }
  let dt := deltaTime / 1000
  if s1.isSplashing then updateSplashAnimation s1 deltaTime
  else if s1.isBouncing then updateBounceAnimation sinPi s1 deltaTime
  else
    let s2 := if s1.isFalling then updateFallingPhysics s1 dt canvasHeight else s1
    if s2.lifetime > s2.maxLifetime then { s2 with isActive := false } else s2

/-- The cube after n calls of Sugar.update with the same arguments. -/
def updateN (sinPi : ℚ → ℚ) (s : Sugar) (deltaTime canvasHeight : ℚ) : Nat → Sugar
  | 0 => s
  | n + 1 => update sinPi (updateN sinPi s deltaTime canvasHeight n) deltaTime canvasHeight

/-- Exactly one of the three phase flags of a cube is set. -/
def exactlyOnePhase (s : Sugar) : Prop :=
  (s.isFalling = true ∧ s.isSplashing = false ∧ s.isBouncing = false) ∨
  (s.isFalling = false ∧ s.isSplashing = true ∧ s.isBouncing = false) ∨
  (s.isFalling = false ∧ s.isSplashing = false ∧ s.isBouncing = true)

/-- The invariant carried by every reachable cube: one phase flag, a landed
cube no longer falls, and the three time limits are those of the constructor. -/
def Inv (s : Sugar) : Prop :=
  s.exactlyOnePhase ∧ (s.hasLanded = true → s.isFalling = false) ∧
  s.maxSplashTime = 300 ∧ s.maxBounceTime = 500 ∧ s.maxLifetime = 5000

/-- The states a cube takes in the per-frame processing of the session: the
constructor, then any sequence of Sugar.update, of Sugar.bounce on a cube that
is still falling, and of the deactivation the resolver makes on an accepted
cube. -/
inductive Reachable : Sugar → Prop
  | new (x y randVelocity randRotation : ℚ) : Reachable (Sugar.new x y randVelocity randRotation)
  | update {s : Sugar} (sinPi : ℚ → ℚ) (deltaTime canvasHeight : ℚ) :
      Reachable s → Reachable (s.update sinPi deltaTime canvasHeight)
  | bounce {s : Sugar} : s.isFalling = true → Reachable s → Reachable s.bounce
  | consume {s : Sugar} : Reachable s → Reachable { s with isActive := false }

end Sugar

/-! ## Collision detection (src/src/utils/CollisionDetection.js) -/

/-- An axis-aligned box, as returned by getBounds and getSugarBounds. -/
structure Bounds where
  left : ℚ
  right : ℚ
  top : ℚ
  bottom : ℚ

/-- Cup.getBounds. -/
def Cup.getBounds (c : Cup) : Bounds :=
  { left := c.x - c.width / 2
    right := c.x + c.width / 2
    top := c.y - c.height / 2
    bottom := c.y + c.height / 2 }

namespace CollisionDetection

/-- CollisionDetection.checkAABB. -/
def checkAABB (rect1 rect2 : Bounds) : Bool :=
  decide (rect1.left < rect2.right) && decide (rect1.right > rect2.left) &&
  decide (rect1.top < rect2.bottom) && decide (rect1.bottom > rect2.top)

/-- CollisionDetection.getSugarBounds. -/
def getSugarBounds (sugar : Sugar) : Bounds :=
  { left := sugar.x - sugar.width / 2
    right := sugar.x + sugar.width / 2
    top := sugar.y - sugar.height / 2
    bottom := sugar.y + sugar.height / 2 }

/-- CollisionDetection.getCupBounds. -/
def getCupBounds (cup : Cup) : Bounds := cup.getBounds

/-- CollisionDetection.checkSugarCupCollision. -/
def checkSugarCupCollision (sugar : Sugar) (cup : Cup) : Bool :=
  checkAABB (getSugarBounds sugar) (getCupBounds cup)

end CollisionDetection

/-! ## Hand (src/src/game/Hand.js) -/

/-- The values of Hand.state. -/
inductive HandState
  | idle
  | dropping
  | returning
  deriving DecidableEq, Repr

/-- A point object with the keys x and y. -/
structure Point where
  x : ℚ
  y : ℚ

/-- The fields of the Hand object that the drop logic reads or writes. -/
structure Hand where
  startX : ℚ
  startY : ℚ
  x : ℚ
  y : ℚ
  width : ℚ
  height : ℚ
  state : HandState
  dropAnimationTime : ℚ
  maxDropAnimationTime : ℚ
  returnSpeed : ℚ
  targetX : ℚ
  moveSpeed : ℚ
  boundaryLeft : ℚ
  boundaryRight : ℚ
  hasSugar : Bool

namespace Hand

/-- The constructor of Hand, on the width of its canvas. -/
def new (x y canvasWidth : ℚ) (mobile : Bool) : Hand :=
  let mobileScale : ℚ := if mobile then 7/10 else 1
  { startX := x
    startY := y
    x := x
    y := y
    width := ((⌊110 * mobileScale⌋ : Int) : ℚ)
    height := ((⌊110 * mobileScale⌋ : Int) : ℚ)
    state := .idle
    dropAnimationTime := 0
    maxDropAnimationTime := 200
    returnSpeed := 300
    targetX := x
    moveSpeed := 400
    boundaryLeft := 50
    boundaryRight := canvasWidth - 50
    hasSugar := true }

/-- Hand.drop: the hand after the call and the returned flag. -/
def drop (h : Hand) : Hand × Bool :=
  if h.state = .idle ∧ h.hasSugar = true then
    ({ h with state := .dropping, dropAnimationTime := 0 }, true)
  else (h, false)

/-- Hand.getSugarDropPosition. -/
def getSugarDropPosition (h : Hand) : Point :=
  { x := h.x, y := h.y + h.height / 2 + 10 }

/-- Hand.canDrop. -/
def canDrop (h : Hand) : Bool :=
  decide (h.state = .idle) && h.hasSugar

/-- Hand.isIdle. -/
def isIdle (h : Hand) : Bool := decide (h.state = .idle)

end Hand

/-! ## Session (src/src/game/Game.js) -/

/-- The values of Game.state. -/
inductive GameState
  | loading
  | menu
  | playing
  | paused
  | levelComplete
  | levelFailed
  | gameComplete
  deriving DecidableEq, Repr

/-- The values of Game.menuState. -/
inductive MenuState
  | main
  | options
  deriving DecidableEq, Repr

/-- The callbacks handed to Game.startFadeTransition: the only one in the
source is the arrow function of Game.nextLevel. -/
inductive FadeCallback
  | advanceToNextLevel
  deriving DecidableEq, Repr

/-- The object Game.fadeTransition. -/
structure FadeTransition where
  opacity : ℚ
  fadeIn : Bool
  fadeOut : Bool
  duration : ℚ
  callback : Option FadeCallback

/-- The fields of the Game object that the simulation reads or writes. -/
structure Game where
  state : GameState
  menuState : MenuState
  hand : Hand
  fadeTransition : FadeTransition
  canvasWidth : ℚ
  canvasHeight : ℚ
  sugarCubes : List Sugar
  coffeeCups : List Cup
  conveyorOffset : ℚ
  currentLevel : Option Level
  levelNumber : Int
  totalSugarDelivered : Int
  timeWarningPlayed : Bool
  cupsCompletedThisLevel : Int
  targetCupsForLevel : Int
  exactSugarNeeded : Int

namespace Game

/-- The size array of Game.setupSlotBasedPositioning read at index i modulo 3. -/
def sizeOfIndex (i : Nat) : CupSize :=
  match i % 3 with
  | 0 => .small
  | 1 => .medium
  | _ => .large

/-- Game.setupSlotBasedPositioning; rands i holds the two draws (sugar
requirement, customer name) consumed by the constructor of cup i. -/
def setupSlotBasedPositioning (g : Game) (cupCount : Nat) (cupY conveyorY : ℚ) (mobile : Bool)
    (rands : Nat → ℚ × ℚ) : Game :=
  let maxCupWidth : Int := ⌊110 * Cup.mobileScale mobile⌋
  let safetyMargin : Int := ⌊50 * Cup.mobileScale mobile⌋
  let slotSpacing : ℚ := ((maxCupWidth + safetyMargin : Int) : ℚ)
  let totalConveyorWidth : ℚ := (cupCount : ℚ) * slotSpacing
  let offScreenStart : ℚ := -totalConveyorWidth - 200
  let created := (List.range cupCount).map fun (i : Nat) =>
    let slotPosition : ℚ := offScreenStart + ((i : Int) : ℚ) * slotSpacing
    (Cup.new slotPosition cupY (sizeOfIndex i) conveyorY mobile (rands i).1 (rands i).2).assignSlot
      (i : Int) slotSpacing offScreenStart (cupCount : Int)
  { g with coffeeCups := g.coffeeCups ++ created }

/-- The cup built by iteration i of the loop of Game.setupSlotBasedPositioning. -/
def slotCup (cupCount : Nat) (cupY conveyorY : ℚ) (mobile : Bool) (rands : Nat → ℚ × ℚ)
    (i : Nat) : Cup :=
  let maxCupWidth : Int := ⌊110 * Cup.mobileScale mobile⌋
  let safetyMargin : Int := ⌊50 * Cup.mobileScale mobile⌋
  let slotSpacing : ℚ := ((maxCupWidth + safetyMargin : Int) : ℚ)
  let totalConveyorWidth : ℚ := (cupCount : ℚ) * slotSpacing
  let offScreenStart : ℚ := -totalConveyorWidth - 200
  let slotPosition : ℚ := offScreenStart + ((i : Int) : ℚ) * slotSpacing
  (Cup.new slotPosition cupY (sizeOfIndex i) conveyorY mobile (rands i).1 (rands i).2).assignSlot
    (i : Int) slotSpacing offScreenStart (cupCount : Int)

/-- Game.createCupsForLevel. -/
def createCupsForLevel (g : Game) (mobile : Bool) (rands : Nat → ℚ × ℚ) : Game :=
  let g1 := { g with coffeeCups := [] }
  match g1.currentLevel with
  | none => g1
  | some _ =>
    let cupY := g1.canvasHeight - 200
    let conveyorY := g1.canvasHeight - 180
    match LEVELS.find? (fun level => decide ((level.level : Int) = g1.levelNumber)) with
    | none => g1
    | some levelConfig =>
      let cupCount := levelConfig.cups
      let g2 := setupSlotBasedPositioning g1 cupCount cupY conveyorY mobile rands
      let exact : Int := g2.coffeeCups.foldl (fun total cup => total + cup.requiredSugar) 0
      let g3 := { g2 with exactSugarNeeded := exact }
      match g3.currentLevel with
      | some l => { g3 with currentLevel := some { l with totalSugarNeeded := g3.exactSugarNeeded } }
      | none => g3

/-- Game.initLevel; randLevel is the draw consumed by the Level constructor. -/
def initLevel (g : Game) (mobile : Bool) (randLevel : ℚ) (rands : Nat → ℚ × ℚ) : Game :=
  let l := Level.new g.levelNumber randLevel
  let g1 := { g with currentLevel := some l, totalSugarDelivered := 0, timeWarningPlayed := false,
                     cupsCompletedThisLevel := 0, targetCupsForLevel := l.config.cups }
  createCupsForLevel g1 mobile rands

/-- The state the loop of Game.checkSugarCupCollisions works on: the cup
array, the cube, and the two session counters it writes. -/
structure Resolution where
  cups : List Cup
  sugar : Sugar
  cupsCompletedThisLevel : Int
  totalSugarDelivered : Int

/-- The loop of Game.checkSugarCupCollisions over the cups not yet visited. -/
def collisionLoop (now : Int) (sugar : Sugar) (cupsCompletedThisLevel totalSugarDelivered : Int) :
    List Cup → Resolution
  | [] => ⟨[], sugar, cupsCompletedThisLevel, totalSugarDelivered⟩
  | cup :: rest =>
    if CollisionDetection.checkSugarCupCollision sugar cup then
      if cup.canAcceptSugar then
        let wasIncomplete := !cup.isComplete
        let cup1 := (cup.addSugar now).1
        let sugar1 := { sugar with isActive := false }
        let delivered := totalSugarDelivered + 1
        let completed :=
          if wasIncomplete && cup1.isComplete then cupsCompletedThisLevel + 1
          else cupsCompletedThisLevel
        ⟨cup1 :: rest, sugar1, completed, delivered⟩
      else
        let r := cup.tryOverfill
        let wasOverfilled := r.2
        if wasOverfilled then
          ⟨r.1 :: rest, sugar.bounce, max 0 (cupsCompletedThisLevel - 1), totalSugarDelivered⟩
        else
          let out := collisionLoop now sugar cupsCompletedThisLevel totalSugarDelivered rest
          { out with cups := r.1 :: out.cups }
    else
      let out := collisionLoop now sugar cupsCompletedThisLevel totalSugarDelivered rest
      { out with cups := cup :: out.cups }

/-- Game.checkSugarCupCollisions: the session and the cube after the call. -/
def checkSugarCupCollisions (g : Game) (sugar : Sugar) (now : Int) : Game × Sugar :=
  let out := collisionLoop now sugar g.cupsCompletedThisLevel g.totalSugarDelivered g.coffeeCups
  ({ g with coffeeCups := out.cups
            cupsCompletedThisLevel := out.cupsCompletedThisLevel
            totalSugarDelivered := out.totalSugarDelivered }, out.sugar)

/-- The conveyor speed Game.updateGame reads from the level (1 without a level). -/
def conveyorSpeed (g : Game) : ℚ :=
  match g.currentLevel with
  | some l => l.config.speed
  | none => 1

/-- The cup loop that closes Game.updateGame: every cup is advanced with the
frame time, the level speed and the canvas width. -/
def advanceCups (g : Game) (deltaTime : ℚ) : Game :=
  { g with coffeeCups :=
      g.coffeeCups.map fun cup => (cup.update deltaTime (conveyorSpeed g) g.canvasWidth).1 }

/-- The session after n frames of the cup loop with the same frame time. -/
def advanceFrames (g : Game) (deltaTime : ℚ) : Nat → Game
  | 0 => g
  | n + 1 => (advanceFrames g deltaTime n).advanceCups deltaTime

/-- Game.startLevel. -/
def startLevel (g : Game) (now : Int) : Game :=
  let g1 := { g with state := .playing }
  match g1.currentLevel with
  | some l => { g1 with currentLevel := some (l.start now) }
  | none => g1

/-- Game.startFadeTransition. -/
def startFadeTransition (g : Game) (fadeOut : Bool) (duration : ℚ)
    (callback : Option FadeCallback) : Game :=
  { g with fadeTransition :=
      { fadeOut := fadeOut
        fadeIn := !fadeOut
        duration := duration
        opacity := if fadeOut then 0 else 1
        callback := callback } }

/-- Game.nextLevel. -/
def nextLevel (g : Game) : Game :=
  if g.levelNumber < 15 then
    startFadeTransition g true 300 (some .advanceToNextLevel)
  else
    { g with state := .gameComplete }

/-- Game.retryLevel. -/
def retryLevel (g : Game) (mobile : Bool) (now : Int) (randLevel : ℚ)
    (rands : Nat → ℚ × ℚ) : Game :=
  startLevel (initLevel g mobile randLevel rands) now

/-- The body of a fade callback. -/
def runFadeCallback (g : Game) (mobile : Bool) (now : Int) (randLevel : ℚ)
    (rands : Nat → ℚ × ℚ) : FadeCallback → Game
  | .advanceToNextLevel =>
    let g1 := { g with levelNumber := g.levelNumber + 1 }
    let g2 := initLevel g1 mobile randLevel rands
    let g3 := startLevel g2 now
    startFadeTransition g3 false 300 none

/-- Game.updateFadeTransition. -/
def updateFadeTransition (g : Game) (deltaTime : ℚ) (mobile : Bool) (now : Int)
    (randLevel : ℚ) (rands : Nat → ℚ × ℚ) : Game :=
  if g.fadeTransition.fadeIn || g.fadeTransition.fadeOut then
    let progress := deltaTime / g.fadeTransition.duration
    if g.fadeTransition.fadeOut then
      let g1 := { g with fadeTransition :=
                    { g.fadeTransition with opacity := min 1 (g.fadeTransition.opacity + progress) } }
      if g1.fadeTransition.opacity ≥ 1 then
        let g2 := { g1 with fadeTransition := { g1.fadeTransition with fadeOut := false } }
        match g2.fadeTransition.callback with
        | some cb => runFadeCallback g2 mobile now randLevel rands cb
        | none => g2
      else g1
    else if g.fadeTransition.fadeIn then
      let g1 := { g with fadeTransition :=
                    { g.fadeTransition with opacity := max 0 (g.fadeTransition.opacity - progress) } }
      if g1.fadeTransition.opacity ≤ 0 then
        { g1 with fadeTransition := { g1.fadeTransition with fadeIn := false } }
      else g1
    else g
  else g

/-- The session after n frames of Game.updateFadeTransition with the same
frame time; draws i supplies the clock reading and the draws of frame i. -/
def fadeFrames (g : Game) (deltaTime : ℚ) (mobile : Bool)
    (draws : Nat → Int × ℚ × (Nat → ℚ × ℚ)) : Nat → Game
  | 0 => g
  | n + 1 =>
    updateFadeTransition (fadeFrames g deltaTime mobile draws n) deltaTime mobile
      (draws n).1 (draws n).2.1 (draws n).2.2

/-- Game.handleDropInput; randVelocity and randRotation are the draws of the
Sugar constructor. -/
def handleDropInput (g : Game) (mobile : Bool) (now : Int) (randLevel : ℚ)
    (rands : Nat → ℚ × ℚ) (randVelocity randRotation : ℚ) : Game :=
  if g.state = .menu then
    if g.menuState = .main then startLevel g now else g
  else if g.state = .playing ∧ g.hand.canDrop = true then
    let r := g.hand.drop
    let g1 := { g with hand := r.1 }
    let dropped := r.2
    if dropped then
      let dropPos := g1.hand.getSugarDropPosition
      let sugarCube := Sugar.new dropPos.x dropPos.y randVelocity randRotation
      { g1 with sugarCubes := g1.sugarCubes ++ [sugarCube] }
    else g1
  else if g.state = .levelComplete then nextLevel g
  else if g.state = .levelFailed then retryLevel g mobile now randLevel rands
  else g

end Game

/-! ## Concrete levels, cups and sessions -/

/-- The level of the concrete runs below: level 1, constructed and started. -/
def startedLevelOne : Level := (Level.new 1 0).start 0

/-- The run that completes level 1 in a frame longer than the time left. -/
def lateCompletion : Level := startedLevelOne.update 61000 3 3 6 0

/-- Level 3 (five cups, 60 s) with the total-sugar target 10, started. -/
def startedLevelThree : Level := (Level.new 3 (1/2)).start 0

/-- The run that completes level 3 after one second with 23 cubes delivered. -/
def generousCompletion : Level := startedLevelThree.update 1000 5 5 23 0

/-- A small cup created at the right edge of a 1280 px canvas, requiring two
cubes (draw 1/2) for the customer John (draw 0). -/
def edgeCup : Cup := Cup.new 1400 520 .small 540 false (1/2) 0

/-- The cup edgeCup after one cube. -/
def halfCup : Cup := (edgeCup.addSugar 0).1

/-- The cup edgeCup after two cubes: full. -/
def fullCup : Cup := (halfCup.addSugar 0).1

/-- A session on a 1280 x 720 canvas before any level is created. -/
def freshSession : Game :=
  { state := .menu, menuState := .main, hand := Hand.new 640 10 1280 false,
    fadeTransition := ⟨0, false, false, 0, none⟩,
    canvasWidth := 1280, canvasHeight := 720, sugarCubes := [], coffeeCups := [],
    conveyorOffset := 0, currentLevel := none, levelNumber := 1, totalSugarDelivered := 0,
    timeWarningPlayed := false, cupsCompletedThisLevel := 0, targetCupsForLevel := 0,
    exactSugarNeeded := 0 }

/-- Level 1 created on freshSession: three cups, each requiring two cubes. -/
def levelOneSession : Game := freshSession.initLevel false 0 (fun _ => (1/2, 0))

/-- The first cup of levelOneSession: slot 0, at x = -680 on the lane y = 520. -/
def slotZeroCup : Cup :=
  (Cup.new (-680) 520 .small 540 false (1/2) 0).assignSlot 0 160 (-680) 3

/-- The second cup of levelOneSession. -/
def slotOneCup : Cup :=
  (Cup.new (-520) 520 .medium 540 false (1/2) 0).assignSlot 1 160 (-680) 3

/-- The third cup of levelOneSession. -/
def slotTwoCup : Cup :=
  (Cup.new (-360) 520 .large 540 false (1/2) 0).assignSlot 2 160 (-680) 3

/-- A falling cube whose centre coincides with the centre of slotZeroCup. -/
def cubeOnSlotZero : Sugar := Sugar.new (-680) 520 (1/2) (1/2)

/-- The session levelOneSession after cubeOnSlotZero has been resolved once. -/
def oneHitSession : Game := (levelOneSession.checkSugarCupCollisions cubeOnSlotZero 0).1

/-- The session after a second such cube: the first cup is now complete. -/
def twoHitSession : Game := (oneHitSession.checkSugarCupCollisions cubeOnSlotZero 0).1

/-- A cube dropped at (640, 75) that lands in one frame of 4800 ms on a canvas
720 px high: it is splashing, with lifetime 4800 ms. -/
def landedCube : Sugar := (Sugar.new 640 75 (1/2) (1/2)).update (fun _ => 0) 4800 720

/-- A falling cube at y = 0 with zero vertical velocity and gravity 180. -/
def restingCube : Sugar := { Sugar.new 100 0 (1/2) (1/2) with velocityY := 0 }

/-- Level 15 created on a 1280 x 720 canvas: seventeen cups. -/
def levelFifteenSession : Game :=
  { freshSession with levelNumber := 15 }.initLevel false 0 (fun _ => (1/2, 0))

/-- A session whose level 1 has failed while one cube, dropped from the hand
at (640, 75), is still in the air. -/
def failedSession : Game :=
  { levelOneSession with state := .levelFailed, sugarCubes := [Sugar.new 640 75 (1/2) (1/2)] }

/-- The session levelOneSession once its level has been started. -/
def playingSession : Game := levelOneSession.startLevel 0

/-- The session levelOneSession in the state reached when its level is complete. -/
def completedSession : Game := { levelOneSession with state := .levelComplete }

/-! ## Timer colour (src/src/game/Level.js) -/

/-- The three values returned by Level.getTimerColorState. -/
inductive TimerColorState
  | normal
  | warning
  | danger
  deriving DecidableEq, Repr

/-- Level.getTimerColorState. -/
def Level.getTimerColorState (l : Level) : TimerColorState :=
  let percentage := l.getTimerPercentage
  if percentage > 50 then .normal
  else if percentage > 20 then .warning
  else .danger

/-- Level 1 after one frame of 48 s without a completed cup: 12 of its 60
seconds are left. -/
def twelveSecondsLeft : Level := startedLevelOne.update 48000 0 3 0 0

/-- A small cup (70 px wide) centred on the right border of a 1280 px canvas. -/
def doorwayCup : Cup := Cup.new 1280 520 .small 540 false (1/2) 0

/-- A falling cube whose right side lies on the left side of slotZeroCup. -/
def grazingCube : Sugar := Sugar.new (-723) 520 (1/2) (1/2)

/-! ## Further concrete sessions -/

/-- Level 1 created on freshSession with every cup drawing the requirement 1
(draw 0) and the level drawing the target 5 (draw 0). -/
def thriftySession : Game := freshSession.initLevel false 0 (fun _ => (0, 0))

/-- A session asked to create level 16, one past the last record of the table. -/
def strayLevelSession : Game :=
  { freshSession with levelNumber := 16 }.initLevel false 0 (fun _ => (1/2, 0))

/-! ## The completion counter against the cups -/

/-- The number of cups in a list whose isComplete flag is set. -/
def completeCount (cups : List Cup) : Nat := cups.countP fun cup => cup.isComplete

/-- The number of cups of the session whose isComplete flag is set. -/
def Game.completeCups (g : Game) : Nat := completeCount g.coffeeCups

/-- The relation between the session counters and the cup array: the
completion counter is the number of complete cups, and on a configured level
the cup target is the (non-zero) number of cups. -/
def Game.CountInv (g : Game) : Prop :=
  g.cupsCompletedThisLevel = (g.completeCups : Int) ∧
  (1 ≤ g.levelNumber ∧ g.levelNumber ≤ 15 →
    g.targetCupsForLevel = (g.coffeeCups.length : Int) ∧ 0 < g.coffeeCups.length)

/-! ## The frame update (src/src/game/Hand.js, src/src/game/Game.js) -/

/-- What a frame reads from outside the simulation: Math.sin, the bounce curve
sin(p * pi) of Sugar, whether Game.audioManager is set, and the width of the
conveyor image when the asset loader holds one. -/
structure Host where
  sin : ℚ → ℚ
  sinPi : ℚ → ℚ
  audioManager : Bool
  beltImageWidth : Option ℚ

/-- The clock of one frame: its length in ms and the reading of Date.now(). -/
structure FrameClock where
  deltaTime : ℚ
  now : Int

namespace Hand

/-- Hand.updateDroppingAnimation. -/
def updateDroppingAnimation (h : Hand) (deltaTime : ℚ) : Hand :=
  let h1 := { h with dropAnimationTime := h.dropAnimationTime + deltaTime }
  let progress := min (h1.dropAnimationTime / h1.maxDropAnimationTime) 1
  let easedProgress := 1 - (1 - progress) ^ 3
  let h2 := { h1 with y := h1.startY + easedProgress * 15 }
  if progress ≥ 1 then
    { h2 with state := .returning, dropAnimationTime := 0, hasSugar := false }
  else h2

/-- Hand.updateReturningAnimation. -/
def updateReturningAnimation (h : Hand) (deltaTime : ℚ) : Hand :=
  let h1 := { h with dropAnimationTime := h.dropAnimationTime + deltaTime }
  let returnTime : ℚ := 300
  let progress := min (h1.dropAnimationTime / returnTime) 1
  let easedProgress := progress ^ 2
  let h2 := { h1 with y := h1.startY + 15 * (1 - easedProgress) }
  if progress ≥ 1 then
    { h2 with state := .idle, dropAnimationTime := 0, y := h2.startY, hasSugar := true }
  else h2

/-- Hand.updateIdleAnimation, on the clock reading now of Date.now(). -/
def updateIdleAnimation (sin : ℚ → ℚ) (h : Hand) (now : Int) : Hand :=
  let time : ℚ := (now : ℚ) * (2 / 1000)
  { h with y := h.startY + sin (time * (3 / 2)) * 1 }

/-- Hand.update; canvasWidth is the width of the canvas the hand was built on. -/
def update (sin : ℚ → ℚ) (h : Hand) (deltaTime : ℚ) (now : Int) (canvasWidth : ℚ) : Hand :=
  let dt := deltaTime / 1000
  let h1 :=
    if |h.x - h.targetX| > 1 then
      let direction : ℚ := if h.targetX > h.x then 1 else -1
      let ha := { h with x := h.x + direction * h.moveSpeed * dt }
      if |ha.x - ha.targetX| < ha.moveSpeed * dt then { ha with x := ha.targetX } else ha
    else h
  let h2 :=
    match h1.state with
    | .dropping => updateDroppingAnimation h1 deltaTime
    | .returning => updateReturningAnimation h1 deltaTime
    | .idle => updateIdleAnimation sin h1 now
  { h2 with boundaryRight := canvasWidth - 50 }

end Hand

namespace Game

/-- The cube loop of Game.updateGame.  The source walks the array from its
last index down, so the cubes after the head are processed first; a cube that
is inactive after its step is spliced out. -/
def sugarLoop (host : Host) (deltaTime : ℚ) (now : Int) : List Sugar → Game → Game × List Sugar
  | [], g => (g, [])
  | sugar :: rest, g =>
    let later := sugarLoop host deltaTime now rest g
    let sugar1 := sugar.update host.sinPi deltaTime later.1.canvasHeight
    let r := if sugar1.isFalling then later.1.checkSugarCupCollisions sugar1 now
             else (later.1, sugar1)
    (r.1, if r.2.isActive then r.2 :: later.2 else later.2)

/-- The distance after which the conveyor texture repeats. -/
def resetDistance (host : Host) : ℚ :=
  match host.beltImageWidth with
  | some width => if width > 0 then width else 50
  | none => 50

/-- The part of Game.updateGame after the level checks: hand, cubes with
their collisions, conveyor offset, cups. -/
def updateObjects (host : Host) (g : Game) (deltaTime : ℚ) (now : Int) : Game :=
  let g1 := { g with hand := g.hand.update host.sin deltaTime now g.canvasWidth }
  let looped := sugarLoop host deltaTime now g1.sugarCubes g1
  let g2 := { looped.1 with sugarCubes := looped.2 }
  let speed := conveyorSpeed g2
  let g3 := { g2 with conveyorOffset := g2.conveyorOffset + speed * (deltaTime / 1000) * 60 }
  let g4 :=
    if g3.conveyorOffset ≥ resetDistance host then
      { g3 with conveyorOffset := g3.conveyorOffset - resetDistance host }
    else g3
  advanceCups g4 deltaTime

/-- Game.updateGame: the session after the frame, and whether the frame played
the time-warning sound. -/
def updateGame (host : Host) (g : Game) (deltaTime : ℚ) (now : Int) : Game × Bool :=
  match g.currentLevel with
  | some l =>
    let l1 := l.update deltaTime g.cupsCompletedThisLevel g.targetCupsForLevel
      g.totalSugarDelivered now
    let g1 := { g with currentLevel := some l1 }
    let warned := l1.isTimeWarning && !g1.timeWarningPlayed && host.audioManager
    let g2 := if warned then { g1 with timeWarningPlayed := true } else g1
    if l1.isComplete then ({ g2 with state := .levelComplete }, warned)
    else if l1.isFailed then ({ g2 with state := .levelFailed }, warned)
    else (updateObjects host g2 deltaTime now, warned)
  | none => (updateObjects host g deltaTime now, false)

/-- Game.update: the fade transition, then the switch on the session state. -/
def update (host : Host) (g : Game) (deltaTime : ℚ) (mobile : Bool) (now : Int)
    (randLevel : ℚ) (rands : Nat → ℚ × ℚ) : Game × Bool :=
  let g1 := updateFadeTransition g deltaTime mobile now randLevel rands
  match g1.state with
  | .loading => (g1, false)
  | .menu => ({ g1 with hand := g1.hand.update host.sin deltaTime now g1.canvasWidth }, false)
  | .playing => updateGame host g1 deltaTime now
  | .levelComplete =>
    ({ g1 with hand := g1.hand.update host.sin deltaTime now g1.canvasWidth }, false)
  | .levelFailed =>
    ({ g1 with hand := g1.hand.update host.sin deltaTime now g1.canvasWidth }, false)
  | .gameComplete =>
    ({ g1 with hand := g1.hand.update host.sin deltaTime now g1.canvasWidth }, false)
  | .paused => (g1, false)

/-- A sequence of Game.updateGame calls, one per frame: the session after the
last one and, frame by frame, whether the time warning was played. -/
def updateGameFrames (host : Host) : Game → List FrameClock → Game × List Bool
  | g, [] => (g, [])
  | g, frame :: rest =>
    let r := updateGame host g frame.deltaTime frame.now
    let out := updateGameFrames host r.1 rest
    (out.1, r.2 :: out.2)

/-- The session states of play: Game.initLevel on any session, followed by any
sequence of level starts, drop inputs, whole frames (Game.update, with its fade
step and its switch on the state), playing frames (Game.updateGame), and the
two steps a playing frame is made of, resolver calls (any cube) and cup
advances (any frame time). -/
inductive Reachable : Game → Prop
  | initLevel (g : Game) (mobile : Bool) (randLevel : ℚ) (rands : Nat → ℚ × ℚ) :
      Reachable (g.initLevel mobile randLevel rands)
  | collide {g : Game} (sugar : Sugar) (now : Int) :
      Reachable g → Reachable (g.checkSugarCupCollisions sugar now).1
  | advance {g : Game} (deltaTime : ℚ) : Reachable g → Reachable (g.advanceCups deltaTime)
  | startLevel {g : Game} (now : Int) : Reachable g → Reachable (g.startLevel now)
  | handleDropInput {g : Game} (mobile : Bool) (now : Int) (randLevel : ℚ)
      (rands : Nat → ℚ × ℚ) (randVelocity randRotation : ℚ) :
      Reachable g →
      Reachable (g.handleDropInput mobile now randLevel rands randVelocity randRotation)
  | updateGame {g : Game} (host : Host) (deltaTime : ℚ) (now : Int) :
      Reachable g → Reachable (updateGame host g deltaTime now).1
  | update {g : Game} (host : Host) (deltaTime : ℚ) (mobile : Bool) (now : Int)
      (randLevel : ℚ) (rands : Nat → ℚ × ℚ) :
      Reachable g → Reachable (update host g deltaTime mobile now randLevel rands).1

end Game

/-- The invariant of a session of play: every cup is one the program can build
(Cup.Reachable) and the counters agree with the cup array (Game.CountInv). -/
def Game.SessionInv (g : Game) : Prop :=
  (∀ c ∈ g.coffeeCups, c.Reachable) ∧ g.CountInv

/-- A host with an audio manager and no conveyor image. -/
def audioHost : Host := ⟨fun _ => 0, fun _ => 0, true, none⟩

/-- The level held by playingSession: level 1 with the target 6 written by
Game.createCupsForLevel, started at clock 0. -/
def playingLevel : Level := ({ Level.new 1 0 with totalSugarNeeded := 6 } : Level).start 0

/-! ## Theorems -/

/-! ### Level: completion, failure and the timer -/

theorem startedLevelOne_running : startedLevelOne.running := by
  simp [startedLevelOne, Level.running, Level.start, Level.new]

theorem startedLevelOne_reachable : startedLevelOne.Reachable :=
  Level.Reachable.start 0 (Level.Reachable.new 1 0)

theorem startedLevelOne_timeRemaining : startedLevelOne.timeRemaining = 60 := by
  simp [startedLevelOne, Level.start, Level.new, Level.lookupConfig, LEVELS]

/-- The time limit of every record the constructor can select is positive. -/
theorem Level.lookupConfig_time_pos (n : Int) : 0 < (Level.lookupConfig n).time := by
  unfold Level.lookupConfig
  split
  · split
    · next c hc =>
      have hmem : c ∈ LEVELS := List.get?_mem hc
      simp only [LEVELS, List.mem_cons, List.mem_singleton, List.not_mem_nil, or_false] at hmem
      rcases hmem with h | h | h | h | h | h | h | h | h | h | h | h | h | h | h <;>
        (subst h; norm_num)
    · norm_num [LEVEL_ONE]
  · norm_num [LEVEL_ONE]

/-- Level.update returns at its guard on a level that is not running. -/
theorem Level.update_of_not_running (l : Level) (deltaTime : ℚ)
    (completedCups totalCups sugarDelivered now : Int) (h : ¬ l.running) :
    l.update deltaTime completedCups totalCups sugarDelivered now = l := by
  unfold Level.update
  split
  · rfl
  · next hg =>
    exfalso
    apply h
    simp only [Bool.or_eq_true, Bool.not_eq_true', not_or, Bool.not_eq_true] at hg
    obtain ⟨⟨⟨hs, hc⟩, hf⟩, hp⟩ := hg
    exact ⟨by simpa using hs, hp, hc, hf⟩

/-- The three exits of Level.update on a running level. -/
theorem Level.update_of_running (l : Level) (deltaTime : ℚ)
    (completedCups totalCups sugarDelivered now : Int) (h : l.running) :
    l.update deltaTime completedCups totalCups sugarDelivered now =
      if completedCups > 0 ∧ completedCups = totalCups then
        Level.complete { l with timeRemaining := l.timeRemaining - deltaTime / 1000
                                cupsCompleted := completedCups
                                totalCupsNeeded := totalCups
                                sugarDelivered := sugarDelivered } now
      else if l.timeRemaining - deltaTime / 1000 ≤ 0 then
        Level.fail { l with timeRemaining := 0
                            cupsCompleted := completedCups
                            totalCupsNeeded := totalCups
                            sugarDelivered := sugarDelivered } now
      else { l with timeRemaining := l.timeRemaining - deltaTime / 1000
                    cupsCompleted := completedCups
                    totalCupsNeeded := totalCups
                    sugarDelivered := sugarDelivered } := by
  obtain ⟨hs, hp, hc, hf⟩ := h
  unfold Level.update
  simp only [hs, hp, hc, hf, Bool.not_true, Bool.or_self, Bool.false_eq_true, if_false]

/-- On a running level update sets isComplete exactly on the completion test. -/
theorem Level.update_isComplete_iff (l : Level) (deltaTime : ℚ)
    (completedCups totalCups sugarDelivered now : Int) (h : l.running) :
    (l.update deltaTime completedCups totalCups sugarDelivered now).isComplete = true ↔
      (completedCups > 0 ∧ completedCups = totalCups) := by
  rw [Level.update_of_running l deltaTime completedCups totalCups sugarDelivered now h]
  obtain ⟨_, _, hc, hf⟩ := h
  by_cases hcc : completedCups > 0 ∧ completedCups = totalCups
  · rw [if_pos hcc]
    refine ⟨fun _ => hcc, fun _ => ?_⟩
    simp [Level.complete, Level.calculateScore, hc]
  · rw [if_neg hcc]
    by_cases ht : l.timeRemaining - deltaTime / 1000 ≤ 0
    · rw [if_pos ht]; simp [Level.fail, hf, hc, hcc]
    · rw [if_neg ht]; simp [hc, hcc]

/-- On a running level update sets isFailed exactly when the timer runs out in
a call that does not complete the level. -/
theorem Level.update_isFailed_iff (l : Level) (deltaTime : ℚ)
    (completedCups totalCups sugarDelivered now : Int) (h : l.running) :
    (l.update deltaTime completedCups totalCups sugarDelivered now).isFailed = true ↔
      (l.timeRemaining - deltaTime / 1000 ≤ 0 ∧
        ¬ (completedCups > 0 ∧ completedCups = totalCups)) := by
  rw [Level.update_of_running l deltaTime completedCups totalCups sugarDelivered now h]
  obtain ⟨_, _, hc, hf⟩ := h
  by_cases hcc : completedCups > 0 ∧ completedCups = totalCups
  · rw [if_pos hcc]
    constructor
    · intro hfail
      simp [Level.complete, Level.calculateScore, hc, hf] at hfail
    · intro hfail
      exact absurd hcc hfail.2
  · rw [if_neg hcc]
    by_cases ht : l.timeRemaining - deltaTime / 1000 ≤ 0
    · rw [if_pos ht]; simp [Level.fail, hf, hcc, ht]
    · rw [if_neg ht]; simp [hf, hcc, ht]

/-- C1: on a running level, Level.update sets isComplete exactly when
completedCups equals totalCups and completedCups is positive; so 3 of 3 cups
completes the level for any sugar count, and 4 of 5 cups with the time run out
fails the level and does not complete it. -/
theorem C1_update_complete_iff (l : Level) (deltaTime : ℚ)
    (completedCups totalCups sugarDelivered now : Int) (h : l.running) :
    ((l.update deltaTime completedCups totalCups sugarDelivered now).isComplete = true ↔
      (completedCups = totalCups ∧ completedCups > 0)) ∧
    (∀ s : Int, (l.update deltaTime 3 3 s now).isComplete = true) ∧
    (l.timeRemaining - deltaTime / 1000 ≤ 0 →
      (l.update deltaTime 4 5 sugarDelivered now).isComplete = false ∧
      (l.update deltaTime 4 5 sugarDelivered now).isFailed = true) := by
  refine ⟨?_, ?_, ?_⟩
  · rw [Level.update_isComplete_iff l deltaTime completedCups totalCups sugarDelivered now h]
    exact and_comm
  · intro s
    exact (Level.update_isComplete_iff l deltaTime 3 3 s now h).2 (by decide)
  · intro ht
    constructor
    · have hn := (Level.update_isComplete_iff l deltaTime 4 5 sugarDelivered now h).not.2
        (by decide)
      simpa using hn
    · exact (Level.update_isFailed_iff l deltaTime 4 5 sugarDelivered now h).2 ⟨ht, by decide⟩

theorem C1_update_complete_iff_witness :
    startedLevelOne.running ∧
    ((startedLevelOne.update 16 3 3 6 0).isComplete = true ↔ ((3 : Int) = 3 ∧ (3 : Int) > 0)) :=
  ⟨startedLevelOne_running, (C1_update_complete_iff startedLevelOne 16 3 3 6 0
    startedLevelOne_running).1⟩

/-- C2, as stated, fails: level 1 (60 s) is running with 60 s left, the frame
lasts 61000 ms so the timer crosses zero, and all 3 of 3 cups are complete; the
update completes the level and does not set isFailed. -/
theorem C2_counterexample :
    startedLevelOne.running ∧ startedLevelOne.timeRemaining > 0 ∧ (0 : ℚ) ≤ 61000 ∧
    startedLevelOne.timeRemaining - 61000 / 1000 ≤ 0 ∧
    (startedLevelOne.update 61000 3 3 6 0).isFailed = false := by
  refine ⟨startedLevelOne_running, ?_, by norm_num, ?_, ?_⟩
  · rw [startedLevelOne_timeRemaining]; norm_num
  · rw [startedLevelOne_timeRemaining]; norm_num
  · have hn := (Level.update_isFailed_iff startedLevelOne 61000 3 3 6 0
      startedLevelOne_running).not.2 (by simp)
    simpa using hn

/-- C2 (amended): on a running level with time left and a non-negative
deltaTime, Level.update sets isFailed exactly when the timer crosses to zero or
below in that call and the call does not complete the level (completion is
tested first and returns). -/
theorem C2_update_failed_iff (l : Level) (deltaTime : ℚ)
    (completedCups totalCups sugarDelivered now : Int) (h : l.running)
    (_hpos : 0 < l.timeRemaining) (_hdt : 0 ≤ deltaTime) :
    (l.update deltaTime completedCups totalCups sugarDelivered now).isFailed = true ↔
      (l.timeRemaining - deltaTime / 1000 ≤ 0 ∧
        ¬ (completedCups > 0 ∧ completedCups = totalCups)) :=
  Level.update_isFailed_iff l deltaTime completedCups totalCups sugarDelivered now h

theorem C2_update_failed_iff_witness :
    startedLevelOne.running ∧ 0 < startedLevelOne.timeRemaining ∧ (0 : ℚ) ≤ 61000 ∧
    ((startedLevelOne.update 61000 2 3 4 0).isFailed = true ↔
      (startedLevelOne.timeRemaining - 61000 / 1000 ≤ 0 ∧
        ¬ ((2 : Int) > 0 ∧ (2 : Int) = 3))) :=
  ⟨startedLevelOne_running, by rw [startedLevelOne_timeRemaining]; norm_num, by norm_num,
    C2_update_failed_iff startedLevelOne 61000 2 3 4 0 startedLevelOne_running
      (by rw [startedLevelOne_timeRemaining]; norm_num) (by norm_num)⟩

/-- The two terminal flags of a level are never both set. -/
theorem Level.not_complete_and_failed_of_reachable {l : Level} (h : l.Reachable) :
    ¬ (l.isComplete = true ∧ l.isFailed = true) := by
  induction h with
  | new n r => simp [Level.new]
  | start now _ ih => simpa [Level.start] using ih
  | @update l dt cc tc sd now _ _ ih =>
    by_cases hrun : l.running
    · rintro ⟨h1, h2⟩
      exact ((Level.update_isFailed_iff l dt cc tc sd now hrun).1 h2).2
        ((Level.update_isComplete_iff l dt cc tc sd now hrun).1 h1)
    · rw [Level.update_of_not_running l dt cc tc sd now hrun]
      exact ih
  | pause now _ ih =>
    unfold Level.pause
    split
    · simpa using ih
    · exact ih
  | resume now _ ih =>
    unfold Level.resume
    split
    · simpa using ih
    · exact ih

/-- C3: in every state reachable from a new Level through start, update
(non-negative deltaTime, any counts), pause and resume, isComplete and isFailed
are never both true, so exactly one of in-progress, complete, failed holds. -/
theorem C3_complete_failed_exclusive (l : Level) (h : l.Reachable) :
    ¬ (l.isComplete = true ∧ l.isFailed = true) ∧
    ((l.inProgress ∧ l.isComplete ≠ true ∧ l.isFailed ≠ true) ∨
     (¬ l.inProgress ∧ l.isComplete = true ∧ l.isFailed ≠ true) ∨
     (¬ l.inProgress ∧ l.isComplete ≠ true ∧ l.isFailed = true)) := by
  have hx := Level.not_complete_and_failed_of_reachable h
  refine ⟨hx, ?_⟩
  unfold Level.inProgress
  cases hc : l.isComplete <;> cases hf : l.isFailed <;> simp_all

theorem C3_complete_failed_exclusive_witness :
    lateCompletion.Reachable ∧
    ¬ (lateCompletion.isComplete = true ∧ lateCompletion.isFailed = true) :=
  ⟨Level.Reachable.update 61000 3 3 6 0 (by norm_num) startedLevelOne_reachable,
   (C3_complete_failed_exclusive lateCompletion
     (Level.Reachable.update 61000 3 3 6 0 (by norm_num) startedLevelOne_reachable)).1⟩

/-- What the timer does satisfy in every reachable state: it never exceeds
maxTime, and it is non-negative as long as the level is not complete. -/
theorem Level.timeRemaining_bounds_of_reachable {l : Level} (h : l.Reachable) :
    0 < l.maxTime ∧ l.timeRemaining ≤ l.maxTime ∧ (l.isComplete = false → 0 ≤ l.timeRemaining) := by
  induction h with
  | new n r =>
    have hpos := Level.lookupConfig_time_pos n
    simp only [Level.new]
    exact ⟨hpos, le_refl _, fun _ => le_of_lt hpos⟩
  | start now _ ih => simpa [Level.start] using ih
  | @update l dt cc tc sd now hdt _ ih =>
    by_cases hrun : l.running
    · rw [Level.update_of_running l dt cc tc sd now hrun]
      obtain ⟨_, _, hc, hf⟩ := hrun
      obtain ⟨hmax, hle, _⟩ := ih
      have hdt1 : 0 ≤ dt / 1000 := div_nonneg hdt (by norm_num)
      split
      · simp only [Level.complete, Level.calculateScore, hc, Bool.not_false, if_true]
        exact ⟨hmax, by linarith, fun hfalse => by simp at hfalse⟩
      · split
        · simp only [Level.fail, hf, Bool.not_false, if_true]
          exact ⟨hmax, le_of_lt hmax, fun _ => le_refl _⟩
        · next ht =>
          exact ⟨hmax, by show l.timeRemaining - dt / 1000 ≤ l.maxTime; linarith,
            fun _ => le_of_lt (not_le.1 ht)⟩
    · rw [Level.update_of_not_running l dt cc tc sd now hrun]
      exact ih
  | pause now _ ih =>
    unfold Level.pause
    split
    · simpa using ih
    · exact ih
  | resume now _ ih =>
    unfold Level.resume
    split
    · simpa using ih
    · exact ih

/-- C10 fails on the code: level 1 is started with 60 s left and updated once
with deltaTime 61000 ms while 3 of 3 cups are complete.  Level.update subtracts
61 s, completes the level and returns before the clamp of the time-up branch,
leaving the reachable state with timeRemaining = -1, below the claimed bound 0. -/
theorem C10_timeRemaining_negative_after_late_completion :
    lateCompletion.Reachable ∧ lateCompletion.isComplete = true ∧
    lateCompletion.timeRemaining = -1 ∧ ¬ (0 ≤ lateCompletion.timeRemaining) := by
  have hr : lateCompletion.Reachable :=
    Level.Reachable.update 61000 3 3 6 0 (by norm_num) startedLevelOne_reachable
  have ht : lateCompletion.timeRemaining = -1 := by
    unfold lateCompletion
    rw [Level.update_of_running startedLevelOne 61000 3 3 6 0 startedLevelOne_running]
    simp [Level.complete, Level.calculateScore, startedLevelOne_running.2.2.1,
      startedLevelOne_timeRemaining]
    norm_num
  refine ⟨hr, ?_, ht, ?_⟩
  · exact (Level.update_isComplete_iff startedLevelOne 61000 3 3 6 0
      startedLevelOne_running).2 (by decide)
  · rw [ht]; norm_num

/-! ### Cup: fill invariant, wrap-around, accept and overfill -/

/-- The requirement generator only returns 1, 2 or 3. -/
theorem Cup.generateSugarRequirement_mem (rand : ℚ) :
    Cup.generateSugarRequirement rand = 1 ∨ Cup.generateSugarRequirement rand = 2 ∨
    Cup.generateSugarRequirement rand = 3 := by
  unfold Cup.generateSugarRequirement
  split
  · exact Or.inl rfl
  · split
    · exact Or.inr (Or.inl rfl)
    · exact Or.inr (Or.inr rfl)

/-- Cup.update never writes the fill state, the identity, the lane or the
slot data of a cup, wrapped or not. -/
theorem Cup.update_frame (c : Cup) (deltaTime conveyorSpeed canvasWidth : ℚ) :
    (c.update deltaTime conveyorSpeed canvasWidth).1.currentSugar = c.currentSugar ∧
    (c.update deltaTime conveyorSpeed canvasWidth).1.requiredSugar = c.requiredSugar ∧
    (c.update deltaTime conveyorSpeed canvasWidth).1.isComplete = c.isComplete ∧
    (c.update deltaTime conveyorSpeed canvasWidth).1.customerName = c.customerName ∧
    (c.update deltaTime conveyorSpeed canvasWidth).1.isActive = c.isActive ∧
    (c.update deltaTime conveyorSpeed canvasWidth).1.y = c.y := by
  unfold Cup.update
  simp only [Cup.resetCup, Cup.snapshot, Cup.calculateSlotPosition]
  split_ifs <;> simp

/-- On a wrap Cup.update leaves the cup at its slot position. -/
theorem Cup.update_wrapped_x (c : Cup) (deltaTime conveyorSpeed canvasWidth : ℚ)
    (h : (c.update deltaTime conveyorSpeed canvasWidth).2.wrapped = true) :
    (c.update deltaTime conveyorSpeed canvasWidth).1.x = c.calculateSlotPosition := by
  revert h
  unfold Cup.update
  simp only [Cup.resetCup, Cup.snapshot, Cup.calculateSlotPosition]
  split_ifs <;> simp

/-- Cup.addSugar on a cup below its requirement. -/
theorem Cup.addSugar_of_lt (c : Cup) (now : Int) (h : c.currentSugar < c.requiredSugar) :
    (c.addSugar now).2 = true ∧
    (c.addSugar now).1.currentSugar = c.currentSugar + 1 ∧
    (c.addSugar now).1.requiredSugar = c.requiredSugar ∧
    (c.addSugar now).1.isComplete =
      (decide (c.currentSugar + 1 = c.requiredSugar) || c.isComplete) ∧
    (c.addSugar now).1.isActive = c.isActive ∧
    (c.addSugar now).1.customerName = c.customerName := by
  unfold Cup.addSugar
  rw [if_pos h]
  dsimp only
  split_ifs with heq <;> simp [heq]

/-- Cup.addSugar on a cup at (or above) its requirement. -/
theorem Cup.addSugar_of_not_lt (c : Cup) (now : Int) (h : ¬ c.currentSugar < c.requiredSugar) :
    c.addSugar now = (c, false) := by
  unfold Cup.addSugar
  rw [if_neg h]

/-- Cup.tryOverfill on a complete cup. -/
theorem Cup.tryOverfill_of_complete (c : Cup) (h : c.isComplete = true) :
    c.tryOverfill.2 = true ∧ c.tryOverfill.1.currentSugar = 0 ∧
    c.tryOverfill.1.isComplete = false ∧ c.tryOverfill.1.requiredSugar = c.requiredSugar ∧
    c.tryOverfill.1.isActive = c.isActive ∧ c.tryOverfill.1.customerName = c.customerName := by
  unfold Cup.tryOverfill
  rw [if_pos h]
  simp

/-- Cup.tryOverfill on a cup that is not complete. -/
theorem Cup.tryOverfill_of_not_complete (c : Cup) (h : c.isComplete = false) :
    c.tryOverfill = (c, false) := by
  unfold Cup.tryOverfill
  simp [h]

/-- Cup.recoverState on a cup whose counts are already valid only refreshes
the completion flag (and a missing name). -/
theorem Cup.recoverState_of_valid (c : Cup) (randSugar randName : ℚ)
    (h0 : 0 ≤ c.currentSugar) (hle : c.currentSugar ≤ c.requiredSugar)
    (h1 : 1 ≤ c.requiredSugar) (h3 : c.requiredSugar ≤ 3) :
    (c.recoverState randSugar randName).currentSugar = c.currentSugar ∧
    (c.recoverState randSugar randName).requiredSugar = c.requiredSugar ∧
    (c.recoverState randSugar randName).isComplete =
      decide (c.currentSugar = c.requiredSugar) ∧
    (c.recoverState randSugar randName).isActive = c.isActive := by
  have hn0 : ¬ c.currentSugar < 0 := by omega
  have hnr : ¬ (c.requiredSugar < 1 ∨ c.requiredSugar > 3) := by omega
  have hng : ¬ c.currentSugar > c.requiredSugar := by omega
  unfold Cup.recoverState
  simp only [hn0, hnr, if_false]
  cases hname : c.customerName with
  | none => simp [hng]
  | some n =>
    dsimp only
    split_ifs <;> simp_all

/-- The invariant of the fill state carried by every reachable cup. -/
theorem Cup.inv_of_reachable {c : Cup} (h : c.Reachable) : c.Inv := by
  induction h with
  | new x y size conveyorY mobile rs rn =>
    have hm := Cup.generateSugarRequirement_mem rs
    simp only [Cup.Inv, Cup.new]
    refine ⟨le_refl _, by omega, hm, ?_, trivial⟩
    constructor
    · intro hf; simp at hf
    · intro hz; omega
  | assignSlot i sp st n _ ih => simpa [Cup.Inv, Cup.assignSlot] using ih
  | @addSugar c now _ ih =>
    obtain ⟨h0, hle, hreq, hiff, hact⟩ := ih
    by_cases hlt : c.currentSugar < c.requiredSugar
    · obtain ⟨_, e1, e2, e3, e4, _⟩ := Cup.addSugar_of_lt c now hlt
      unfold Cup.Inv
      rw [e1, e2, e3, e4]
      refine ⟨by omega, by omega, hreq, ?_, hact⟩
      constructor
      · intro hc
        simp only [Bool.or_eq_true, decide_eq_true_eq] at hc
        rcases hc with hc | hc
        · exact hc
        · have := hiff.1 hc; omega
      · intro he; simp [he]
    · rw [Cup.addSugar_of_not_lt c now hlt]
      exact ⟨h0, hle, hreq, hiff, hact⟩
  | @tryOverfill c _ ih =>
    obtain ⟨h0, hle, hreq, hiff, hact⟩ := ih
    cases hc : c.isComplete with
    | true =>
      obtain ⟨_, e1, e2, e3, e4, _⟩ := Cup.tryOverfill_of_complete c hc
      unfold Cup.Inv
      rw [e1, e2, e3, e4]
      refine ⟨le_refl _, by omega, hreq, ?_, hact⟩
      constructor
      · intro hf; simp at hf
      · intro hz; omega
    | false =>
      rw [Cup.tryOverfill_of_not_complete c hc]
      exact ⟨h0, hle, hreq, hiff, hact⟩
  | @update c dt sp cw _ ih =>
    obtain ⟨h1, h2, h3, _, h5, _⟩ := Cup.update_frame c dt sp cw
    unfold Cup.Inv
    rw [h1, h2, h3, h5]
    exact ih
  | @recoverState c rs rn _ ih =>
    obtain ⟨h0, hle, hreq, hiff, hact⟩ := ih
    obtain ⟨e1, e2, e3, e4⟩ := Cup.recoverState_of_valid c rs rn h0 hle (by omega) (by omega)
    unfold Cup.Inv
    rw [e1, e2, e3, e4]
    exact ⟨h0, hle, hreq, by simp, hact⟩

theorem edgeCup_reachable : edgeCup.Reachable :=
  Cup.Reachable.new 1400 520 .small 540 false (1/2) 0

theorem halfCup_reachable : halfCup.Reachable :=
  Cup.Reachable.addSugar 0 edgeCup_reachable

theorem fullCup_reachable : fullCup.Reachable :=
  Cup.Reachable.addSugar 0 halfCup_reachable

theorem edgeCup_counts : edgeCup.currentSugar = 0 ∧ edgeCup.requiredSugar = 2 := by
  simp [edgeCup, Cup.new, Cup.generateSugarRequirement, ONE_SUGAR, TWO_SUGAR]
  norm_num

theorem halfCup_counts : halfCup.currentSugar = 1 ∧ halfCup.requiredSugar = 2 := by
  obtain ⟨h0, h2⟩ := edgeCup_counts
  obtain ⟨_, e1, e2, _⟩ := Cup.addSugar_of_lt edgeCup 0 (by rw [h0, h2]; decide)
  unfold halfCup
  rw [e1, e2, h0, h2]
  exact ⟨rfl, rfl⟩

theorem fullCup_counts : fullCup.currentSugar = 2 ∧ fullCup.requiredSugar = 2 := by
  obtain ⟨h1, h2⟩ := halfCup_counts
  obtain ⟨_, e1, e2, _⟩ := Cup.addSugar_of_lt halfCup 0 (by rw [h1, h2]; decide)
  unfold fullCup
  rw [e1, e2, h1, h2]
  exact ⟨rfl, rfl⟩

theorem edgeCup_wraps : (edgeCup.update 16 1 1280).2.wrapped = true := by
  simp [edgeCup, Cup.update, Cup.new, Cup.getSizeWidth, Cup.mobileScale]
  norm_num

/-- C4: in every state of a cup reachable from its constructor through the
slot assignment, addSugar, tryOverfill, update (wrap-around included) and
recoverState, 0 ≤ currentSugar ≤ requiredSugar and requiredSugar is 1, 2 or 3. -/
theorem C4_cup_fill_invariant (c : Cup) (h : c.Reachable) :
    0 ≤ c.currentSugar ∧ c.currentSugar ≤ c.requiredSugar ∧
    (c.requiredSugar = 1 ∨ c.requiredSugar = 2 ∨ c.requiredSugar = 3) :=
  ⟨(Cup.inv_of_reachable h).1, (Cup.inv_of_reachable h).2.1, (Cup.inv_of_reachable h).2.2.1⟩

theorem C4_cup_fill_invariant_witness :
    (fullCup.update 16 1 1280).1.Reachable ∧
    (0 ≤ (fullCup.update 16 1 1280).1.currentSugar ∧
     (fullCup.update 16 1 1280).1.currentSugar ≤ (fullCup.update 16 1 1280).1.requiredSugar ∧
     ((fullCup.update 16 1 1280).1.requiredSugar = 1 ∨
      (fullCup.update 16 1 1280).1.requiredSugar = 2 ∨
      (fullCup.update 16 1 1280).1.requiredSugar = 3)) :=
  ⟨Cup.Reachable.update 16 1 1280 fullCup_reachable,
   C4_cup_fill_invariant _ (Cup.Reachable.update 16 1 1280 fullCup_reachable)⟩

/-- C5: when a cup with currentSugar < requiredSugar wraps around in a call of
Cup.update, its currentSugar, requiredSugar, isComplete and customerName are
the same after the call as before; the wrap only resets the position, to the
slot position offScreenStart + slotIndex * slotSpacing, on the same lane y. -/
theorem C5_wrap_keeps_progress (c : Cup) (deltaTime conveyorSpeed canvasWidth : ℚ)
    (_hinc : c.currentSugar < c.requiredSugar)
    (hwrap : (c.update deltaTime conveyorSpeed canvasWidth).2.wrapped = true) :
    (c.update deltaTime conveyorSpeed canvasWidth).1.currentSugar = c.currentSugar ∧
    (c.update deltaTime conveyorSpeed canvasWidth).1.requiredSugar = c.requiredSugar ∧
    (c.update deltaTime conveyorSpeed canvasWidth).1.isComplete = c.isComplete ∧
    (c.update deltaTime conveyorSpeed canvasWidth).1.customerName = c.customerName ∧
    (c.update deltaTime conveyorSpeed canvasWidth).1.x =
      c.offScreenStart + (c.slotIndex : ℚ) * c.slotSpacing ∧
    (c.update deltaTime conveyorSpeed canvasWidth).1.y = c.y := by
  obtain ⟨h1, h2, h3, h4, _, h6⟩ := Cup.update_frame c deltaTime conveyorSpeed canvasWidth
  exact ⟨h1, h2, h3, h4, Cup.update_wrapped_x c deltaTime conveyorSpeed canvasWidth hwrap, h6⟩

theorem C5_wrap_keeps_progress_witness :
    edgeCup.currentSugar < edgeCup.requiredSugar ∧
    (edgeCup.update 16 1 1280).2.wrapped = true ∧
    (edgeCup.update 16 1 1280).1.currentSugar = edgeCup.currentSugar ∧
    (edgeCup.update 16 1 1280).1.customerName = edgeCup.customerName :=
  have hlt : edgeCup.currentSugar < edgeCup.requiredSugar := by
    rw [edgeCup_counts.1, edgeCup_counts.2]; decide
  ⟨hlt, edgeCup_wraps,
   (C5_wrap_keeps_progress edgeCup 16 1 1280 hlt edgeCup_wraps).1,
   (C5_wrap_keeps_progress edgeCup 16 1 1280 hlt edgeCup_wraps).2.2.2.1⟩

/-- C6: on every reachable cup, Cup.addSugar returns true exactly when
currentSugar < requiredSugar held before the call (the test of canAcceptSugar);
when it returns true currentSugar has grown by exactly one and isComplete is
true exactly when the new count equals requiredSugar (so required 2, current 1
becomes current 2, complete); when it returns false currentSugar and
isComplete are unchanged. -/
theorem C6_addSugar_contract (c : Cup) (now : Int) (h : c.Reachable) :
    ((c.addSugar now).2 = true ↔ c.currentSugar < c.requiredSugar) ∧
    (c.canAcceptSugar = true ↔ c.currentSugar < c.requiredSugar) ∧
    ((c.addSugar now).2 = true →
      (c.addSugar now).1.currentSugar = c.currentSugar + 1 ∧
      ((c.addSugar now).1.isComplete = true ↔
        (c.addSugar now).1.currentSugar = c.requiredSugar)) ∧
    ((c.addSugar now).2 = false →
      (c.addSugar now).1.currentSugar = c.currentSugar ∧
      (c.addSugar now).1.isComplete = c.isComplete) ∧
    (c.requiredSugar = 2 → c.currentSugar = 1 →
      (c.addSugar now).1.currentSugar = 2 ∧ (c.addSugar now).1.isComplete = true) := by
  obtain ⟨h0, hle, hreq, hiff, hact⟩ := Cup.inv_of_reachable h
  by_cases hlt : c.currentSugar < c.requiredSugar
  · obtain ⟨e0, e1, e2, e3, _, _⟩ := Cup.addSugar_of_lt c now hlt
    have hnc : c.isComplete = false := by
      cases hc : c.isComplete with
      | false => rfl
      | true => have := hiff.1 hc; omega
    refine ⟨⟨fun _ => hlt, fun _ => e0⟩, ?_, ?_, ?_, ?_⟩
    · simp [Cup.canAcceptSugar, hact]
    · intro _
      refine ⟨e1, ?_⟩
      rw [e3, e1, hnc]
      simp
    · intro hf
      rw [e0] at hf
      exact absurd hf (by decide)
    · intro h2 h1
      rw [e1, e3, h1, h2]
      exact ⟨rfl, by simp⟩
  · have e := Cup.addSugar_of_not_lt c now hlt
    rw [e]
    refine ⟨⟨fun hf => absurd hf (by simp), fun hl => absurd hl hlt⟩, ?_, ?_, ?_, ?_⟩
    · simp [Cup.canAcceptSugar, hact]
    · intro hf
      exact absurd hf (by simp)
    · intro _
      exact ⟨rfl, rfl⟩
    · intro h2 h1
      omega

theorem C6_addSugar_contract_witness :
    halfCup.Reachable ∧
    (halfCup.addSugar 0).1.currentSugar = 2 ∧ (halfCup.addSugar 0).1.isComplete = true :=
  ⟨halfCup_reachable,
   (C6_addSugar_contract halfCup 0 halfCup_reachable).2.2.2.2 halfCup_counts.2 halfCup_counts.1⟩

/-- C7: on every reachable cup, Cup.tryOverfill returns true exactly when the
cup was complete, and then leaves currentSugar = 0 and isComplete = false;
otherwise it returns false and changes neither field.  Hence on a cup with
currentSugar = requiredSugar, addSugar is rejected without incrementing and the
following tryOverfill resets the cup to currentSugar = 0, isComplete = false. -/
theorem C7_tryOverfill_contract (c : Cup) (now : Int) (h : c.Reachable) :
    (c.tryOverfill.2 = true ↔ c.isComplete = true) ∧
    (c.isComplete = true →
      c.tryOverfill.1.currentSugar = 0 ∧ c.tryOverfill.1.isComplete = false) ∧
    (c.isComplete = false →
      c.tryOverfill.2 = false ∧ c.tryOverfill.1.currentSugar = c.currentSugar ∧
      c.tryOverfill.1.isComplete = c.isComplete) ∧
    (c.currentSugar = c.requiredSugar →
      (c.addSugar now).2 = false ∧ (c.addSugar now).1.currentSugar = c.currentSugar ∧
      (c.addSugar now).1.tryOverfill.2 = true ∧
      (c.addSugar now).1.tryOverfill.1.currentSugar = 0 ∧
      (c.addSugar now).1.tryOverfill.1.isComplete = false) := by
  obtain ⟨_, _, _, hiff, _⟩ := Cup.inv_of_reachable h
  refine ⟨?_, ?_, ?_, ?_⟩
  · cases hc : c.isComplete with
    | true => simp [(Cup.tryOverfill_of_complete c hc).1]
    | false => simp [Cup.tryOverfill_of_not_complete c hc]
  · intro hc
    obtain ⟨_, e1, e2, _⟩ := Cup.tryOverfill_of_complete c hc
    exact ⟨e1, e2⟩
  · intro hc
    rw [Cup.tryOverfill_of_not_complete c hc]
    exact ⟨rfl, rfl, rfl⟩
  · intro heq
    have hc : c.isComplete = true := hiff.2 heq
    rw [Cup.addSugar_of_not_lt c now (by omega)]
    obtain ⟨e0, e1, e2, _⟩ := Cup.tryOverfill_of_complete c hc
    exact ⟨rfl, rfl, e0, e1, e2⟩

theorem C7_tryOverfill_contract_witness :
    fullCup.Reachable ∧ fullCup.currentSugar = fullCup.requiredSugar ∧
    (fullCup.addSugar 0).2 = false ∧
    (fullCup.addSugar 0).1.tryOverfill.1.currentSugar = 0 ∧
    (fullCup.addSugar 0).1.tryOverfill.1.isComplete = false :=
  have heq : fullCup.currentSugar = fullCup.requiredSugar := by
    rw [fullCup_counts.1, fullCup_counts.2]
  ⟨fullCup_reachable, heq,
   ((C7_tryOverfill_contract fullCup 0 fullCup_reachable).2.2.2 heq).1,
   ((C7_tryOverfill_contract fullCup 0 fullCup_reachable).2.2.2 heq).2.2.2.1,
   ((C7_tryOverfill_contract fullCup 0 fullCup_reachable).2.2.2 heq).2.2.2.2⟩

/-! ### Collision resolver -/

/-- A cube that meets no cup leaves the loop state as it was. -/
theorem Game.collisionLoop_of_no_hit (now : Int) (sugar : Sugar) (cc tsd : Int) (cups : List Cup)
    (h : ∀ c ∈ cups, CollisionDetection.checkSugarCupCollision sugar c = false) :
    Game.collisionLoop now sugar cc tsd cups = ⟨cups, sugar, cc, tsd⟩ := by
  induction cups with
  | nil => rfl
  | cons c rest ih =>
    have hc : CollisionDetection.checkSugarCupCollision sugar c = false :=
      h c (List.mem_cons_self c rest)
    have hrest := ih (fun d hd => h d (List.mem_cons_of_mem c hd))
    unfold Game.collisionLoop
    simp [hc, hrest]

/-- A cup that satisfies the fill invariant and cannot accept sugar is complete. -/
theorem Cup.isComplete_of_not_canAcceptSugar {c : Cup} (hinv : c.Inv)
    (h : c.canAcceptSugar = false) : c.isComplete = true := by
  obtain ⟨_, hle, _, hiff, hact⟩ := hinv
  simp only [Cup.canAcceptSugar, hact, Bool.and_true, decide_eq_false_iff_not] at h
  exact hiff.2 (by omega)

/-- The resolver on the first intersecting cup, when that cup accepts. -/
theorem Game.collisionLoop_accept (now : Int) (sugar : Sugar) (cc tsd : Int)
    (pre : List Cup) (c : Cup) (post : List Cup)
    (hpre : ∀ d ∈ pre, CollisionDetection.checkSugarCupCollision sugar d = false)
    (hhit : CollisionDetection.checkSugarCupCollision sugar c = true)
    (hacc : c.canAcceptSugar = true) :
    Game.collisionLoop now sugar cc tsd (pre ++ c :: post) =
      ⟨pre ++ (c.addSugar now).1 :: post, { sugar with isActive := false },
       if (!c.isComplete && (c.addSugar now).1.isComplete) = true then cc + 1 else cc,
       tsd + 1⟩ := by
  induction pre with
  | nil =>
    simp only [List.nil_append]
    unfold Game.collisionLoop
    simp [hhit, hacc]
  | cons d pre ih =>
    have hd : CollisionDetection.checkSugarCupCollision sugar d = false :=
      hpre d (List.mem_cons_self d pre)
    have hrest := ih (fun e he => hpre e (List.mem_cons_of_mem d he))
    simp only [List.cons_append]
    unfold Game.collisionLoop
    simp [hd, hrest]

/-- The resolver on the first intersecting cup, when that cup is complete. -/
theorem Game.collisionLoop_overfill (now : Int) (sugar : Sugar) (cc tsd : Int)
    (pre : List Cup) (c : Cup) (post : List Cup)
    (hpre : ∀ d ∈ pre, CollisionDetection.checkSugarCupCollision sugar d = false)
    (hhit : CollisionDetection.checkSugarCupCollision sugar c = true)
    (hacc : c.canAcceptSugar = false) (hcomplete : c.isComplete = true) :
    Game.collisionLoop now sugar cc tsd (pre ++ c :: post) =
      ⟨pre ++ c.tryOverfill.1 :: post, sugar.bounce, max 0 (cc - 1), tsd⟩ := by
  induction pre with
  | nil =>
    have hov : c.tryOverfill.2 = true := (Cup.tryOverfill_of_complete c hcomplete).1
    simp only [List.nil_append]
    unfold Game.collisionLoop
    simp [hhit, hacc, hov]
  | cons d pre ih =>
    have hd : CollisionDetection.checkSugarCupCollision sugar d = false :=
      hpre d (List.mem_cons_self d pre)
    have hrest := ih (fun e he => hpre e (List.mem_cons_of_mem d he))
    simp only [List.cons_append]
    unfold Game.collisionLoop
    simp [hd, hrest]

/-- The resolver only ever stores cups obtained by addSugar or tryOverfill. -/
theorem Game.collisionLoop_cups_reachable (now : Int) (sugar : Sugar) (cc tsd : Int)
    (cups : List Cup) (h : ∀ c ∈ cups, c.Reachable) :
    ∀ c ∈ (Game.collisionLoop now sugar cc tsd cups).cups, c.Reachable := by
  induction cups with
  | nil => intro c hc; simp [Game.collisionLoop] at hc
  | cons d rest ih =>
    have hd : d.Reachable := h d (List.mem_cons_self d rest)
    have hrest : ∀ c ∈ rest, c.Reachable := fun c hc => h c (List.mem_cons_of_mem d hc)
    have ih' := ih hrest
    intro c hc
    unfold Game.collisionLoop at hc
    by_cases hhit : CollisionDetection.checkSugarCupCollision sugar d = true
    · by_cases hacc : d.canAcceptSugar = true
      · simp only [hhit, hacc, if_true] at hc
        rcases List.mem_cons.1 hc with hc | hc
        · rw [hc]; exact Cup.Reachable.addSugar now hd
        · exact hrest c hc
      · by_cases hov : d.tryOverfill.2 = true
        · simp only [hhit, hacc, hov, if_true, if_false] at hc
          rcases List.mem_cons.1 hc with hc | hc
          · rw [hc]; exact Cup.Reachable.tryOverfill hd
          · exact hrest c hc
        · simp only [hhit, hacc, hov, if_true, if_false] at hc
          rcases List.mem_cons.1 hc with hc | hc
          · rw [hc]; exact Cup.Reachable.tryOverfill hd
          · exact ih' c hc
    · simp only [hhit, if_false] at hc
      rcases List.mem_cons.1 hc with hc | hc
      · rw [hc]; exact hd
      · exact ih' c hc

/-- Every cup made by Game.setupSlotBasedPositioning is a reachable cup. -/
theorem Game.setupSlotBasedPositioning_cups_reachable (g : Game) (cupCount : Nat)
    (cupY conveyorY : ℚ) (mobile : Bool) (rands : Nat → ℚ × ℚ)
    (h : ∀ c ∈ g.coffeeCups, c.Reachable) :
    ∀ c ∈ (g.setupSlotBasedPositioning cupCount cupY conveyorY mobile rands).coffeeCups,
      c.Reachable := by
  intro c hc
  simp only [Game.setupSlotBasedPositioning, List.mem_append, List.mem_map, List.mem_range] at hc
  rcases hc with hc | ⟨i, _, rfl⟩
  · exact h c hc
  · exact Cup.Reachable.assignSlot _ _ _ _ (Cup.Reachable.new _ _ _ _ _ _ _)

/-- Every cup of a freshly initialised level is a reachable cup. -/
theorem Game.initLevel_cups_reachable (g : Game) (mobile : Bool) (randLevel : ℚ)
    (rands : Nat → ℚ × ℚ) :
    ∀ c ∈ (g.initLevel mobile randLevel rands).coffeeCups, c.Reachable := by
  unfold Game.initLevel Game.createCupsForLevel
  dsimp only
  split
  · intro c hc; simp at hc
  · intro c hc
    simp only [Game.setupSlotBasedPositioning, List.nil_append, List.mem_map,
      List.mem_range] at hc
    obtain ⟨i, _, rfl⟩ := hc
    exact Cup.Reachable.assignSlot _ _ _ _ (Cup.Reachable.new _ _ _ _ _ _ _)

/-- Game.startLevel never writes the cup array. -/
theorem Game.startLevel_coffeeCups (g : Game) (now : Int) :
    (g.startLevel now).coffeeCups = g.coffeeCups := by
  unfold Game.startLevel
  dsimp only
  cases g.currentLevel <;> rfl

theorem levelOneSession_reachable : levelOneSession.Reachable :=
  Game.Reachable.initLevel freshSession false 0 (fun _ => (1/2, 0))

theorem levelOneSession_cups :
    levelOneSession.coffeeCups = [] ++ slotZeroCup :: [slotOneCup, slotTwoCup] := by
  simp [levelOneSession, freshSession, Game.initLevel, Game.createCupsForLevel, LEVELS,
    Game.setupSlotBasedPositioning, List.range, List.range.loop, Cup.mobileScale,
    slotZeroCup, slotOneCup, slotTwoCup, Game.sizeOfIndex]
  norm_num

theorem cubeOnSlotZero_hits (c : Cup) (hx : c.x = -680) (hy : c.y = 520) (hw : c.width = 70)
    (hh : c.height = 60) : CollisionDetection.checkSugarCupCollision cubeOnSlotZero c = true := by
  simp [CollisionDetection.checkSugarCupCollision, CollisionDetection.checkAABB,
    CollisionDetection.getSugarBounds, CollisionDetection.getCupBounds, Cup.getBounds,
    cubeOnSlotZero, Sugar.new, hx, hy, hw, hh]
  norm_num

theorem slotZeroCup_fields :
    slotZeroCup.x = -680 ∧ slotZeroCup.y = 520 ∧ slotZeroCup.width = 70 ∧
    slotZeroCup.height = 60 ∧ slotZeroCup.currentSugar = 0 ∧ slotZeroCup.requiredSugar = 2 ∧
    slotZeroCup.isActive = true ∧ slotZeroCup.isComplete = false := by
  simp [slotZeroCup, Cup.assignSlot, Cup.new, Cup.getSizeWidth, Cup.getSizeHeight,
    Cup.mobileScale, Cup.generateSugarRequirement, ONE_SUGAR, TWO_SUGAR]
  norm_num

/-- Cup.addSugar moves neither the cup nor its box. -/
theorem Cup.addSugar_geometry (c : Cup) (now : Int) :
    (c.addSugar now).1.x = c.x ∧ (c.addSugar now).1.y = c.y ∧
    (c.addSugar now).1.width = c.width ∧ (c.addSugar now).1.height = c.height := by
  unfold Cup.addSugar
  dsimp only
  split_ifs <;> simp

theorem slotZeroCup_once_fields :
    (slotZeroCup.addSugar 0).1.x = -680 ∧ (slotZeroCup.addSugar 0).1.y = 520 ∧
    (slotZeroCup.addSugar 0).1.width = 70 ∧ (slotZeroCup.addSugar 0).1.height = 60 ∧
    (slotZeroCup.addSugar 0).1.currentSugar = 1 ∧
    (slotZeroCup.addSugar 0).1.requiredSugar = 2 ∧
    (slotZeroCup.addSugar 0).1.isActive = true ∧
    (slotZeroCup.addSugar 0).1.isComplete = false := by
  obtain ⟨hx, hy, hw, hh, hc, hr, ha, hcomp⟩ := slotZeroCup_fields
  obtain ⟨gx, gy, gw, gh⟩ := Cup.addSugar_geometry slotZeroCup 0
  obtain ⟨_, e1, e2, e3, e4, _⟩ := Cup.addSugar_of_lt slotZeroCup 0 (by rw [hc, hr]; decide)
  rw [gx, gy, gw, gh, e1, e2, e3, e4, hx, hy, hw, hh, hc, hr, ha, hcomp]
  simp

theorem slotZeroCup_twice_fields :
    ((slotZeroCup.addSugar 0).1.addSugar 0).1.x = -680 ∧
    ((slotZeroCup.addSugar 0).1.addSugar 0).1.y = 520 ∧
    ((slotZeroCup.addSugar 0).1.addSugar 0).1.width = 70 ∧
    ((slotZeroCup.addSugar 0).1.addSugar 0).1.height = 60 ∧
    ((slotZeroCup.addSugar 0).1.addSugar 0).1.currentSugar = 2 ∧
    ((slotZeroCup.addSugar 0).1.addSugar 0).1.requiredSugar = 2 ∧
    ((slotZeroCup.addSugar 0).1.addSugar 0).1.isActive = true ∧
    ((slotZeroCup.addSugar 0).1.addSugar 0).1.isComplete = true := by
  obtain ⟨hx, hy, hw, hh, hc, hr, ha, hcomp⟩ := slotZeroCup_once_fields
  obtain ⟨gx, gy, gw, gh⟩ := Cup.addSugar_geometry (slotZeroCup.addSugar 0).1 0
  obtain ⟨_, e1, e2, e3, e4, _⟩ :=
    Cup.addSugar_of_lt (slotZeroCup.addSugar 0).1 0 (by rw [hc, hr]; decide)
  rw [gx, gy, gw, gh, e1, e2, e3, e4, hx, hy, hw, hh, hc, hr, ha, hcomp]
  simp

theorem oneHitSession_cups :
    oneHitSession.coffeeCups = [] ++ (slotZeroCup.addSugar 0).1 :: [slotOneCup, slotTwoCup] := by
  obtain ⟨hx, hy, hw, hh, hc, hr, ha, _⟩ := slotZeroCup_fields
  have hhit := cubeOnSlotZero_hits slotZeroCup hx hy hw hh
  have hacc : slotZeroCup.canAcceptSugar = true := by simp [Cup.canAcceptSugar, hc, hr, ha]
  simp only [oneHitSession, Game.checkSugarCupCollisions]
  rw [levelOneSession_cups, Game.collisionLoop_accept 0 cubeOnSlotZero _ _ [] slotZeroCup _
    (by intro d hd; simp at hd) hhit hacc]

theorem twoHitSession_cups :
    twoHitSession.coffeeCups =
      [] ++ ((slotZeroCup.addSugar 0).1.addSugar 0).1 :: [slotOneCup, slotTwoCup] := by
  obtain ⟨hx, hy, hw, hh, hc, hr, ha, _⟩ := slotZeroCup_once_fields
  have hhit := cubeOnSlotZero_hits (slotZeroCup.addSugar 0).1 hx hy hw hh
  have hacc : (slotZeroCup.addSugar 0).1.canAcceptSugar = true := by
    simp [Cup.canAcceptSugar, hc, hr, ha]
  simp only [twoHitSession, Game.checkSugarCupCollisions]
  rw [oneHitSession_cups, Game.collisionLoop_accept 0 cubeOnSlotZero _ _ []
    (slotZeroCup.addSugar 0).1 _ (by intro d hd; simp at hd) hhit hacc]

theorem twoHitSession_reachable : twoHitSession.Reachable :=
  Game.Reachable.collide cubeOnSlotZero 0
    (Game.Reachable.collide cubeOnSlotZero 0 levelOneSession_reachable)

/-- C8: in any session whose cups are cups the program can build (created by
the level set-up and changed only by addSugar, tryOverfill, update and
recoverState, as in every state of play), whatever its state, level and
counters, Game.checkSugarCupCollisions changes nothing when the cube meets no
cup; otherwise it resolves the cube on the first cup in creation order whose
box meets the cube's, by exactly one of the two resolutions (accept when the
cup can take sugar, overfill and bounce when it cannot), and every other cup,
before or after it in the array, is left as it was, whether or not it also
meets the cube. -/
theorem C8_first_intersecting_cup_resolved (g : Game) (sugar : Sugar) (now : Int)
    (hcups : ∀ c ∈ g.coffeeCups, c.Reachable) :
    ((∀ c ∈ g.coffeeCups, CollisionDetection.checkSugarCupCollision sugar c = false) →
      g.checkSugarCupCollisions sugar now = (g, sugar)) ∧
    (∀ (pre : List Cup) (c : Cup) (post : List Cup),
      g.coffeeCups = pre ++ c :: post →
      (∀ d ∈ pre, CollisionDetection.checkSugarCupCollision sugar d = false) →
      CollisionDetection.checkSugarCupCollision sugar c = true →
      (c.canAcceptSugar = true ∧ (c.addSugar now).2 = true ∧
        (g.checkSugarCupCollisions sugar now).1.coffeeCups =
          pre ++ (c.addSugar now).1 :: post ∧
        (g.checkSugarCupCollisions sugar now).2 = { sugar with isActive := false }) ∨
      (c.canAcceptSugar = false ∧ c.tryOverfill.2 = true ∧
        (g.checkSugarCupCollisions sugar now).1.coffeeCups =
          pre ++ c.tryOverfill.1 :: post ∧
        (g.checkSugarCupCollisions sugar now).2 = sugar.bounce)) := by
  constructor
  · intro hmiss
    simp only [Game.checkSugarCupCollisions]
    rw [Game.collisionLoop_of_no_hit now sugar _ _ g.coffeeCups hmiss]
  · intro pre c post hsplit hpre hhit
    have hinv : c.Inv := Cup.inv_of_reachable (hcups c (by rw [hsplit]; simp))
    cases hacc : c.canAcceptSugar with
    | true =>
      left
      have hlt : c.currentSugar < c.requiredSugar := by
        simp only [Cup.canAcceptSugar, Bool.and_eq_true, decide_eq_true_eq] at hacc
        exact hacc.1
      refine ⟨rfl, (Cup.addSugar_of_lt c now hlt).1, ?_, ?_⟩ <;>
      · simp only [Game.checkSugarCupCollisions]
        rw [hsplit, Game.collisionLoop_accept now sugar _ _ pre c post hpre hhit hacc]
    | false =>
      right
      have hcomp := Cup.isComplete_of_not_canAcceptSugar hinv hacc
      refine ⟨rfl, (Cup.tryOverfill_of_complete c hcomp).1, ?_, ?_⟩ <;>
      · simp only [Game.checkSugarCupCollisions]
        rw [hsplit, Game.collisionLoop_overfill now sugar _ _ pre c post hpre hhit hacc hcomp]

theorem levelOneSession_cups_reachable : ∀ c ∈ levelOneSession.coffeeCups, c.Reachable :=
  Game.initLevel_cups_reachable freshSession false 0 (fun _ => (1/2, 0))

theorem playingSession_cups :
    playingSession.coffeeCups = [] ++ slotZeroCup :: [slotOneCup, slotTwoCup] :=
  (Game.startLevel_coffeeCups levelOneSession 0).trans levelOneSession_cups

theorem playingSession_cups_reachable : ∀ c ∈ playingSession.coffeeCups, c.Reachable := by
  intro c hc
  rw [show playingSession.coffeeCups = levelOneSession.coffeeCups from
    Game.startLevel_coffeeCups levelOneSession 0] at hc
  exact levelOneSession_cups_reachable c hc

theorem twoHitSession_cups_reachable : ∀ c ∈ twoHitSession.coffeeCups, c.Reachable :=
  Game.collisionLoop_cups_reachable 0 cubeOnSlotZero _ _ _
    (Game.collisionLoop_cups_reachable 0 cubeOnSlotZero _ _ _ levelOneSession_cups_reachable)

theorem C8_first_intersecting_cup_resolved_witness :
    (∀ c ∈ playingSession.coffeeCups, c.Reachable) ∧
    playingSession.coffeeCups = [] ++ slotZeroCup :: [slotOneCup, slotTwoCup] ∧
    CollisionDetection.checkSugarCupCollision cubeOnSlotZero slotZeroCup = true ∧
    ((slotZeroCup.canAcceptSugar = true ∧ (slotZeroCup.addSugar 0).2 = true ∧
        (playingSession.checkSugarCupCollisions cubeOnSlotZero 0).1.coffeeCups =
          [] ++ (slotZeroCup.addSugar 0).1 :: [slotOneCup, slotTwoCup] ∧
        (playingSession.checkSugarCupCollisions cubeOnSlotZero 0).2 =
          { cubeOnSlotZero with isActive := false }) ∨
      (slotZeroCup.canAcceptSugar = false ∧ slotZeroCup.tryOverfill.2 = true ∧
        (playingSession.checkSugarCupCollisions cubeOnSlotZero 0).1.coffeeCups =
          [] ++ slotZeroCup.tryOverfill.1 :: [slotOneCup, slotTwoCup] ∧
        (playingSession.checkSugarCupCollisions cubeOnSlotZero 0).2 = cubeOnSlotZero.bounce)) :=
  have hhit : CollisionDetection.checkSugarCupCollision cubeOnSlotZero slotZeroCup = true :=
    cubeOnSlotZero_hits slotZeroCup slotZeroCup_fields.1 slotZeroCup_fields.2.1
      slotZeroCup_fields.2.2.1 slotZeroCup_fields.2.2.2.1
  ⟨playingSession_cups_reachable, playingSession_cups, hhit,
   (C8_first_intersecting_cup_resolved playingSession cubeOnSlotZero 0
      playingSession_cups_reachable).2 [] slotZeroCup [slotOneCup, slotTwoCup] playingSession_cups
      (fun d hd => absurd hd (List.not_mem_nil d)) hhit⟩

/-- C9: when the resolver hits a cup (the first one meeting the cube), in any
session whose cups are cups the program can build: if the cup can accept sugar, its currentSugar rises by one,
the cube becomes inactive, totalSugarDelivered rises by one, and
cupsCompletedThisLevel rises by one exactly when the hit completed the cup;
otherwise the cup was complete, it is reset to currentSugar = 0 and
isComplete = false, the cube keeps its isActive flag and goes from falling to
bouncing, totalSugarDelivered is unchanged and cupsCompletedThisLevel becomes
max 0 (previous - 1). -/
theorem C9_resolution_effects (g : Game) (sugar : Sugar) (now : Int)
    (hcups : ∀ d ∈ g.coffeeCups, d.Reachable)
    (pre : List Cup) (c : Cup) (post : List Cup)
    (hsplit : g.coffeeCups = pre ++ c :: post)
    (hpre : ∀ d ∈ pre, CollisionDetection.checkSugarCupCollision sugar d = false)
    (hhit : CollisionDetection.checkSugarCupCollision sugar c = true) :
    (c.canAcceptSugar = true →
      c.isComplete = false ∧
      (g.checkSugarCupCollisions sugar now).1.coffeeCups = pre ++ (c.addSugar now).1 :: post ∧
      (c.addSugar now).1.currentSugar = c.currentSugar + 1 ∧
      (g.checkSugarCupCollisions sugar now).2.isActive = false ∧
      (g.checkSugarCupCollisions sugar now).1.totalSugarDelivered = g.totalSugarDelivered + 1 ∧
      (g.checkSugarCupCollisions sugar now).1.cupsCompletedThisLevel =
        (if (c.addSugar now).1.isComplete = true then g.cupsCompletedThisLevel + 1
         else g.cupsCompletedThisLevel)) ∧
    (c.canAcceptSugar = false →
      c.isComplete = true ∧
      (g.checkSugarCupCollisions sugar now).1.coffeeCups = pre ++ c.tryOverfill.1 :: post ∧
      c.tryOverfill.1.currentSugar = 0 ∧ c.tryOverfill.1.isComplete = false ∧
      (g.checkSugarCupCollisions sugar now).2.isActive = sugar.isActive ∧
      (g.checkSugarCupCollisions sugar now).2.isFalling = false ∧
      (g.checkSugarCupCollisions sugar now).2.isBouncing = true ∧
      (g.checkSugarCupCollisions sugar now).1.totalSugarDelivered = g.totalSugarDelivered ∧
      (g.checkSugarCupCollisions sugar now).1.cupsCompletedThisLevel =
        max 0 (g.cupsCompletedThisLevel - 1)) := by
  have hinv : c.Inv :=
    Cup.inv_of_reachable (hcups c (by rw [hsplit]; simp))
  constructor
  · intro hacc
    have hlt : c.currentSugar < c.requiredSugar := by
      simp only [Cup.canAcceptSugar, Bool.and_eq_true, decide_eq_true_eq] at hacc
      exact hacc.1
    have hnc : c.isComplete = false := by
      cases hc : c.isComplete with
      | false => rfl
      | true => have := hinv.2.2.2.1.1 hc; omega
    simp only [Game.checkSugarCupCollisions]
    rw [hsplit, Game.collisionLoop_accept now sugar _ _ pre c post hpre hhit hacc]
    refine ⟨hnc, rfl, (Cup.addSugar_of_lt c now hlt).2.1, rfl, rfl, ?_⟩
    simp [hnc]
  · intro hacc
    have hcomp := Cup.isComplete_of_not_canAcceptSugar hinv hacc
    obtain ⟨_, e1, e2, _⟩ := Cup.tryOverfill_of_complete c hcomp
    simp only [Game.checkSugarCupCollisions]
    rw [hsplit, Game.collisionLoop_overfill now sugar _ _ pre c post hpre hhit hacc hcomp]
    exact ⟨hcomp, rfl, e1, e2, rfl, rfl, rfl, rfl, rfl⟩

theorem C9_resolution_effects_witness :
    (∀ d ∈ twoHitSession.coffeeCups, d.Reachable) ∧
    twoHitSession.coffeeCups =
      [] ++ ((slotZeroCup.addSugar 0).1.addSugar 0).1 :: [slotOneCup, slotTwoCup] ∧
    CollisionDetection.checkSugarCupCollision cubeOnSlotZero
      ((slotZeroCup.addSugar 0).1.addSugar 0).1 = true ∧
    ((slotZeroCup.addSugar 0).1.addSugar 0).1.canAcceptSugar = false ∧
    (twoHitSession.checkSugarCupCollisions cubeOnSlotZero 0).2.isBouncing = true ∧
    (twoHitSession.checkSugarCupCollisions cubeOnSlotZero 0).1.cupsCompletedThisLevel =
      max 0 (twoHitSession.cupsCompletedThisLevel - 1) :=
  have hhit : CollisionDetection.checkSugarCupCollision cubeOnSlotZero
      ((slotZeroCup.addSugar 0).1.addSugar 0).1 = true :=
    cubeOnSlotZero_hits _ slotZeroCup_twice_fields.1 slotZeroCup_twice_fields.2.1
      slotZeroCup_twice_fields.2.2.1 slotZeroCup_twice_fields.2.2.2.1
  have hacc : ((slotZeroCup.addSugar 0).1.addSugar 0).1.canAcceptSugar = false := by
    simp [Cup.canAcceptSugar, slotZeroCup_twice_fields.2.2.2.2.1,
      slotZeroCup_twice_fields.2.2.2.2.2.1]
  ⟨twoHitSession_cups_reachable, twoHitSession_cups, hhit, hacc,
   ((C9_resolution_effects twoHitSession cubeOnSlotZero 0 twoHitSession_cups_reachable []
      ((slotZeroCup.addSugar 0).1.addSugar 0).1 [slotOneCup, slotTwoCup] twoHitSession_cups
      (fun d hd => absurd hd (List.not_mem_nil d)) hhit).2 hacc).2.2.2.2.2.2.1,
   ((C9_resolution_effects twoHitSession cubeOnSlotZero 0 twoHitSession_cups_reachable []
      ((slotZeroCup.addSugar 0).1.addSugar 0).1 [slotOneCup, slotTwoCup] twoHitSession_cups
      (fun d hd => absurd hd (List.not_mem_nil d)) hhit).2 hacc).2.2.2.2.2.2.2.2⟩

/-! ### Level: pause, resume and the score -/

/-- A level that is not running is left as it is by any sequence of updates. -/
theorem Level.updates_of_not_running (l : Level) (calls : List Level.UpdateCall)
    (h : ¬ l.running) : l.updates calls = l := by
  induction calls with
  | nil => rfl
  | cons c cs ih =>
    unfold Level.updates at ih ⊢
    rw [List.foldl_cons, Level.update_of_not_running l _ _ _ _ _ h]
    exact ih

/-- Level.pause does nothing on a level that is not running. -/
theorem Level.pause_of_not_running (l : Level) (now : Int) (h : ¬ l.running) :
    l.pause now = l := by
  unfold Level.pause
  split
  · next hg =>
    exfalso
    apply h
    simp only [Bool.and_eq_true, Bool.not_eq_true', Bool.not_eq_true] at hg
    obtain ⟨⟨⟨hp, hs⟩, hc⟩, hf⟩ := hg
    exact ⟨hs, hp, hc, hf⟩
  · rfl

/-- Level.pause on a running level sets the pause flag and keeps the timer. -/
theorem Level.pause_of_running (l : Level) (now : Int) (h : l.running) :
    ¬ (l.pause now).running ∧ (l.pause now).isPaused = true ∧
    (l.pause now).timeRemaining = l.timeRemaining ∧ (l.pause now).isStarted = true ∧
    (l.pause now).isComplete = false ∧ (l.pause now).isFailed = false := by
  obtain ⟨hs, hp, hc, hf⟩ := h
  unfold Level.pause
  simp [hs, hp, hc, hf, Level.running]

/-- Level.resume on a paused level clears the pause flag and keeps the timer. -/
theorem Level.resume_of_paused (l : Level) (now : Int) (h : l.isPaused = true) :
    (l.resume now).isPaused = false ∧ (l.resume now).timeRemaining = l.timeRemaining ∧
    (l.resume now).isStarted = l.isStarted ∧ (l.resume now).isComplete = l.isComplete ∧
    (l.resume now).isFailed = l.isFailed ∧
    (l.resume now).totalSugarNeeded = l.totalSugarNeeded := by
  unfold Level.resume
  simp [h]

/-- The timer after one update of a running level. -/
theorem Level.update_timeRemaining_of_running (l : Level) (deltaTime : ℚ)
    (completedCups totalCups sugarDelivered now : Int) (h : l.running) :
    (l.update deltaTime completedCups totalCups sugarDelivered now).timeRemaining =
      if ¬ (completedCups > 0 ∧ completedCups = totalCups) ∧
          l.timeRemaining - deltaTime / 1000 ≤ 0 then 0
      else l.timeRemaining - deltaTime / 1000 := by
  rw [Level.update_of_running l deltaTime completedCups totalCups sugarDelivered now h]
  obtain ⟨_, _, hc, hf⟩ := h
  by_cases hcc : completedCups > 0 ∧ completedCups = totalCups
  · rw [if_pos hcc, if_neg (fun hn => hn.1 hcc)]
    simp [Level.complete, Level.calculateScore, hc]
  · rw [if_neg hcc]
    by_cases ht : l.timeRemaining - deltaTime / 1000 ≤ 0
    · rw [if_pos ht, if_pos ⟨hcc, ht⟩]
      simp [Level.fail, hf]
    · rw [if_neg ht, if_neg (fun hn => ht hn.2)]

/-- C11: Level.update changes nothing on a level that is not running (not
started, paused, complete or failed), and neither does pause.  After pause on a
running level any sequence of update calls leaves the level, hence its
timeRemaining, as pause left it; after resume the next update decrements the
timer again (to timeRemaining - deltaTime/1000, or to the clamp 0 when the time
runs out). -/
theorem C11_update_frozen_unless_running (l : Level) (h : l.running)
    (pauseNow resumeNow : Int) (calls : List Level.UpdateCall)
    (deltaTime : ℚ) (completedCups totalCups sugarDelivered now : Int) :
    (∀ m : Level, ¬ m.running → ∀ (dt : ℚ) (cc tc sd t : Int), m.update dt cc tc sd t = m) ∧
    (∀ m : Level, ¬ m.running → ∀ t : Int, m.pause t = m) ∧
    (l.pause pauseNow).updates calls = l.pause pauseNow ∧
    ((l.pause pauseNow).updates calls).timeRemaining = l.timeRemaining ∧
    ((((l.pause pauseNow).updates calls).resume resumeNow).update deltaTime completedCups
        totalCups sugarDelivered now).timeRemaining =
      (if ¬ (completedCups > 0 ∧ completedCups = totalCups) ∧
          l.timeRemaining - deltaTime / 1000 ≤ 0 then 0
       else l.timeRemaining - deltaTime / 1000) ∧
    (0 < deltaTime → 0 < l.timeRemaining →
      ((((l.pause pauseNow).updates calls).resume resumeNow).update deltaTime completedCups
        totalCups sugarDelivered now).timeRemaining < l.timeRemaining) := by
  obtain ⟨hnr, hp, ht, hs, hc, hf⟩ := Level.pause_of_running l pauseNow h
  have hfrozen := Level.updates_of_not_running (l.pause pauseNow) calls hnr
  obtain ⟨rp, rt, rs, rc, rf, _⟩ := Level.resume_of_paused (l.pause pauseNow) resumeNow hp
  have hrun : ((l.pause pauseNow).resume resumeNow).running :=
    ⟨by rw [rs, hs], rp, by rw [rc, hc], by rw [rf, hf]⟩
  have hstep := Level.update_timeRemaining_of_running ((l.pause pauseNow).resume resumeNow)
    deltaTime completedCups totalCups sugarDelivered now hrun
  rw [rt, ht] at hstep
  refine ⟨fun m hm dt cc tc sd t => Level.update_of_not_running m dt cc tc sd t hm,
    fun m hm t => Level.pause_of_not_running m t hm, hfrozen, by rw [hfrozen, ht], ?_, ?_⟩
  · rw [hfrozen]; exact hstep
  · intro hdt hpos
    rw [hfrozen, hstep]
    have hd : 0 < deltaTime / 1000 := div_pos hdt (by norm_num)
    split_ifs
    · exact hpos
    · linarith

theorem C11_update_frozen_unless_running_witness :
    startedLevelOne.running ∧
    ((startedLevelOne.pause 5).updates [⟨16, 0, 3, 0, 6⟩, ⟨16, 1, 3, 2, 7⟩]).timeRemaining =
      startedLevelOne.timeRemaining :=
  ⟨startedLevelOne_running,
   (C11_update_frozen_unless_running startedLevelOne startedLevelOne_running 5 8
      [⟨16, 0, 3, 0, 6⟩, ⟨16, 1, 3, 2, 7⟩] 16 1 3 2 9).2.2.2.1⟩

/-- A rational within 1/2 of an integer rounds to that integer. -/
theorem roundHalfEven_of_abs_lt (m : ℚ) (r : Int) (h : |m - r| < 1 / 2) :
    roundHalfEven m = r := by
  obtain ⟨h1, h2⟩ := abs_lt.1 h
  unfold roundHalfEven
  by_cases hge : (r : ℚ) ≤ m
  · have hfl : ⌊m⌋ = r := by
      rw [Int.floor_eq_iff]
      constructor <;> linarith
    rw [hfl, if_pos (by linarith)]
  · have hfl : ⌊m⌋ = r - 1 := by
      rw [Int.floor_eq_iff]
      push_cast
      constructor <;> linarith
    rw [hfl]
    push_cast
    rw [if_neg (by linarith), if_pos (by linarith)]
    ring

/-- Rounding never goes below the floor. -/
theorem floor_le_roundHalfEven (m : ℚ) : ⌊m⌋ ≤ roundHalfEven m := by
  unfold roundHalfEven
  split_ifs <;> omega

/-- The double nearest to x, from its binary exponent e and the integer r
nearest to x / 2^(e - 52). -/
theorem roundDouble_eq (x : ℚ) (e r : Int) (he : -1022 ≤ e) (hlo : (2 : ℚ) ^ e ≤ |x|)
    (hhi : |x| < (2 : ℚ) ^ (e + 1)) (hr : |x / (2 : ℚ) ^ (e - 52) - r| < 1 / 2) :
    roundDouble x = r * (2 : ℚ) ^ (e - 52) := by
  have hpos : 0 < |x| := lt_of_lt_of_le (by positivity) hlo
  have hx : x ≠ 0 := abs_pos.1 hpos
  have hlog : Int.log 2 |x| = e := by
    apply le_antisymm
    · have := (Int.lt_zpow_iff_log_lt (R := ℚ) (b := 2) (by norm_num) hpos (x := e + 1)).1
        (by exact_mod_cast hhi)
      omega
    · exact (Int.zpow_le_iff_le_log (R := ℚ) (b := 2) (by norm_num) hpos).1
        (by exact_mod_cast hlo)
  unfold roundDouble
  rw [if_neg hx]
  simp only [hlog, max_eq_left he]
  rw [roundHalfEven_of_abs_lt _ r hr]

/-- The double nearest to a non-negative number is not negative. -/
theorem roundDouble_nonneg (x : ℚ) (h : 0 ≤ x) : 0 ≤ roundDouble x := by
  unfold roundDouble
  split_ifs with h0
  · exact le_refl 0
  · dsimp only
    have hulp : (0 : ℚ) < (2 : ℚ) ^ (max (Int.log 2 |x|) (-1022) - 52) := by positivity
    have hm : 0 ≤ x / (2 : ℚ) ^ (max (Int.log 2 |x|) (-1022) - 52) := div_nonneg h hulp.le
    have hfl : (0 : Int) ≤ roundHalfEven (x / (2 : ℚ) ^ (max (Int.log 2 |x|) (-1022) - 52)) :=
      le_trans (Int.floor_nonneg.2 hm) (floor_le_roundHalfEven _)
    have hq : (0 : ℚ) ≤
        (roundHalfEven (x / (2 : ℚ) ^ (max (Int.log 2 |x|) (-1022) - 52)) : ℚ) := by
      exact_mod_cast hfl
    exact mul_nonneg hq hulp.le

/-- In doubles 23 / 10 * 100 is 229.99999999999997, below 230. -/
theorem roundDouble_efficiency_23_of_10 :
    roundDouble (roundDouble (23 / 10) * 100) = 8092405580431359 * (2 : ℚ) ^ ((7 : Int) - 52) ∧
    ⌊roundDouble (roundDouble (23 / 10) * 100)⌋ = 229 := by
  have h1 : roundDouble (23 / 10) = 5179139571476070 * (2 : ℚ) ^ ((1 : Int) - 52) := by
    apply roundDouble_eq
    · norm_num
    · norm_num [abs_of_pos]
    · norm_num [abs_of_pos]
    · rw [abs_lt]; norm_num
  have h2 : roundDouble (roundDouble (23 / 10) * 100) =
      8092405580431359 * (2 : ℚ) ^ ((7 : Int) - 52) := by
    rw [h1]
    apply roundDouble_eq
    · norm_num
    · norm_num [abs_of_pos]
    · norm_num [abs_of_pos]
    · rw [abs_lt]; norm_num
  refine ⟨h2, ?_⟩
  rw [h2, Int.floor_eq_iff]
  norm_num

/-- In doubles 6 / 5 * 100 is exactly 120. -/
theorem roundDouble_efficiency_6_of_5 :
    roundDouble (roundDouble (6 / 5) * 100) = 120 := by
  have h1 : roundDouble (6 / 5) = 5404319552844595 * (2 : ℚ) ^ ((0 : Int) - 52) := by
    apply roundDouble_eq
    · norm_num
    · norm_num [abs_of_pos]
    · norm_num [abs_of_pos]
    · rw [abs_lt]; norm_num
  rw [h1]
  have h2 := roundDouble_eq (5404319552844595 * (2 : ℚ) ^ ((0 : Int) - 52) * 100) 6
    8444249301319680 (by norm_num) (by norm_num [abs_of_pos]) (by norm_num [abs_of_pos])
    (by rw [abs_lt]; norm_num)
  rw [h2]; norm_num

/-- The products 59 * 10 and -1 * 10 are exact in doubles. -/
theorem roundDouble_time_products :
    roundDouble 590 = 590 ∧ roundDouble (-10) = -10 := by
  constructor
  · have h := roundDouble_eq 590 9 5189694883102720 (by norm_num) (by norm_num [abs_of_pos])
      (by norm_num [abs_of_pos]) (by rw [abs_lt]; norm_num)
    rw [h]; norm_num
  · have h := roundDouble_eq (-10) 3 (-5629499534213120) (by norm_num) (by norm_num [abs_of_neg])
      (by norm_num [abs_of_neg]) (by rw [abs_lt]; norm_num)
    rw [h]; norm_num

/-- The score stored by a completing update of a running level. -/
theorem Level.update_score_of_completion (l : Level) (deltaTime : ℚ)
    (completedCups totalCups sugarDelivered now : Int) (h : l.running)
    (hcomp : completedCups > 0 ∧ completedCups = totalCups) :
    (l.update deltaTime completedCups totalCups sugarDelivered now).score =
      max 0 ⌊roundDouble ((l.timeRemaining - deltaTime / 1000) * 10)⌋ +
        ⌊roundDouble (roundDouble ((sugarDelivered : ℚ) / (l.totalSugarNeeded : ℚ)) * 100)⌋ ∧
    (l.update deltaTime completedCups totalCups sugarDelivered now).timeRemaining =
      l.timeRemaining - deltaTime / 1000 ∧
    (l.update deltaTime completedCups totalCups sugarDelivered now).sugarDelivered =
      sugarDelivered ∧
    (l.update deltaTime completedCups totalCups sugarDelivered now).totalSugarNeeded =
      l.totalSugarNeeded := by
  rw [Level.update_of_running l deltaTime completedCups totalCups sugarDelivered now h,
    if_pos hcomp]
  obtain ⟨_, _, hc, _⟩ := h
  simp [Level.complete, Level.calculateScore, hc]

theorem startedLevelOne_totalSugarNeeded : startedLevelOne.totalSugarNeeded = 5 := by
  simp [startedLevelOne, Level.start, Level.new, Level.lookupConfig, LEVELS,
    Level.generateTotalSugarTarget]

theorem startedLevelThree_fields :
    startedLevelThree.running ∧ startedLevelThree.timeRemaining = 60 ∧
    startedLevelThree.totalSugarNeeded = 10 := by
  refine ⟨?_, ?_, ?_⟩
  · simp [Level.running, startedLevelThree, Level.start, Level.new]
  · simp [startedLevelThree, Level.start, Level.new, Level.lookupConfig, LEVELS]
  · simp [startedLevelThree, Level.start, Level.new, Level.lookupConfig, LEVELS,
      Level.generateTotalSugarTarget]

/-- C12, as stated, fails in two ways.  Level 1 completed by an update whose
frame is longer than the time left (61000 ms against 60 s, 6 cubes of a target
of 5) stores the score 120 = 0 + 120, while the stated formula
floor(timeRemaining * 10) + floor(100 * sugarDelivered / target) gives
-10 + 120 = 110.  Level 3 completed after one second with 23 cubes of a target
of 10 stores 819 = 590 + 229, because (23 / 10) * 100 is 229.99999999999997 in
doubles, while the stated formula gives 590 + 230 = 820. -/
theorem C12_counterexample :
    (startedLevelOne.running ∧ lateCompletion.isComplete = true ∧
      lateCompletion.score = 120 ∧
      ⌊lateCompletion.timeRemaining * 10⌋ +
        ⌊100 * (lateCompletion.sugarDelivered : ℚ) / (lateCompletion.totalSugarNeeded : ℚ)⌋ =
          110) ∧
    (startedLevelThree.running ∧ generousCompletion.isComplete = true ∧
      generousCompletion.score = 819 ∧
      ⌊generousCompletion.timeRemaining * 10⌋ +
        ⌊100 * (generousCompletion.sugarDelivered : ℚ) /
          (generousCompletion.totalSugarNeeded : ℚ)⌋ = 820) := by
  constructor
  · obtain ⟨hsc, htr, hsd, htn⟩ := Level.update_score_of_completion startedLevelOne 61000 3 3
      6 0 startedLevelOne_running (by decide)
    refine ⟨startedLevelOne_running, ?_, ?_, ?_⟩
    · exact (Level.update_isComplete_iff startedLevelOne 61000 3 3 6 0
        startedLevelOne_running).2 (by decide)
    · unfold lateCompletion
      rw [hsc, startedLevelOne_timeRemaining, startedLevelOne_totalSugarNeeded]
      have ht : ((60 : ℚ) - 61000 / 1000) * 10 = -10 := by norm_num
      have he : (((6 : Int) : ℚ) / ((5 : Int) : ℚ)) = 6 / 5 := by norm_num
      rw [ht, he, roundDouble_time_products.2, roundDouble_efficiency_6_of_5]
      norm_num
    · unfold lateCompletion
      rw [htr, hsd, htn, startedLevelOne_timeRemaining, startedLevelOne_totalSugarNeeded]
      norm_num
  · obtain ⟨hrun, htime, htarget⟩ := startedLevelThree_fields
    obtain ⟨hsc, htr, hsd, htn⟩ := Level.update_score_of_completion startedLevelThree 1000 5 5
      23 0 hrun (by decide)
    refine ⟨hrun, ?_, ?_, ?_⟩
    · exact (Level.update_isComplete_iff startedLevelThree 1000 5 5 23 0 hrun).2 (by decide)
    · unfold generousCompletion
      rw [hsc, htime, htarget]
      have ht : ((60 : ℚ) - 1000 / 1000) * 10 = 590 := by norm_num
      have he : (((23 : Int) : ℚ) / ((10 : Int) : ℚ)) = 23 / 10 := by norm_num
      rw [ht, he, roundDouble_time_products.1, roundDouble_efficiency_23_of_10.2]
      norm_num
    · unfold generousCompletion
      rw [htr, hsd, htn, htime, htarget]
      norm_num

/-- C12 (amended): when an update completes a running level whose sugar target
is positive, the stored score is max 0 (floor (timeRemaining * 10)) +
floor ((sugarDelivered / totalSugarNeeded) * 100) on the timeRemaining,
sugarDelivered and target held at that moment, where the product, the quotient
and its product with 100 are the double-precision results the code computes;
the max is idle whenever that timeRemaining is not negative, and the score is
the stated exact formula (with the max) whenever the two floored doubles are
exact. -/
theorem C12_score_on_completion (l : Level) (deltaTime : ℚ)
    (completedCups totalCups sugarDelivered now : Int) (h : l.running)
    (hcomp : completedCups > 0 ∧ completedCups = totalCups)
    (_htarget : 0 < l.totalSugarNeeded) :
    (l.update deltaTime completedCups totalCups sugarDelivered now).isComplete = true ∧
    (l.update deltaTime completedCups totalCups sugarDelivered now).score =
      max 0 ⌊roundDouble
          ((l.update deltaTime completedCups totalCups sugarDelivered now).timeRemaining * 10)⌋ +
        ⌊roundDouble (roundDouble
          (((l.update deltaTime completedCups totalCups sugarDelivered now).sugarDelivered : ℚ) /
            ((l.update deltaTime completedCups totalCups sugarDelivered now).totalSugarNeeded : ℚ))
          * 100)⌋ ∧
    (0 ≤ (l.update deltaTime completedCups totalCups sugarDelivered now).timeRemaining →
      (l.update deltaTime completedCups totalCups sugarDelivered now).score =
        ⌊roundDouble
          ((l.update deltaTime completedCups totalCups sugarDelivered now).timeRemaining * 10)⌋ +
        ⌊roundDouble (roundDouble
          (((l.update deltaTime completedCups totalCups sugarDelivered now).sugarDelivered : ℚ) /
            ((l.update deltaTime completedCups totalCups sugarDelivered now).totalSugarNeeded : ℚ))
          * 100)⌋) ∧
    (roundDouble
        ((l.update deltaTime completedCups totalCups sugarDelivered now).timeRemaining * 10) =
        (l.update deltaTime completedCups totalCups sugarDelivered now).timeRemaining * 10 →
      roundDouble (roundDouble
          (((l.update deltaTime completedCups totalCups sugarDelivered now).sugarDelivered : ℚ) /
            ((l.update deltaTime completedCups totalCups sugarDelivered now).totalSugarNeeded : ℚ))
          * 100) =
        100 * ((l.update deltaTime completedCups totalCups sugarDelivered now).sugarDelivered : ℚ) /
          ((l.update deltaTime completedCups totalCups sugarDelivered now).totalSugarNeeded : ℚ) →
      (l.update deltaTime completedCups totalCups sugarDelivered now).score =
        max 0 ⌊(l.update deltaTime completedCups totalCups sugarDelivered now).timeRemaining * 10⌋ +
          ⌊100 * ((l.update deltaTime completedCups totalCups sugarDelivered now).sugarDelivered : ℚ) /
            ((l.update deltaTime completedCups totalCups sugarDelivered now).totalSugarNeeded : ℚ)⌋)
    := by
  obtain ⟨hsc, htr, hsd, htn⟩ := Level.update_score_of_completion l deltaTime completedCups
    totalCups sugarDelivered now h hcomp
  refine ⟨(Level.update_isComplete_iff l deltaTime completedCups totalCups sugarDelivered now
    h).2 hcomp, ?_, ?_, ?_⟩
  · rw [hsc, htr, hsd, htn]
  · intro hnn
    rw [htr] at hnn
    rw [hsc, htr, hsd, htn]
    have hfl : 0 ≤ ⌊roundDouble ((l.timeRemaining - deltaTime / 1000) * 10)⌋ :=
      Int.floor_nonneg.2 (roundDouble_nonneg _ (by linarith))
    rw [max_eq_right hfl]
  · intro hexact1 hexact2
    rw [htr] at hexact1
    rw [hsd, htn] at hexact2
    rw [hsc, htr, hsd, htn, hexact1, hexact2]

theorem C12_score_on_completion_witness :
    startedLevelThree.running ∧ ((5 : Int) > 0 ∧ (5 : Int) = 5) ∧
    0 < startedLevelThree.totalSugarNeeded ∧
    (startedLevelThree.update 1000 5 5 23 0).isComplete = true ∧
    (startedLevelThree.update 1000 5 5 23 0).score =
      max 0 ⌊roundDouble ((startedLevelThree.update 1000 5 5 23 0).timeRemaining * 10)⌋ +
        ⌊roundDouble (roundDouble
          (((startedLevelThree.update 1000 5 5 23 0).sugarDelivered : ℚ) /
            ((startedLevelThree.update 1000 5 5 23 0).totalSugarNeeded : ℚ)) * 100)⌋ :=
  have ht : 0 < startedLevelThree.totalSugarNeeded := by
    rw [startedLevelThree_fields.2.2]; decide
  ⟨startedLevelThree_fields.1, by decide, ht,
   (C12_score_on_completion startedLevelThree 1000 5 5 23 0 startedLevelThree_fields.1
      (by decide) ht).1,
   (C12_score_on_completion startedLevelThree 1000 5 5 23 0 startedLevelThree_fields.1
      (by decide) ht).2.1⟩

/-! ### Sugar cube: phases, deactivation and the fall -/

/-- The splash animation writes no phase flag and no limit. -/
theorem Sugar.updateSplashAnimation_frame (s : Sugar) (deltaTime : ℚ) :
    (s.updateSplashAnimation deltaTime).isFalling = s.isFalling ∧
    (s.updateSplashAnimation deltaTime).isSplashing = s.isSplashing ∧
    (s.updateSplashAnimation deltaTime).isBouncing = s.isBouncing ∧
    (s.updateSplashAnimation deltaTime).hasLanded = s.hasLanded ∧
    (s.updateSplashAnimation deltaTime).maxSplashTime = s.maxSplashTime ∧
    (s.updateSplashAnimation deltaTime).maxBounceTime = s.maxBounceTime ∧
    (s.updateSplashAnimation deltaTime).maxLifetime = s.maxLifetime ∧
    (s.updateSplashAnimation deltaTime).splashTime = s.splashTime + deltaTime ∧
    (s.updateSplashAnimation deltaTime).lifetime = s.lifetime ∧
    (s.updateSplashAnimation deltaTime).isActive =
      (if s.splashTime + deltaTime ≥ s.maxSplashTime then false else s.isActive) := by
  unfold Sugar.updateSplashAnimation
  dsimp only
  split_ifs <;> simp

/-- The bounce animation writes no phase flag and no limit. -/
theorem Sugar.updateBounceAnimation_frame (sinPi : ℚ → ℚ) (s : Sugar) (deltaTime : ℚ) :
    (s.updateBounceAnimation sinPi deltaTime).isFalling = s.isFalling ∧
    (s.updateBounceAnimation sinPi deltaTime).isSplashing = s.isSplashing ∧
    (s.updateBounceAnimation sinPi deltaTime).isBouncing = s.isBouncing ∧
    (s.updateBounceAnimation sinPi deltaTime).hasLanded = s.hasLanded ∧
    (s.updateBounceAnimation sinPi deltaTime).maxSplashTime = s.maxSplashTime ∧
    (s.updateBounceAnimation sinPi deltaTime).maxBounceTime = s.maxBounceTime ∧
    (s.updateBounceAnimation sinPi deltaTime).maxLifetime = s.maxLifetime ∧
    (s.updateBounceAnimation sinPi deltaTime).bounceTime = s.bounceTime + deltaTime ∧
    (s.updateBounceAnimation sinPi deltaTime).lifetime = s.lifetime ∧
    (s.updateBounceAnimation sinPi deltaTime).isActive =
      (if s.bounceTime + deltaTime ≥ s.maxBounceTime then false else s.isActive) := by
  unfold Sugar.updateBounceAnimation
  dsimp only
  split_ifs <;> simp

/-- The falling step either keeps the phase flags or lands the cube. -/
theorem Sugar.updateFallingPhysics_frame (s : Sugar) (dt canvasHeight : ℚ) :
    (s.updateFallingPhysics dt canvasHeight).isBouncing = s.isBouncing ∧
    (s.updateFallingPhysics dt canvasHeight).isActive = s.isActive ∧
    (s.updateFallingPhysics dt canvasHeight).lifetime = s.lifetime ∧
    (s.updateFallingPhysics dt canvasHeight).maxSplashTime = s.maxSplashTime ∧
    (s.updateFallingPhysics dt canvasHeight).maxBounceTime = s.maxBounceTime ∧
    (s.updateFallingPhysics dt canvasHeight).maxLifetime = s.maxLifetime ∧
    (((s.updateFallingPhysics dt canvasHeight).isFalling = s.isFalling ∧
      (s.updateFallingPhysics dt canvasHeight).isSplashing = s.isSplashing ∧
      (s.updateFallingPhysics dt canvasHeight).hasLanded = s.hasLanded) ∨
     (s.hasLanded = false ∧
      s.y + (s.velocityY + s.gravity * dt) * dt + s.height / 2 ≥ canvasHeight - 50 ∧
      (s.updateFallingPhysics dt canvasHeight).isFalling = false ∧
      (s.updateFallingPhysics dt canvasHeight).isSplashing = true ∧
      (s.updateFallingPhysics dt canvasHeight).splashTime = 0 ∧
      (s.updateFallingPhysics dt canvasHeight).hasLanded = true)) := by
  unfold Sugar.updateFallingPhysics Sugar.hitGround Sugar.splash
  dsimp only
  cases hl : s.hasLanded <;> split_ifs <;> simp_all

/-- Sugar.update on a splashing cube. -/
theorem Sugar.update_of_splashing (sinPi : ℚ → ℚ) (s : Sugar) (deltaTime canvasHeight : ℚ)
    (h : s.isSplashing = true) :
    s.update sinPi deltaTime canvasHeight =
      Sugar.updateSplashAnimation { s with lifetime := s.lifetime + deltaTime } deltaTime := by
  unfold Sugar.update
  simp [h]

/-- Sugar.update on a bouncing cube that is not splashing. -/
theorem Sugar.update_of_bouncing (sinPi : ℚ → ℚ) (s : Sugar) (deltaTime canvasHeight : ℚ)
    (hs : s.isSplashing = false) (hb : s.isBouncing = true) :
    s.update sinPi deltaTime canvasHeight =
      Sugar.updateBounceAnimation sinPi { s with lifetime := s.lifetime + deltaTime }
        deltaTime := by
  unfold Sugar.update
  simp [hs, hb]

/-- Sugar.update on a falling cube that neither splashes nor bounces. -/
theorem Sugar.update_of_falling (sinPi : ℚ → ℚ) (s : Sugar) (deltaTime canvasHeight : ℚ)
    (hs : s.isSplashing = false) (hb : s.isBouncing = false) (hf : s.isFalling = true) :
    s.update sinPi deltaTime canvasHeight =
      if (Sugar.updateFallingPhysics { s with lifetime := s.lifetime + deltaTime }
            (deltaTime / 1000) canvasHeight).lifetime >
         (Sugar.updateFallingPhysics { s with lifetime := s.lifetime + deltaTime }
            (deltaTime / 1000) canvasHeight).maxLifetime then
        { Sugar.updateFallingPhysics { s with lifetime := s.lifetime + deltaTime }
            (deltaTime / 1000) canvasHeight with isActive := false }
      else
        Sugar.updateFallingPhysics { s with lifetime := s.lifetime + deltaTime }
          (deltaTime / 1000) canvasHeight := by
  unfold Sugar.update
  simp [hs, hb, hf]

/-- The invariant of the phase flags carried by every reachable cube. -/
theorem Sugar.phase_inv_of_reachable {s : Sugar} (h : s.Reachable) : s.Inv := by
  induction h with
  | new x y rv rr => simp [Sugar.Inv, Sugar.exactlyOnePhase, Sugar.new]
  | @update s sinPi dt ch _ ih =>
    obtain ⟨hphase, hland, h300, h500, h5000⟩ := ih
    rcases hphase with ⟨hf, hs, hb⟩ | ⟨hf, hs, hb⟩ | ⟨hf, hs, hb⟩
    · rw [Sugar.update_of_falling sinPi s dt ch hs hb hf]
      obtain ⟨eb, _, _, e1, e2, e3, hcase⟩ :=
        Sugar.updateFallingPhysics_frame { s with lifetime := s.lifetime + dt } (dt / 1000) ch
      simp only at eb e1 e2 e3 hcase
      have hfinal : (Sugar.updateFallingPhysics { s with lifetime := s.lifetime + dt }
          (dt / 1000) ch).Inv := by
        rcases hcase with ⟨c1, c2, c3⟩ | ⟨_, _, c1, c2, _, c3⟩
        · exact ⟨Or.inl ⟨by rw [c1, hf], by rw [c2, hs], by rw [eb, hb]⟩,
            by rw [c1, c3]; exact hland, by rw [e1, h300], by rw [e2, h500], by rw [e3, h5000]⟩
        · exact ⟨Or.inr (Or.inl ⟨c1, c2, by rw [eb, hb]⟩), fun _ => c1,
            by rw [e1, h300], by rw [e2, h500], by rw [e3, h5000]⟩
      split_ifs
      · exact hfinal
      · exact hfinal
    · rw [Sugar.update_of_splashing sinPi s dt ch hs]
      obtain ⟨e1, e2, e3, e4, e5, e6, e7, _⟩ :=
        Sugar.updateSplashAnimation_frame { s with lifetime := s.lifetime + dt } dt
      simp only at e1 e2 e3 e4 e5 e6 e7
      exact ⟨Or.inr (Or.inl ⟨by rw [e1, hf], by rw [e2, hs], by rw [e3, hb]⟩),
        by rw [e1, e4]; exact hland, by rw [e5, h300], by rw [e6, h500], by rw [e7, h5000]⟩
    · rw [Sugar.update_of_bouncing sinPi s dt ch hs hb]
      obtain ⟨e1, e2, e3, e4, e5, e6, e7, _⟩ :=
        Sugar.updateBounceAnimation_frame sinPi { s with lifetime := s.lifetime + dt } dt
      simp only at e1 e2 e3 e4 e5 e6 e7
      exact ⟨Or.inr (Or.inr ⟨by rw [e1, hf], by rw [e2, hs], by rw [e3, hb]⟩),
        by rw [e1, e4]; exact hland, by rw [e5, h300], by rw [e6, h500], by rw [e7, h5000]⟩
  | @bounce s hfall _ ih =>
    obtain ⟨hphase, _, h300, h500, h5000⟩ := ih
    rcases hphase with ⟨_, hs, _⟩ | ⟨hf, _, _⟩ | ⟨hf, _, _⟩
    · exact ⟨Or.inr (Or.inr ⟨rfl, hs, rfl⟩), fun _ => rfl, h300, h500, h5000⟩
    · rw [hfall] at hf; exact absurd hf (by decide)
    · rw [hfall] at hf; exact absurd hf (by decide)
  | @consume s _ ih => exact ih

/-- C14: in every state of a cube reachable through the per-frame processing
(the constructor, Sugar.update, bounce on a cube that is still falling, and
the deactivation of an accepted cube), an active cube has exactly one of
isFalling, isSplashing, isBouncing set. -/
theorem C14_exactly_one_phase (s : Sugar) (h : s.Reachable) (_hactive : s.isActive = true) :
    (s.isFalling = true ∧ s.isSplashing = false ∧ s.isBouncing = false) ∨
    (s.isFalling = false ∧ s.isSplashing = true ∧ s.isBouncing = false) ∨
    (s.isFalling = false ∧ s.isSplashing = false ∧ s.isBouncing = true) :=
  (Sugar.phase_inv_of_reachable h).1

theorem C14_exactly_one_phase_witness :
    (Sugar.new 640 75 (1/2) (1/2)).bounce.Reachable ∧
    (Sugar.new 640 75 (1/2) (1/2)).bounce.isActive = true ∧
    ((Sugar.new 640 75 (1/2) (1/2)).bounce.isFalling = true ∧
      (Sugar.new 640 75 (1/2) (1/2)).bounce.isSplashing = false ∧
      (Sugar.new 640 75 (1/2) (1/2)).bounce.isBouncing = false ∨
     (Sugar.new 640 75 (1/2) (1/2)).bounce.isFalling = false ∧
      (Sugar.new 640 75 (1/2) (1/2)).bounce.isSplashing = true ∧
      (Sugar.new 640 75 (1/2) (1/2)).bounce.isBouncing = false ∨
     (Sugar.new 640 75 (1/2) (1/2)).bounce.isFalling = false ∧
      (Sugar.new 640 75 (1/2) (1/2)).bounce.isSplashing = false ∧
      (Sugar.new 640 75 (1/2) (1/2)).bounce.isBouncing = true) :=
  ⟨Sugar.Reachable.bounce rfl (Sugar.Reachable.new 640 75 (1/2) (1/2)), rfl,
   C14_exactly_one_phase _ (Sugar.Reachable.bounce rfl (Sugar.Reachable.new 640 75 (1/2) (1/2)))
     rfl⟩

theorem landedCube_reachable : landedCube.Reachable :=
  Sugar.Reachable.update (fun _ => 0) 4800 720 (Sugar.Reachable.new 640 75 (1/2) (1/2))

theorem landedCube_fields :
    landedCube.isSplashing = true ∧ landedCube.isActive = true ∧ landedCube.splashTime = 0 ∧
    landedCube.lifetime = 4800 ∧ landedCube.maxSplashTime = 300 := by
  simp [landedCube, Sugar.update, Sugar.updateFallingPhysics, Sugar.hitGround, Sugar.splash,
    Sugar.new, GRAVITY]
  norm_num

/-- C15, as stated, fails: landedCube is active and splashing with lifetime
4800 ms; after an update of 250 ms its lifetime is 5050 ms, above the 5000 ms
cap, yet the cube is still active (its splash time is 250 ms). -/
theorem C15_counterexample :
    landedCube.Reachable ∧ landedCube.isActive = true ∧ (0 : ℚ) ≤ 250 ∧
    (landedCube.update (fun _ => 0) 250 720).lifetime > 5000 ∧
    (landedCube.update (fun _ => 0) 250 720).isActive = true := by
  obtain ⟨hs, ha, hst, hl, hm⟩ := landedCube_fields
  obtain ⟨_, _, _, _, _, _, _, _, e9, e10⟩ :=
    Sugar.updateSplashAnimation_frame { landedCube with lifetime := landedCube.lifetime + 250 } 250
  simp only at e9 e10
  refine ⟨landedCube_reachable, ha, by norm_num, ?_, ?_⟩
  · rw [Sugar.update_of_splashing _ landedCube 250 720 hs, e9, hl]; norm_num
  · rw [Sugar.update_of_splashing _ landedCube 250 720 hs, e10, hst, hm, ha]; norm_num

/-- C15 (amended): for a reachable active cube and deltaTime ≥ 0, Sugar.update
deactivates the cube exactly when, after the call, the splash time of a
splashing cube has reached 300 ms, or the bounce time of a bouncing cube has
reached 500 ms, or the lifetime of a cube that was neither splashing nor
bouncing exceeds 5000 ms (the cap is not tested during the two animations).
A falling cube within its lifetime that reaches the floor becomes splashing
and stays active. -/
theorem C15_update_deactivates_iff (sinPi : ℚ → ℚ) (s : Sugar) (deltaTime canvasHeight : ℚ)
    (h : s.Reachable) (hactive : s.isActive = true) (_hdt : 0 ≤ deltaTime) :
    ((s.update sinPi deltaTime canvasHeight).isActive = false ↔
      (s.isSplashing = true ∧ (s.update sinPi deltaTime canvasHeight).splashTime ≥ 300) ∨
      (s.isBouncing = true ∧ (s.update sinPi deltaTime canvasHeight).bounceTime ≥ 500) ∨
      (s.isSplashing = false ∧ s.isBouncing = false ∧
        (s.update sinPi deltaTime canvasHeight).lifetime > 5000)) ∧
    (s.isFalling = true → s.lifetime + deltaTime ≤ 5000 →
      s.y + (s.velocityY + s.gravity * (deltaTime / 1000)) * (deltaTime / 1000) + s.height / 2 ≥
        canvasHeight - 50 →
      (s.update sinPi deltaTime canvasHeight).isFalling = false ∧
      (s.update sinPi deltaTime canvasHeight).isSplashing = true ∧
      (s.update sinPi deltaTime canvasHeight).isActive = true) := by
  obtain ⟨hphase, hland, h300, h500, h5000⟩ := Sugar.phase_inv_of_reachable h
  rcases hphase with ⟨hf, hs, hb⟩ | ⟨hf, hs, hb⟩ | ⟨hf, hs, hb⟩
  · -- falling
    obtain ⟨_, ea, el, _, _, em, hcase⟩ :=
      Sugar.updateFallingPhysics_frame { s with lifetime := s.lifetime + deltaTime }
        (deltaTime / 1000) canvasHeight
    simp only at ea el em hcase
    have hupd := Sugar.update_of_falling sinPi s deltaTime canvasHeight hs hb hf
    have hlife : (s.update sinPi deltaTime canvasHeight).lifetime = s.lifetime + deltaTime := by
      rw [hupd]
      split_ifs
      · exact el
      · exact el
    have hact : (s.update sinPi deltaTime canvasHeight).isActive = false ↔
        s.lifetime + deltaTime > 5000 := by
      rw [hupd]
      split_ifs with hgt
      · rw [el, em, h5000] at hgt
        exact ⟨fun _ => hgt, fun _ => rfl⟩
      · rw [el, em, h5000] at hgt
        rw [ea, hactive]
        exact ⟨fun hc => absurd hc (by decide), fun hc => absurd hc hgt⟩
    constructor
    · rw [hact, hlife]
      simp [hs, hb]
    · intro _ hle hfloor
      have hnot : ¬ (s.lifetime + deltaTime > 5000) := not_lt.2 hle
      have hl : s.hasLanded = false := by
        cases hh : s.hasLanded with
        | false => rfl
        | true => have := hland hh; rw [hf] at this; exact absurd this (by decide)
      have hactive' : (s.update sinPi deltaTime canvasHeight).isActive = true := by
        cases hc : (s.update sinPi deltaTime canvasHeight).isActive with
        | true => rfl
        | false => exact absurd (hact.1 hc) hnot
      have hstay : s.update sinPi deltaTime canvasHeight =
          Sugar.updateFallingPhysics { s with lifetime := s.lifetime + deltaTime }
            (deltaTime / 1000) canvasHeight := by
        rw [hupd]
        split_ifs with hgt
        · rw [el, em, h5000] at hgt
          exact absurd hgt hnot
        · rfl
      refine ⟨?_, ?_, hactive'⟩
      · rw [hstay]
        unfold Sugar.updateFallingPhysics Sugar.hitGround Sugar.splash
        simp [hl, hfloor]
      · rw [hstay]
        unfold Sugar.updateFallingPhysics Sugar.hitGround Sugar.splash
        simp [hl, hfloor]
  · -- splashing
    obtain ⟨_, _, _, _, e5, _, _, e8, _, e10⟩ :=
      Sugar.updateSplashAnimation_frame { s with lifetime := s.lifetime + deltaTime } deltaTime
    simp only at e5 e8 e10
    constructor
    · rw [Sugar.update_of_splashing sinPi s deltaTime canvasHeight hs, e8, e10, h300]
      simp [hs, hb, hactive]
    · intro hfall
      rw [hf] at hfall
      exact absurd hfall (by decide)
  · -- bouncing
    obtain ⟨_, _, _, _, _, e6, _, e8, _, e10⟩ :=
      Sugar.updateBounceAnimation_frame sinPi { s with lifetime := s.lifetime + deltaTime }
        deltaTime
    simp only at e6 e8 e10
    constructor
    · rw [Sugar.update_of_bouncing sinPi s deltaTime canvasHeight hs hb, e8, e10, h500]
      simp [hs, hb, hactive]
    · intro hfall
      rw [hf] at hfall
      exact absurd hfall (by decide)

theorem C15_update_deactivates_iff_witness :
    landedCube.Reachable ∧ landedCube.isActive = true ∧ (0 : ℚ) ≤ 300 ∧
    ((landedCube.update (fun _ => 0) 300 720).isActive = false ↔
      (landedCube.isSplashing = true ∧
        (landedCube.update (fun _ => 0) 300 720).splashTime ≥ 300) ∨
      (landedCube.isBouncing = true ∧
        (landedCube.update (fun _ => 0) 300 720).bounceTime ≥ 500) ∨
      (landedCube.isSplashing = false ∧ landedCube.isBouncing = false ∧
        (landedCube.update (fun _ => 0) 300 720).lifetime > 5000)) :=
  ⟨landedCube_reachable, landedCube_fields.2.1, by norm_num,
   (C15_update_deactivates_iff (fun _ => 0) landedCube 300 720 landedCube_reachable
      landedCube_fields.2.1 (by norm_num)).1⟩

/-- One call of Sugar.update on a falling cube that stays above the floor:
the velocity gains gravity * dt first, then the position moves by the new
velocity * dt (dt = deltaTime / 1000 seconds). -/
theorem Sugar.update_falling_step (sinPi : ℚ → ℚ) (s : Sugar) (deltaTime canvasHeight : ℚ)
    (hs : s.isSplashing = false) (hb : s.isBouncing = false) (hf : s.isFalling = true)
    (hfloor : s.y + (s.velocityY + s.gravity * (deltaTime / 1000)) * (deltaTime / 1000) +
      s.height / 2 < canvasHeight - 50) :
    (s.update sinPi deltaTime canvasHeight).velocityY =
      s.velocityY + s.gravity * (deltaTime / 1000) ∧
    (s.update sinPi deltaTime canvasHeight).y =
      s.y + (s.velocityY + s.gravity * (deltaTime / 1000)) * (deltaTime / 1000) ∧
    (s.update sinPi deltaTime canvasHeight).x = s.x + s.velocityX * (deltaTime / 1000) ∧
    (s.update sinPi deltaTime canvasHeight).velocityX = s.velocityX * (995 / 1000) ∧
    (s.update sinPi deltaTime canvasHeight).gravity = s.gravity ∧
    (s.update sinPi deltaTime canvasHeight).height = s.height ∧
    (s.update sinPi deltaTime canvasHeight).isFalling = true ∧
    (s.update sinPi deltaTime canvasHeight).isSplashing = false ∧
    (s.update sinPi deltaTime canvasHeight).isBouncing = false := by
  have hnf : ¬ (s.y + (s.velocityY + s.gravity * (deltaTime / 1000)) * (deltaTime / 1000) +
      s.height / 2 ≥ canvasHeight - 50) := not_le.2 hfloor
  have hphys : Sugar.updateFallingPhysics { s with lifetime := s.lifetime + deltaTime }
      (deltaTime / 1000) canvasHeight =
      { s with lifetime := s.lifetime + deltaTime
               velocityY := s.velocityY + s.gravity * (deltaTime / 1000)
               x := s.x + s.velocityX * (deltaTime / 1000)
               y := s.y + (s.velocityY + s.gravity * (deltaTime / 1000)) * (deltaTime / 1000)
               velocityX := s.velocityX * (995 / 1000)
               rotation := s.rotation + s.rotationSpeed * (deltaTime / 1000) } := by
    unfold Sugar.updateFallingPhysics
    dsimp only
    rw [if_neg hnf]
  rw [Sugar.update_of_falling sinPi s deltaTime canvasHeight hs hb hf, hphys]
  split_ifs <;> exact ⟨rfl, rfl, rfl, rfl, rfl, rfl, hf, hs, hb⟩

/-- The closed form of n equal falling steps that stay above the floor: with
dt = deltaTime / 1000, velocityY = v0 + n g dt and
y = y0 + n v0 dt + g dt² n (n + 1) / 2. -/
theorem Sugar.updateN_falling (sinPi : ℚ → ℚ) (s : Sugar) (deltaTime canvasHeight : ℚ)
    (hs : s.isSplashing = false) (hb : s.isBouncing = false) (hf : s.isFalling = true)
    (n : Nat)
    (hfloor : ∀ k : Nat, 1 ≤ k → k ≤ n →
      s.y + k * s.velocityY * (deltaTime / 1000) +
        s.gravity * (deltaTime / 1000) ^ 2 * k * (k + 1) / 2 + s.height / 2 <
        canvasHeight - 50) :
    (s.updateN sinPi deltaTime canvasHeight n).velocityY =
      s.velocityY + n * s.gravity * (deltaTime / 1000) ∧
    (s.updateN sinPi deltaTime canvasHeight n).y =
      s.y + n * s.velocityY * (deltaTime / 1000) +
        s.gravity * (deltaTime / 1000) ^ 2 * n * (n + 1) / 2 ∧
    (s.updateN sinPi deltaTime canvasHeight n).gravity = s.gravity ∧
    (s.updateN sinPi deltaTime canvasHeight n).height = s.height ∧
    (s.updateN sinPi deltaTime canvasHeight n).isFalling = true ∧
    (s.updateN sinPi deltaTime canvasHeight n).isSplashing = false ∧
    (s.updateN sinPi deltaTime canvasHeight n).isBouncing = false := by
  induction n with
  | zero =>
    refine ⟨?_, ?_, rfl, rfl, hf, hs, hb⟩
    · simp [Sugar.updateN]
    · simp [Sugar.updateN]
  | succ m ih =>
    obtain ⟨hv, hy, hg, hh, hf', hs', hb'⟩ :=
      ih (fun k h1 hk => hfloor k h1 (Nat.le_succ_of_le hk))
    have hstepfloor := hfloor (m + 1) (Nat.succ_le_succ (Nat.zero_le m)) (le_refl _)
    have hcond : (s.updateN sinPi deltaTime canvasHeight m).y +
        ((s.updateN sinPi deltaTime canvasHeight m).velocityY +
          (s.updateN sinPi deltaTime canvasHeight m).gravity * (deltaTime / 1000)) *
          (deltaTime / 1000) +
        (s.updateN sinPi deltaTime canvasHeight m).height / 2 < canvasHeight - 50 := by
      rw [hy, hv, hg, hh]
      push_cast at hstepfloor
      linarith
    obtain ⟨e1, e2, _, _, e5, e6, e7, e8, e9⟩ :=
      Sugar.update_falling_step sinPi (s.updateN sinPi deltaTime canvasHeight m) deltaTime
        canvasHeight hs' hb' hf' hcond
    simp only [Sugar.updateN]
    refine ⟨?_, ?_, by rw [e5, hg], by rw [e6, hh], e7, e8, e9⟩
    · rw [e1, hv, hg]; push_cast; ring
    · rw [e2, hy, hv, hg]; push_cast; ring

theorem restingCube_fields :
    restingCube.y = 0 ∧ restingCube.velocityY = 0 ∧ restingCube.gravity = 180 ∧
    restingCube.height = 16 ∧ restingCube.isFalling = true ∧ restingCube.isSplashing = false ∧
    restingCube.isBouncing = false := by
  simp [restingCube, Sugar.new, GRAVITY]

/-- C16, as stated, fails: a falling cube at y = 0 with zero vertical velocity
and gravity 180 is advanced by one Sugar.update of 16 ms; it is still falling
and has fallen 144/3125 = 0.04608, twice the stated 0.5 * 180 * t² = 0.02304
for t = 0.016 s. -/
theorem C16_counterexample :
    restingCube.y = 0 ∧ restingCube.velocityY = 0 ∧ restingCube.gravity = 180 ∧
    (restingCube.update (fun _ => 0) 16 720).isFalling = true ∧
    (restingCube.update (fun _ => 0) 16 720).y = 144 / 3125 ∧
    (restingCube.update (fun _ => 0) 16 720).y ≠ (1 / 2 : ℚ) * 180 * (16 / 1000) ^ 2 := by
  obtain ⟨hy, hv, hg, hh, hf, hs, hb⟩ := restingCube_fields
  obtain ⟨_, e2, _, _, _, _, e7, _, _⟩ :=
    Sugar.update_falling_step (fun _ => 0) restingCube 16 720 hs hb hf
      (by rw [hy, hv, hg, hh]; norm_num)
  have hval : (restingCube.update (fun _ => 0) 16 720).y = 144 / 3125 := by
    rw [e2, hy, hv, hg]; norm_num
  refine ⟨hy, hv, hg, e7, hval, ?_⟩
  rw [hval]; norm_num

/-- C16 (amended): a falling cube at y = 0 with zero vertical velocity and
gravity 180, advanced by n calls of Sugar.update of deltaTime ms each without
reaching the floor, has fallen 0.5 * 180 * t² + 0.5 * 180 * t * dt, where
dt = deltaTime / 1000 and t = n * dt is the total falling time: the stated
0.5 * 180 * t² plus a step-size term (each step adds gravity to the velocity
before it moves the cube).  The gravity constant of a new cube is 180. -/
theorem C16_fall_distance (sinPi : ℚ → ℚ) (s : Sugar) (deltaTime canvasHeight : ℚ) (n : Nat)
    (hf : s.isFalling = true) (hs : s.isSplashing = false) (hb : s.isBouncing = false)
    (hy : s.y = 0) (hv : s.velocityY = 0) (hg : s.gravity = 180)
    (hfloor : 90 * (deltaTime / 1000) ^ 2 * n * (n + 1) + s.height / 2 < canvasHeight - 50) :
    (s.updateN sinPi deltaTime canvasHeight n).y =
      (1 / 2 : ℚ) * 180 * (n * (deltaTime / 1000)) ^ 2 +
        (1 / 2 : ℚ) * 180 * (n * (deltaTime / 1000)) * (deltaTime / 1000) ∧
    (s.updateN sinPi deltaTime canvasHeight n).isFalling = true ∧
    GRAVITY = 180 ∧
    (∀ x y randVelocity randRotation : ℚ,
      (Sugar.new x y randVelocity randRotation).gravity = 180) := by
  have hall : ∀ k : Nat, 1 ≤ k → k ≤ n →
      s.y + k * s.velocityY * (deltaTime / 1000) +
        s.gravity * (deltaTime / 1000) ^ 2 * k * (k + 1) / 2 + s.height / 2 <
        canvasHeight - 50 := by
    intro k _ hk
    rw [hy, hv, hg]
    have hkn : (k : ℚ) ≤ n := by exact_mod_cast hk
    have hk0 : (0 : ℚ) ≤ k := by exact_mod_cast Nat.zero_le k
    have hsq : 0 ≤ (deltaTime / 1000) ^ 2 := sq_nonneg _
    have hmono : (k : ℚ) * (k + 1) ≤ n * (n + 1) := by nlinarith
    have hprod : (deltaTime / 1000) ^ 2 * ((k : ℚ) * (k + 1)) ≤
        (deltaTime / 1000) ^ 2 * ((n : ℚ) * (n + 1)) :=
      mul_le_mul_of_nonneg_left hmono hsq
    nlinarith
  obtain ⟨_, ey, _, _, ef, _, _⟩ :=
    Sugar.updateN_falling sinPi s deltaTime canvasHeight hs hb hf n hall
  refine ⟨?_, ef, rfl, fun x y rv rr => rfl⟩
  rw [ey, hy, hv, hg]; ring

theorem C16_fall_distance_witness :
    restingCube.isFalling = true ∧ restingCube.isSplashing = false ∧
    restingCube.isBouncing = false ∧ restingCube.y = 0 ∧ restingCube.velocityY = 0 ∧
    restingCube.gravity = 180 ∧
    (restingCube.updateN (fun _ => 0) 16 720 10).y =
      (1 / 2 : ℚ) * 180 * ((10 : Nat) * (16 / 1000)) ^ 2 +
        (1 / 2 : ℚ) * 180 * ((10 : Nat) * (16 / 1000)) * (16 / 1000) :=
  ⟨restingCube_fields.2.2.2.2.1, restingCube_fields.2.2.2.2.2.1,
   restingCube_fields.2.2.2.2.2.2, restingCube_fields.1, restingCube_fields.2.1,
   restingCube_fields.2.2.1,
   (C16_fall_distance (fun _ => 0) restingCube 16 720 10 restingCube_fields.2.2.2.2.1
      restingCube_fields.2.2.2.2.2.1 restingCube_fields.2.2.2.2.2.2 restingCube_fields.1
      restingCube_fields.2.1 restingCube_fields.2.2.1
      (by rw [restingCube_fields.2.2.2.1]; norm_num)).1⟩

/-! ### Session: level creation, reset, drop and level progression -/

/-- The cups appended by Game.setupSlotBasedPositioning, one per slot. -/
theorem Game.setupSlotBasedPositioning_cups (g : Game) (cupCount : Nat) (cupY conveyorY : ℚ)
    (mobile : Bool) (rands : Nat → ℚ × ℚ) :
    (g.setupSlotBasedPositioning cupCount cupY conveyorY mobile rands).coffeeCups =
      g.coffeeCups ++ (List.range cupCount).map (Game.slotCup cupCount cupY conveyorY mobile rands) :=
  rfl

/-- Game.setupSlotBasedPositioning only writes the cup array. -/
theorem Game.setupSlotBasedPositioning_currentLevel (g : Game) (cupCount : Nat)
    (cupY conveyorY : ℚ) (mobile : Bool) (rands : Nat → ℚ × ℚ) :
    (g.setupSlotBasedPositioning cupCount cupY conveyorY mobile rands).currentLevel =
      g.currentLevel :=
  rfl

/-- What Game.initLevel writes whatever the level number. -/
theorem Game.initLevel_frame (g : Game) (mobile : Bool) (randLevel : ℚ) (rands : Nat → ℚ × ℚ) :
    (g.initLevel mobile randLevel rands).sugarCubes = g.sugarCubes ∧
    (g.initLevel mobile randLevel rands).totalSugarDelivered = 0 ∧
    (g.initLevel mobile randLevel rands).cupsCompletedThisLevel = 0 ∧
    (g.initLevel mobile randLevel rands).timeWarningPlayed = false ∧
    (g.initLevel mobile randLevel rands).targetCupsForLevel =
      (Level.lookupConfig g.levelNumber).cups ∧
    (g.initLevel mobile randLevel rands).levelNumber = g.levelNumber ∧
    (g.initLevel mobile randLevel rands).state = g.state ∧
    (g.initLevel mobile randLevel rands).hand = g.hand ∧
    (g.initLevel mobile randLevel rands).fadeTransition = g.fadeTransition ∧
    (g.initLevel mobile randLevel rands).canvasWidth = g.canvasWidth ∧
    (g.initLevel mobile randLevel rands).canvasHeight = g.canvasHeight := by
  unfold Game.initLevel Game.createCupsForLevel
  dsimp only
  split
  · simp [Level.new]
  · simp [Level.new, Game.setupSlotBasedPositioning]

/-- The level and the cups made by Game.initLevel when the level number has a
record in the table. -/
theorem Game.initLevel_of_config (g : Game) (mobile : Bool) (randLevel : ℚ)
    (rands : Nat → ℚ × ℚ) (cfg : LevelConfig)
    (hfind : LEVELS.find? (fun level => decide ((level.level : Int) = g.levelNumber)) =
      some cfg) :
    (g.initLevel mobile randLevel rands).coffeeCups =
      (List.range cfg.cups).map
        (Game.slotCup cfg.cups (g.canvasHeight - 200) (g.canvasHeight - 180) mobile rands) ∧
    ∃ l, (g.initLevel mobile randLevel rands).currentLevel = some l ∧
      l.config = Level.lookupConfig g.levelNumber ∧
      l.levelNumber = g.levelNumber ∧
      l.maxTime = (Level.lookupConfig g.levelNumber).time ∧
      l.timeRemaining = (Level.lookupConfig g.levelNumber).time ∧
      l.cupsCompleted = 0 ∧ l.sugarDelivered = 0 ∧ l.score = 0 ∧
      l.isComplete = false ∧ l.isFailed = false ∧ l.isStarted = false ∧ l.isPaused = false := by
  unfold Game.initLevel Game.createCupsForLevel
  dsimp only
  rw [hfind]
  simp only [Game.setupSlotBasedPositioning_currentLevel]
  constructor
  · rw [Game.setupSlotBasedPositioning_cups]
    simp
  · exact ⟨_, rfl, rfl, rfl, rfl, rfl, rfl, rfl, rfl, rfl, rfl, rfl, rfl⟩

/-- Every cup built for a slot is empty, not complete, and requires 1 to 3 cubes. -/
theorem Game.slotCup_fresh (cupCount : Nat) (cupY conveyorY : ℚ) (mobile : Bool)
    (rands : Nat → ℚ × ℚ) (i : Nat) :
    (Game.slotCup cupCount cupY conveyorY mobile rands i).currentSugar = 0 ∧
    (Game.slotCup cupCount cupY conveyorY mobile rands i).isComplete = false ∧
    ((Game.slotCup cupCount cupY conveyorY mobile rands i).requiredSugar = 1 ∨
     (Game.slotCup cupCount cupY conveyorY mobile rands i).requiredSugar = 2 ∨
     (Game.slotCup cupCount cupY conveyorY mobile rands i).requiredSugar = 3) :=
  ⟨rfl, rfl, Cup.generateSugarRequirement_mem (rands i).1⟩

/-- Every cup of a freshly initialised level is empty, not complete, and
requires 1 to 3 cubes. -/
theorem Game.initLevel_cups_fresh (g : Game) (mobile : Bool) (randLevel : ℚ)
    (rands : Nat → ℚ × ℚ) :
    ∀ c ∈ (g.initLevel mobile randLevel rands).coffeeCups,
      c.currentSugar = 0 ∧ c.isComplete = false ∧
      (c.requiredSugar = 1 ∨ c.requiredSugar = 2 ∨ c.requiredSugar = 3) := by
  cases hfind : LEVELS.find? (fun level => decide ((level.level : Int) = g.levelNumber)) with
  | none =>
    intro c hc
    unfold Game.initLevel Game.createCupsForLevel at hc
    dsimp only at hc
    rw [hfind] at hc
    simp at hc
  | some cfg =>
    intro c hc
    rw [(Game.initLevel_of_config g mobile randLevel rands cfg hfind).1] at hc
    obtain ⟨i, _, rfl⟩ := List.mem_map.1 hc
    exact Game.slotCup_fresh _ _ _ _ _ i

/-- For a level number n in 1..15 the array lookup of the Level constructor
and the search of Game.createCupsForLevel select the same record, entry n - 1
of the table, whose level field is n. -/
theorem LEVELS_lookup_of_configured (n : Nat) (h1 : 1 ≤ n) (h15 : n ≤ 15) :
    ∃ cfg, LEVELS.get? (n - 1) = some cfg ∧ cfg.level = n ∧
      LEVELS.find? (fun level => decide ((level.level : Int) = (n : Int))) = some cfg ∧
      Level.lookupConfig (n : Int) = cfg ∧ cfg.cups ≠ 0 ∧ cfg.time ≠ 0 ∧ cfg.speed ≠ 0 := by
  interval_cases n <;>
    refine ⟨_, rfl, rfl, ?_, ?_, ?_, ?_, ?_⟩ <;>
    first
      | rfl
      | simp [LEVELS, Level.lookupConfig]

/-- The level made by Game.initLevel is always a fresh one. -/
theorem Game.initLevel_currentLevel_fresh (g : Game) (mobile : Bool) (randLevel : ℚ)
    (rands : Nat → ℚ × ℚ) :
    ∃ l, (g.initLevel mobile randLevel rands).currentLevel = some l ∧
      l.levelNumber = g.levelNumber ∧
      l.maxTime = (Level.lookupConfig g.levelNumber).time ∧
      l.timeRemaining = (Level.lookupConfig g.levelNumber).time ∧
      l.cupsCompleted = 0 ∧ l.sugarDelivered = 0 ∧
      l.isComplete = false ∧ l.isFailed = false ∧ l.isStarted = false ∧ l.isPaused = false := by
  cases hfind : LEVELS.find? (fun level => decide ((level.level : Int) = g.levelNumber)) with
  | none =>
    unfold Game.initLevel Game.createCupsForLevel
    dsimp only
    rw [hfind]
    exact ⟨_, rfl, rfl, rfl, rfl, rfl, rfl, rfl, rfl, rfl, rfl⟩
  | some cfg =>
    obtain ⟨l, hl, _, h2, h3, h4, h5, h6, _, h8, h9, h10, h11⟩ :=
      (Game.initLevel_of_config g mobile randLevel rands cfg hfind).2
    exact ⟨l, hl, h2, h3, h4, h5, h6, h8, h9, h10, h11⟩

/-- The level made by Game.initLevel carries the record selected by the
Level constructor. -/
theorem Game.initLevel_currentLevel_config (g : Game) (mobile : Bool) (randLevel : ℚ)
    (rands : Nat → ℚ × ℚ) :
    ∃ l, (g.initLevel mobile randLevel rands).currentLevel = some l ∧
      l.config = Level.lookupConfig g.levelNumber ∧ l.levelNumber = g.levelNumber := by
  cases hfind : LEVELS.find? (fun level => decide ((level.level : Int) = g.levelNumber)) with
  | none =>
    unfold Game.initLevel Game.createCupsForLevel
    dsimp only
    rw [hfind]
    exact ⟨_, rfl, rfl, rfl⟩
  | some cfg =>
    obtain ⟨l, hl, h1, h2, _⟩ :=
      (Game.initLevel_of_config g mobile randLevel rands cfg hfind).2
    exact ⟨l, hl, h1, h2⟩

/-- Game.startLevel sets the state to playing, starts the level and writes
nothing else. -/
theorem Game.startLevel_frame (g : Game) (now : Int) :
    (g.startLevel now).state = .playing ∧
    (g.startLevel now).currentLevel = g.currentLevel.map (fun l => l.start now) ∧
    (g.startLevel now).sugarCubes = g.sugarCubes ∧
    (g.startLevel now).coffeeCups = g.coffeeCups ∧
    (g.startLevel now).levelNumber = g.levelNumber ∧
    (g.startLevel now).totalSugarDelivered = g.totalSugarDelivered ∧
    (g.startLevel now).cupsCompletedThisLevel = g.cupsCompletedThisLevel ∧
    (g.startLevel now).hand = g.hand ∧
    (g.startLevel now).fadeTransition = g.fadeTransition := by
  unfold Game.startLevel
  dsimp only
  cases g.currentLevel <;> simp

/-- Game.nextLevel never writes the cube array. -/
theorem Game.nextLevel_sugarCubes (g : Game) : g.nextLevel.sugarCubes = g.sugarCubes := by
  unfold Game.nextLevel Game.startFadeTransition
  split <;> rfl

/-- Game.retryLevel never writes the cube array. -/
theorem Game.retryLevel_sugarCubes (g : Game) (mobile : Bool) (now : Int) (randLevel : ℚ)
    (rands : Nat → ℚ × ℚ) :
    (g.retryLevel mobile now randLevel rands).sugarCubes = g.sugarCubes := by
  unfold Game.retryLevel
  rw [(Game.startLevel_frame _ now).2.2.1, (Game.initLevel_frame g mobile randLevel rands).1]

/-- C18: for every configured level number n in 1..15, Game.initLevel yields a
fresh level: timeRemaining is the time limit of entry n - 1 of the table, the
level's cupsCompleted and the session counters cupsCompletedThisLevel and
totalSugarDelivered are 0, and exactly the configured number of cups exists,
each with currentSugar = 0, isComplete = false and requiredSugar in {1,2,3}.
For level 1: timeRemaining = 60 and 3 cups. -/
theorem C18_initLevel_fresh (g : Game) (mobile : Bool) (randLevel : ℚ) (rands : Nat → ℚ × ℚ)
    (n : Nat) (h1 : 1 ≤ n) (h15 : n ≤ 15) (hlevel : g.levelNumber = (n : Int)) :
    ∃ cfg l, LEVELS.get? (n - 1) = some cfg ∧ cfg.level = n ∧
      (g.initLevel mobile randLevel rands).currentLevel = some l ∧
      l.timeRemaining = cfg.time ∧ l.cupsCompleted = 0 ∧
      (g.initLevel mobile randLevel rands).cupsCompletedThisLevel = 0 ∧
      (g.initLevel mobile randLevel rands).totalSugarDelivered = 0 ∧
      (g.initLevel mobile randLevel rands).coffeeCups.length = cfg.cups ∧
      (∀ c ∈ (g.initLevel mobile randLevel rands).coffeeCups,
        c.currentSugar = 0 ∧ c.isComplete = false ∧
        (c.requiredSugar = 1 ∨ c.requiredSugar = 2 ∨ c.requiredSugar = 3)) ∧
      (n = 1 → l.timeRemaining = 60 ∧
        (g.initLevel mobile randLevel rands).coffeeCups.length = 3) := by
  obtain ⟨cfg, hget, hlv, hfind, hlook, _, _, _⟩ := LEVELS_lookup_of_configured n h1 h15
  rw [← hlevel] at hfind hlook
  obtain ⟨hcups, l, hl, _, _, _, htime, hcc, _⟩ :=
    Game.initLevel_of_config g mobile randLevel rands cfg hfind
  obtain ⟨_, hdel, hcomp, _⟩ := Game.initLevel_frame g mobile randLevel rands
  have hlen : (g.initLevel mobile randLevel rands).coffeeCups.length = cfg.cups := by
    rw [hcups]; simp
  rw [hlook] at htime
  refine ⟨cfg, l, hget, hlv, hl, htime, hcc, hcomp, hdel, hlen,
    Game.initLevel_cups_fresh g mobile randLevel rands, ?_⟩
  intro hn
  subst hn
  have hcfg : cfg = LEVEL_ONE := by
    have : LEVELS.get? (1 - 1) = some LEVEL_ONE := rfl
    rw [this] at hget
    exact (Option.some.inj hget).symm
  rw [htime, hlen, hcfg]
  exact ⟨rfl, rfl⟩

theorem C18_initLevel_fresh_witness :
    (1 : Nat) ≤ 1 ∧ (1 : Nat) ≤ 15 ∧ freshSession.levelNumber = ((1 : Nat) : Int) ∧
    ∃ cfg l, LEVELS.get? (1 - 1) = some cfg ∧ cfg.level = 1 ∧
      (freshSession.initLevel false 0 (fun _ => (1/2, 0))).currentLevel = some l ∧
      l.timeRemaining = cfg.time ∧ l.cupsCompleted = 0 ∧
      (freshSession.initLevel false 0 (fun _ => (1/2, 0))).cupsCompletedThisLevel = 0 ∧
      (freshSession.initLevel false 0 (fun _ => (1/2, 0))).totalSugarDelivered = 0 ∧
      (freshSession.initLevel false 0 (fun _ => (1/2, 0))).coffeeCups.length = cfg.cups ∧
      (∀ c ∈ (freshSession.initLevel false 0 (fun _ => (1/2, 0))).coffeeCups,
        c.currentSugar = 0 ∧ c.isComplete = false ∧
        (c.requiredSugar = 1 ∨ c.requiredSugar = 2 ∨ c.requiredSugar = 3)) ∧
      ((1 : Nat) = 1 → l.timeRemaining = 60 ∧
        (freshSession.initLevel false 0 (fun _ => (1/2, 0))).coffeeCups.length = 3) :=
  ⟨le_refl 1, by decide, rfl,
   C18_initLevel_fresh freshSession false 0 (fun _ => (1/2, 0)) 1 (le_refl 1) (by decide) rfl⟩

/-- C19, as stated, fails: level 1 has failed while one cube dropped from the
hand is still live; after Game.retryLevel the cube array still holds that
cube, so it is not empty. -/
theorem C19_counterexample :
    failedSession.state = .levelFailed ∧
    (failedSession.retryLevel false 0 0 (fun _ => (1/2, 0))).sugarCubes =
      [Sugar.new 640 75 (1/2) (1/2)] ∧
    (failedSession.retryLevel false 0 0 (fun _ => (1/2, 0))).sugarCubes ≠ [] := by
  have h := Game.retryLevel_sugarCubes failedSession false 0 0 (fun _ => (1/2, 0))
  refine ⟨rfl, ?_, ?_⟩
  · rw [h]; rfl
  · rw [h]; exact List.cons_ne_nil _ _

/-- C19 (amended): Game.initLevel and Game.retryLevel recreate the Level (a
new one, started by retryLevel, with its full time and no progress) and the
Cup set (every cup empty and not complete) and zero the session counters, but
they leave the sugar-cube array as it was: the cubes live before the reset are
live after it. -/
theorem C19_reset_recreates_level_and_cups (g : Game) (mobile : Bool) (now : Int)
    (randLevel : ℚ) (rands : Nat → ℚ × ℚ) :
    (g.initLevel mobile randLevel rands).sugarCubes = g.sugarCubes ∧
    (g.retryLevel mobile now randLevel rands).sugarCubes = g.sugarCubes ∧
    (g.retryLevel mobile now randLevel rands).state = .playing ∧
    (g.retryLevel mobile now randLevel rands).totalSugarDelivered = 0 ∧
    (g.retryLevel mobile now randLevel rands).cupsCompletedThisLevel = 0 ∧
    (∃ l, (g.retryLevel mobile now randLevel rands).currentLevel = some l ∧
      l.isStarted = true ∧ l.timeRemaining = l.maxTime ∧ l.cupsCompleted = 0 ∧
      l.isComplete = false ∧ l.isFailed = false) ∧
    (∀ c ∈ (g.retryLevel mobile now randLevel rands).coffeeCups,
      c.currentSugar = 0 ∧ c.isComplete = false ∧
      (c.requiredSugar = 1 ∨ c.requiredSugar = 2 ∨ c.requiredSugar = 3)) := by
  obtain ⟨hsc, hdel, hcomp, _⟩ := Game.initLevel_frame g mobile randLevel rands
  obtain ⟨s1, s2, _, s4, _, s6, s7, _⟩ :=
    Game.startLevel_frame (g.initLevel mobile randLevel rands) now
  obtain ⟨l, hl, _, hmax, htime, hcc, _, hc, hf, _, _⟩ :=
    Game.initLevel_currentLevel_fresh g mobile randLevel rands
  refine ⟨hsc, Game.retryLevel_sugarCubes g mobile now randLevel rands, s1,
    by unfold Game.retryLevel; rw [s6, hdel], by unfold Game.retryLevel; rw [s7, hcomp], ?_, ?_⟩
  · refine ⟨l.start now, ?_, rfl, ?_, hcc, hc, hf⟩
    · unfold Game.retryLevel
      rw [s2, hl]; rfl
    · show l.timeRemaining = l.maxTime
      rw [htime, hmax]
  · unfold Game.retryLevel
    rw [s4]
    exact Game.initLevel_cups_fresh g mobile randLevel rands

/-- Hand.canDrop is the test of Hand.drop. -/
theorem Hand.canDrop_iff (h : Hand) :
    h.canDrop = true ↔ (h.state = .idle ∧ h.hasSugar = true) := by
  simp [Hand.canDrop]

/-- Game.handleDropInput when the session is playing and the hand can drop. -/
theorem Game.handleDropInput_of_drop (g : Game) (mobile : Bool) (now : Int) (randLevel : ℚ)
    (rands : Nat → ℚ × ℚ) (randVelocity randRotation : ℚ)
    (hstate : g.state = .playing) (hidle : g.hand.state = .idle)
    (hsugar : g.hand.hasSugar = true) :
    g.handleDropInput mobile now randLevel rands randVelocity randRotation =
      { g with hand := { g.hand with state := .dropping, dropAnimationTime := 0 }
               sugarCubes := g.sugarCubes ++
                 [Sugar.new g.hand.x (g.hand.y + g.hand.height / 2 + 10)
                    randVelocity randRotation] } := by
  unfold Game.handleDropInput
  simp [hstate, hidle, hsugar, Hand.canDrop, Hand.drop, Hand.getSugarDropPosition]

/-- Game.handleDropInput leaves the cube array alone unless the session is
playing and the hand can drop. -/
theorem Game.handleDropInput_of_no_drop (g : Game) (mobile : Bool) (now : Int) (randLevel : ℚ)
    (rands : Nat → ℚ × ℚ) (randVelocity randRotation : ℚ)
    (h : ¬ (g.state = .playing ∧ g.hand.state = .idle ∧ g.hand.hasSugar = true)) :
    (g.handleDropInput mobile now randLevel rands randVelocity randRotation).sugarCubes =
      g.sugarCubes := by
  have hcan : ¬ (g.state = .playing ∧ g.hand.canDrop = true) := by
    rw [Hand.canDrop_iff]; exact h
  unfold Game.handleDropInput
  split_ifs
  · exact (Game.startLevel_frame g now).2.2.1
  · rfl
  · exact Game.nextLevel_sugarCubes g
  · exact Game.retryLevel_sugarCubes g mobile now randLevel rands
  · rfl

/-- C17: Game.handleDropInput appends exactly one new cube, created at the
hand's drop point (hand.x, hand.y + hand.height/2 + 10), when the session
state is playing and the hand is idle and holds sugar, and only then; in every
other case the cube array is unchanged.  After a successful drop the hand is
no longer idle, so a repeated request adds nothing. -/
theorem C17_drop_only_when_playing_and_idle (g : Game) (mobile : Bool) (now : Int)
    (randLevel : ℚ) (rands : Nat → ℚ × ℚ) (randVelocity randRotation : ℚ) :
    (g.state = .playing ∧ g.hand.state = .idle ∧ g.hand.hasSugar = true →
      (g.handleDropInput mobile now randLevel rands randVelocity randRotation).sugarCubes =
        g.sugarCubes ++ [Sugar.new g.hand.getSugarDropPosition.x g.hand.getSugarDropPosition.y
          randVelocity randRotation] ∧
      (Sugar.new g.hand.getSugarDropPosition.x g.hand.getSugarDropPosition.y
          randVelocity randRotation).x = g.hand.x ∧
      (Sugar.new g.hand.getSugarDropPosition.x g.hand.getSugarDropPosition.y
          randVelocity randRotation).y = g.hand.y + g.hand.height / 2 + 10 ∧
      (g.handleDropInput mobile now randLevel rands randVelocity randRotation).hand.isIdle =
        false ∧
      (∀ (now2 : Int) (randLevel2 : ℚ) (rands2 : Nat → ℚ × ℚ) (rv2 rr2 : ℚ),
        ((g.handleDropInput mobile now randLevel rands randVelocity randRotation).handleDropInput
            mobile now2 randLevel2 rands2 rv2 rr2).sugarCubes =
          (g.handleDropInput mobile now randLevel rands randVelocity randRotation).sugarCubes)) ∧
    (¬ (g.state = .playing ∧ g.hand.state = .idle ∧ g.hand.hasSugar = true) →
      (g.handleDropInput mobile now randLevel rands randVelocity randRotation).sugarCubes =
        g.sugarCubes) ∧
    ((g.handleDropInput mobile now randLevel rands randVelocity randRotation).sugarCubes.length =
        g.sugarCubes.length + 1 ↔
      (g.state = .playing ∧ g.hand.state = .idle ∧ g.hand.hasSugar = true)) := by
  have hyes : g.state = .playing ∧ g.hand.state = .idle ∧ g.hand.hasSugar = true →
      g.handleDropInput mobile now randLevel rands randVelocity randRotation =
      { g with hand := { g.hand with state := .dropping, dropAnimationTime := 0 }
               sugarCubes := g.sugarCubes ++
                 [Sugar.new g.hand.x (g.hand.y + g.hand.height / 2 + 10)
                    randVelocity randRotation] } :=
    fun h => Game.handleDropInput_of_drop g mobile now randLevel rands randVelocity randRotation
      h.1 h.2.1 h.2.2
  refine ⟨?_, ?_, ?_⟩
  · intro h
    rw [hyes h]
    refine ⟨rfl, rfl, rfl, by simp [Hand.isIdle], ?_⟩
    intro now2 randLevel2 rands2 rv2 rr2
    apply Game.handleDropInput_of_no_drop
    rintro ⟨_, hidle, _⟩
    simp at hidle
  · exact Game.handleDropInput_of_no_drop g mobile now randLevel rands randVelocity randRotation
  · constructor
    · intro hlen
      by_contra hno
      rw [Game.handleDropInput_of_no_drop g mobile now randLevel rands randVelocity randRotation
        hno] at hlen
      omega
    · intro h
      rw [hyes h]
      simp

theorem playingSession_hand : playingSession.hand = Hand.new 640 10 1280 false := by
  unfold playingSession levelOneSession
  rw [(Game.startLevel_frame _ 0).2.2.2.2.2.2.2.1,
    (Game.initLevel_frame freshSession false 0 (fun _ => (1/2, 0))).2.2.2.2.2.2.2.1]
  rfl

theorem C17_drop_only_when_playing_and_idle_witness :
    playingSession.state = .playing ∧ playingSession.hand.state = .idle ∧
    playingSession.hand.hasSugar = true ∧
    (playingSession.handleDropInput false 1 0 (fun _ => (1/2, 0)) (1/2) (1/2)).sugarCubes =
      playingSession.sugarCubes ++
        [Sugar.new playingSession.hand.getSugarDropPosition.x
          playingSession.hand.getSugarDropPosition.y (1/2) (1/2)] :=
  have hstate : playingSession.state = .playing := (Game.startLevel_frame levelOneSession 0).1
  have hidle : playingSession.hand.state = .idle := by rw [playingSession_hand]; rfl
  have hsugar : playingSession.hand.hasSugar = true := by rw [playingSession_hand]; rfl
  ⟨hstate, hidle, hsugar,
   ((C17_drop_only_when_playing_and_idle playingSession false 1 0 (fun _ => (1/2, 0)) (1/2)
      (1/2)).1 ⟨hstate, hidle, hsugar⟩).1⟩

/-- Game.nextLevel below level 15 only arms the fade-out with its callback. -/
theorem Game.nextLevel_of_lt (g : Game) (h : g.levelNumber < 15) :
    g.nextLevel =
      { g with fadeTransition := ⟨0, false, true, 300, some .advanceToNextLevel⟩ } := by
  unfold Game.nextLevel Game.startFadeTransition
  rw [if_pos h]
  simp

/-- Game.nextLevel from level 15 on only sets the state gameComplete. -/
theorem Game.nextLevel_of_ge (g : Game) (h : ¬ g.levelNumber < 15) :
    g.nextLevel = { g with state := .gameComplete } := by
  unfold Game.nextLevel
  rw [if_neg h]

/-- While the fade-out armed by Game.nextLevel is below full opacity, the
frames only raise the opacity. -/
theorem Game.fadeFrames_before (g : Game) (hlt : g.levelNumber < 15) (deltaTime : ℚ)
    (mobile : Bool) (draws : Nat → Int × ℚ × (Nat → ℚ × ℚ)) (hdt : 0 ≤ deltaTime) (k : Nat)
    (hk : (k : ℚ) * deltaTime < 300) :
    Game.fadeFrames g.nextLevel deltaTime mobile draws k =
      { g with fadeTransition :=
          ⟨(k : ℚ) * deltaTime / 300, false, true, 300, some .advanceToNextLevel⟩ } := by
  induction k with
  | zero =>
    simp only [Game.fadeFrames]
    rw [Game.nextLevel_of_lt g hlt]
    simp
  | succ m ih =>
    have hm : (m : ℚ) * deltaTime < 300 := by
      push_cast at hk
      nlinarith
    have hlt1 : (m : ℚ) * deltaTime / 300 + deltaTime / 300 < 1 := by
      push_cast at hk
      have : (m : ℚ) * deltaTime / 300 + deltaTime / 300 = ((m : ℚ) + 1) * deltaTime / 300 := by
        ring
      rw [this, div_lt_one (by norm_num)]
      exact hk
    simp only [Game.fadeFrames]
    rw [ih hm]
    unfold Game.updateFadeTransition
    simp only [Bool.or_true, if_true]
    rw [min_eq_right (le_of_lt hlt1), if_neg (not_le.2 hlt1)]
    push_cast
    congr 2
    ring

/-- The frame in which the fade-out armed by Game.nextLevel reaches full
opacity runs the callback: the level number is raised by one, the level and
the cups are created anew and the level is started. -/
theorem Game.fadeFrames_fire (g : Game) (hlt : g.levelNumber < 15) (deltaTime : ℚ)
    (mobile : Bool) (draws : Nat → Int × ℚ × (Nat → ℚ × ℚ)) (hdt : 0 ≤ deltaTime) (k : Nat)
    (hk : (k : ℚ) * deltaTime < 300) (hk1 : 300 ≤ ((k : ℚ) + 1) * deltaTime) :
    Game.fadeFrames g.nextLevel deltaTime mobile draws (k + 1) =
      Game.startFadeTransition
        (Game.startLevel
          (Game.initLevel
            { g with fadeTransition := ⟨1, false, false, 300, some .advanceToNextLevel⟩
                     levelNumber := g.levelNumber + 1 }
            mobile (draws k).2.1 (draws k).2.2)
          (draws k).1)
        false 300 none := by
  have hge1 : 1 ≤ (k : ℚ) * deltaTime / 300 + deltaTime / 300 := by
    have : (k : ℚ) * deltaTime / 300 + deltaTime / 300 = ((k : ℚ) + 1) * deltaTime / 300 := by
      ring
    rw [this, le_div_iff₀ (by norm_num)]
    linarith
  simp only [Game.fadeFrames]
  rw [Game.fadeFrames_before g hlt deltaTime mobile draws hdt k hk]
  unfold Game.updateFadeTransition
  simp only [Bool.or_true, if_true]
  rw [min_eq_left hge1]
  simp [Game.runFadeCallback]

/-- The level table has fifteen records, numbered 1 to 15 in order, each with
non-zero cups, time and speed (what validateConfig and validateLevels test). -/
theorem LEVELS_valid :
    LEVELS.length = 15 ∧
    ∀ i : Nat, i < 15 → ∃ cfg, LEVELS.get? i = some cfg ∧ cfg.level = i + 1 ∧
      cfg.cups ≠ 0 ∧ cfg.time ≠ 0 ∧ cfg.speed ≠ 0 := by
  refine ⟨rfl, ?_⟩
  intro i hi
  obtain ⟨cfg, hget, hlv, _, _, hc, ht, hs⟩ :=
    LEVELS_lookup_of_configured (i + 1) (Nat.succ_le_succ (Nat.zero_le i)) hi
  exact ⟨cfg, hget, hlv, hc, ht, hs⟩

/-- C20: the level table has exactly 15 entries numbered 1..15 in order, each
with non-zero cups, time and speed.  On a session at a configured level that is
not yet gameComplete, Game.nextLevel sets the state gameComplete exactly when
the current level is the last entry of the table.  For an earlier level it
keeps the state and the level number and arms a 300 ms fade-out; for any
positive frame time the fade completes after finitely many frames, none of
which is in gameComplete, and the frame that completes it raises levelNumber
by exactly one, creates the Level and the Cup set anew and starts the level. -/
theorem C20_nextLevel_progression (g : Game) (h1 : 1 ≤ g.levelNumber)
    (h15 : g.levelNumber ≤ 15) (hstate : g.state ≠ .gameComplete) :
    (LEVELS.length = 15 ∧
      ∀ i : Nat, i < 15 → ∃ cfg, LEVELS.get? i = some cfg ∧ cfg.level = i + 1 ∧
        cfg.cups ≠ 0 ∧ cfg.time ≠ 0 ∧ cfg.speed ≠ 0) ∧
    (g.nextLevel.state = .gameComplete ↔
      ∃ cfg, LEVELS.getLast? = some cfg ∧ (cfg.level : Int) = g.levelNumber) ∧
    (g.levelNumber < 15 →
      g.nextLevel.state = g.state ∧ g.nextLevel.levelNumber = g.levelNumber ∧
      ∀ (deltaTime : ℚ) (mobile : Bool) (draws : Nat → Int × ℚ × (Nat → ℚ × ℚ)),
        0 < deltaTime →
        ∃ n : Nat,
          (∀ m : Nat, m ≤ n →
            (Game.fadeFrames g.nextLevel deltaTime mobile draws m).state ≠ .gameComplete) ∧
          (Game.fadeFrames g.nextLevel deltaTime mobile draws n).levelNumber =
            g.levelNumber + 1 ∧
          (Game.fadeFrames g.nextLevel deltaTime mobile draws n).state = .playing ∧
          (Game.fadeFrames g.nextLevel deltaTime mobile draws n).totalSugarDelivered = 0 ∧
          (Game.fadeFrames g.nextLevel deltaTime mobile draws n).cupsCompletedThisLevel = 0 ∧
          (∃ l, (Game.fadeFrames g.nextLevel deltaTime mobile draws n).currentLevel = some l ∧
            l.levelNumber = g.levelNumber + 1 ∧ l.isStarted = true ∧
            l.timeRemaining = l.maxTime ∧ l.cupsCompleted = 0 ∧
            l.isComplete = false ∧ l.isFailed = false) ∧
          (∀ c ∈ (Game.fadeFrames g.nextLevel deltaTime mobile draws n).coffeeCups,
            c.currentSugar = 0 ∧ c.isComplete = false ∧
            (c.requiredSugar = 1 ∨ c.requiredSugar = 2 ∨ c.requiredSugar = 3))) := by
  have hlast : LEVELS.getLast? = some ⟨15, 35, 28/10, 17, (39, 42), "Master"⟩ := rfl
  refine ⟨LEVELS_valid, ?_, ?_⟩
  · by_cases hlt : g.levelNumber < 15
    · rw [Game.nextLevel_of_lt g hlt]
      constructor
      · intro hs
        exact absurd hs hstate
      · rintro ⟨cfg, hcfg, hlv⟩
        rw [hlast] at hcfg
        have := Option.some.inj hcfg
        subst this
        simp only at hlv
        omega
    · rw [Game.nextLevel_of_ge g hlt]
      constructor
      · intro _
        refine ⟨_, hlast, ?_⟩
        simp only
        omega
      · intro _
        rfl
  · intro hlt
    rw [Game.nextLevel_of_lt g hlt]
    refine ⟨rfl, rfl, ?_⟩
    intro deltaTime mobile draws hdt
    rw [← Game.nextLevel_of_lt g hlt]
    have hq : 0 < 300 / deltaTime := div_pos (by norm_num) hdt
    have hNpos : 0 < ⌈300 / deltaTime⌉₊ := Nat.ceil_pos.2 hq
    obtain ⟨k, hNk⟩ : ∃ k, ⌈300 / deltaTime⌉₊ = k + 1 :=
      ⟨⌈300 / deltaTime⌉₊ - 1, by omega⟩
    have hk : (k : ℚ) * deltaTime < 300 := by
      have hlt' : k < ⌈300 / deltaTime⌉₊ := by omega
      have := Nat.lt_ceil.1 hlt'
      rwa [lt_div_iff₀ hdt] at this
    have hk1 : 300 ≤ ((k : ℚ) + 1) * deltaTime := by
      have := Nat.le_ceil (300 / deltaTime)
      rw [hNk, div_le_iff₀ hdt] at this
      push_cast at this
      exact this
    have hbefore : ∀ m : Nat, m ≤ k →
        (Game.fadeFrames g.nextLevel deltaTime mobile draws m).state = g.state := by
      intro m hm
      have hmk : (m : ℚ) * deltaTime < 300 := by
        have hmq : (m : ℚ) ≤ k := by exact_mod_cast hm
        nlinarith
      rw [Game.fadeFrames_before g hlt deltaTime mobile draws (le_of_lt hdt) m hmk]
    have hfire := Game.fadeFrames_fire g hlt deltaTime mobile draws (le_of_lt hdt) k hk hk1
    obtain ⟨_, hdel, hcomp, _, _, hnum, _⟩ := Game.initLevel_frame
      { g with fadeTransition := ⟨1, false, false, 300, some .advanceToNextLevel⟩
               levelNumber := g.levelNumber + 1 } mobile (draws k).2.1 (draws k).2.2
    obtain ⟨s1, s2, _, s4, s5, s6, s7, _⟩ := Game.startLevel_frame
      (Game.initLevel
        { g with fadeTransition := ⟨1, false, false, 300, some .advanceToNextLevel⟩
                 levelNumber := g.levelNumber + 1 } mobile (draws k).2.1 (draws k).2.2)
      (draws k).1
    obtain ⟨l, hl, hln, hmax, htime, hcc, _, hc, hf, _, _⟩ := Game.initLevel_currentLevel_fresh
      { g with fadeTransition := ⟨1, false, false, 300, some .advanceToNextLevel⟩
               levelNumber := g.levelNumber + 1 } mobile (draws k).2.1 (draws k).2.2
    have hplaying : (Game.fadeFrames g.nextLevel deltaTime mobile draws (k + 1)).state =
        .playing := by
      rw [hfire]; exact s1
    refine ⟨k + 1, ?_, ?_, hplaying, ?_, ?_, ?_, ?_⟩
    · intro m hm
      by_cases hmk : m ≤ k
      · rw [hbefore m hmk]; exact hstate
      · have : m = k + 1 := by omega
        rw [this, hplaying]
        decide
    · rw [hfire]
      show (Game.startLevel _ _).levelNumber = _
      rw [s5, hnum]
    · rw [hfire]
      show (Game.startLevel _ _).totalSugarDelivered = _
      rw [s6, hdel]
    · rw [hfire]
      show (Game.startLevel _ _).cupsCompletedThisLevel = _
      rw [s7, hcomp]
    · refine ⟨l.start (draws k).1, ?_, hln, rfl, ?_, hcc, hc, hf⟩
      · rw [hfire]
        show (Game.startLevel _ _).currentLevel = _
        rw [s2, hl]; rfl
      · show l.timeRemaining = l.maxTime
        rw [htime, hmax]
    · rw [hfire]
      show ∀ c ∈ (Game.startLevel _ _).coffeeCups, _
      rw [s4]
      exact Game.initLevel_cups_fresh _ mobile (draws k).2.1 (draws k).2.2

theorem C20_nextLevel_progression_witness :
    (1 : Int) ≤ completedSession.levelNumber ∧ completedSession.levelNumber ≤ 15 ∧
    completedSession.state ≠ .gameComplete ∧
    (completedSession.nextLevel.state = .gameComplete ↔
      ∃ cfg, LEVELS.getLast? = some cfg ∧ (cfg.level : Int) = completedSession.levelNumber) :=
  have hn : completedSession.levelNumber = 1 :=
    (Game.initLevel_frame freshSession false 0 (fun _ => (1/2, 0))).2.2.2.2.2.1
  ⟨by rw [hn], by rw [hn]; decide, by decide,
   (C20_nextLevel_progression completedSession (by rw [hn]) (by rw [hn]; decide)
      (by decide)).2.1⟩

/-! ### Conveyor: spacing of the cups across a wrap-around -/

/-- Cup.update writes neither the box size, the lane nor the slot data. -/
theorem Cup.update_geometry (c : Cup) (deltaTime conveyorSpeed canvasWidth : ℚ) :
    (c.update deltaTime conveyorSpeed canvasWidth).1.width = c.width ∧
    (c.update deltaTime conveyorSpeed canvasWidth).1.height = c.height ∧
    (c.update deltaTime conveyorSpeed canvasWidth).1.y = c.y ∧
    (c.update deltaTime conveyorSpeed canvasWidth).1.slotIndex = c.slotIndex ∧
    (c.update deltaTime conveyorSpeed canvasWidth).1.slotSpacing = c.slotSpacing ∧
    (c.update deltaTime conveyorSpeed canvasWidth).1.offScreenStart = c.offScreenStart := by
  unfold Cup.update
  simp only [Cup.resetCup, Cup.snapshot, Cup.calculateSlotPosition]
  split_ifs <;> simp

/-- The position after Cup.update: the moved position, or the slot position
when the moved cup has left the canvas on the right. -/
theorem Cup.update_x (c : Cup) (deltaTime conveyorSpeed canvasWidth : ℚ) :
    (c.update deltaTime conveyorSpeed canvasWidth).1.x =
      if c.x + conveyorSpeed * (deltaTime / 1000) * 60 - c.width / 2 > canvasWidth then
        c.offScreenStart + (c.slotIndex : ℚ) * c.slotSpacing
      else c.x + conveyorSpeed * (deltaTime / 1000) * 60 := by
  unfold Cup.update
  simp only [Cup.resetCup, Cup.snapshot, Cup.calculateSlotPosition]
  split_ifs <;> simp_all

/-- The position of a cup after n frames that do not take it off the canvas. -/
theorem Cup.updateN_no_wrap (c : Cup) (deltaTime conveyorSpeed canvasWidth : ℚ) (n : Nat)
    (hstep : 0 ≤ conveyorSpeed * (deltaTime / 1000) * 60)
    (hin : c.x + n * (conveyorSpeed * (deltaTime / 1000) * 60) - c.width / 2 ≤ canvasWidth) :
    (c.updateN deltaTime conveyorSpeed canvasWidth n).x =
      c.x + n * (conveyorSpeed * (deltaTime / 1000) * 60) ∧
    (c.updateN deltaTime conveyorSpeed canvasWidth n).width = c.width ∧
    (c.updateN deltaTime conveyorSpeed canvasWidth n).height = c.height ∧
    (c.updateN deltaTime conveyorSpeed canvasWidth n).y = c.y ∧
    (c.updateN deltaTime conveyorSpeed canvasWidth n).slotIndex = c.slotIndex ∧
    (c.updateN deltaTime conveyorSpeed canvasWidth n).slotSpacing = c.slotSpacing ∧
    (c.updateN deltaTime conveyorSpeed canvasWidth n).offScreenStart = c.offScreenStart := by
  induction n with
  | zero => simp [Cup.updateN]
  | succ m ih =>
    have hm : c.x + m * (conveyorSpeed * (deltaTime / 1000) * 60) - c.width / 2 ≤
        canvasWidth := by
      push_cast at hin
      linarith
    obtain ⟨ix, iw, ih', iy, i1, i2, i3⟩ := ih hm
    obtain ⟨gw, gh, gy, g1, g2, g3⟩ :=
      Cup.update_geometry (c.updateN deltaTime conveyorSpeed canvasWidth m) deltaTime
        conveyorSpeed canvasWidth
    have hx := Cup.update_x (c.updateN deltaTime conveyorSpeed canvasWidth m) deltaTime
      conveyorSpeed canvasWidth
    rw [ix, iw] at hx
    have hnot : ¬ (c.x + m * (conveyorSpeed * (deltaTime / 1000) * 60) +
        conveyorSpeed * (deltaTime / 1000) * 60 - c.width / 2 > canvasWidth) := by
      push_cast at hin
      intro hgt
      linarith
    rw [if_neg hnot] at hx
    simp only [Cup.updateN]
    refine ⟨?_, by rw [gw, iw], by rw [gh, ih'], by rw [gy, iy], by rw [g1, i1],
      by rw [g2, i2], by rw [g3, i3]⟩
    rw [hx]; push_cast; ring

/-- The frame that takes a cup off the canvas, after n frames that did not,
puts it back on its slot position. -/
theorem Cup.updateN_wrap (c : Cup) (deltaTime conveyorSpeed canvasWidth : ℚ) (n : Nat)
    (hstep : 0 ≤ conveyorSpeed * (deltaTime / 1000) * 60)
    (hin : c.x + n * (conveyorSpeed * (deltaTime / 1000) * 60) - c.width / 2 ≤ canvasWidth)
    (hout : c.x + (n + 1) * (conveyorSpeed * (deltaTime / 1000) * 60) - c.width / 2 >
      canvasWidth) :
    (c.updateN deltaTime conveyorSpeed canvasWidth (n + 1)).x =
      c.offScreenStart + (c.slotIndex : ℚ) * c.slotSpacing ∧
    (c.updateN deltaTime conveyorSpeed canvasWidth (n + 1)).width = c.width ∧
    (c.updateN deltaTime conveyorSpeed canvasWidth (n + 1)).height = c.height ∧
    (c.updateN deltaTime conveyorSpeed canvasWidth (n + 1)).y = c.y := by
  obtain ⟨ix, iw, ih', iy, i1, i2, i3⟩ :=
    Cup.updateN_no_wrap c deltaTime conveyorSpeed canvasWidth n hstep hin
  obtain ⟨gw, gh, gy, _, _, _⟩ :=
    Cup.update_geometry (c.updateN deltaTime conveyorSpeed canvasWidth n) deltaTime
      conveyorSpeed canvasWidth
  have hx := Cup.update_x (c.updateN deltaTime conveyorSpeed canvasWidth n) deltaTime
    conveyorSpeed canvasWidth
  rw [ix, iw, i1, i2, i3] at hx
  have hyes : c.x + n * (conveyorSpeed * (deltaTime / 1000) * 60) +
      conveyorSpeed * (deltaTime / 1000) * 60 - c.width / 2 > canvasWidth := by
    linarith
  rw [if_pos hyes] at hx
  simp only [Cup.updateN]
  exact ⟨hx, by rw [gw, iw], by rw [gh, ih'], by rw [gy, iy]⟩

/-- The cup loop writes only the cup array. -/
theorem Game.advanceFrames_frame (g : Game) (deltaTime : ℚ) (n : Nat) :
    (g.advanceFrames deltaTime n).currentLevel = g.currentLevel ∧
    (g.advanceFrames deltaTime n).canvasWidth = g.canvasWidth := by
  induction n with
  | zero => exact ⟨rfl, rfl⟩
  | succ m ih => exact ih

/-- After n frames of the cup loop every cup has been updated n times. -/
theorem Game.advanceFrames_cups (g : Game) (deltaTime : ℚ) (n : Nat) :
    (g.advanceFrames deltaTime n).coffeeCups =
      g.coffeeCups.map (fun c => c.updateN deltaTime g.conveyorSpeed g.canvasWidth n) := by
  induction n with
  | zero => simp [Game.advanceFrames, Cup.updateN]
  | succ m ih =>
    obtain ⟨hl, hw⟩ := Game.advanceFrames_frame g deltaTime m
    have hsp : (g.advanceFrames deltaTime m).conveyorSpeed = g.conveyorSpeed := by
      unfold Game.conveyorSpeed
      rw [hl]
    simp only [Game.advanceFrames, Game.advanceCups]
    rw [ih, hsp, hw, List.map_map]
    rfl

/-- Frames of the cup loop keep a session reachable. -/
theorem Game.advanceFrames_reachable (g : Game) (deltaTime : ℚ) (n : Nat) (h : g.Reachable) :
    (g.advanceFrames deltaTime n).Reachable := by
  induction n with
  | zero => exact h
  | succ m ih => exact Game.Reachable.advance deltaTime ih

theorem levelFifteenSession_reachable : levelFifteenSession.Reachable :=
  Game.Reachable.initLevel { freshSession with levelNumber := 15 } false 0 (fun _ => (1/2, 0))

theorem levelFifteenSession_cups :
    levelFifteenSession.coffeeCups =
      (List.range 17).map (Game.slotCup 17 520 540 false (fun _ => (1/2, 0))) := by
  have hfind : LEVELS.find?
      (fun level => decide ((level.level : Int) =
        ({ freshSession with levelNumber := 15 } : Game).levelNumber)) =
      some ⟨15, 35, 28/10, 17, (39, 42), "Master"⟩ := rfl
  have h := (Game.initLevel_of_config { freshSession with levelNumber := 15 } false 0
    (fun _ => (1/2, 0)) _ hfind).1
  unfold levelFifteenSession
  rw [h]
  have h520 : ({ freshSession with levelNumber := 15 } : Game).canvasHeight - 200 = 520 := by
    simp [freshSession]; norm_num
  have h540 : ({ freshSession with levelNumber := 15 } : Game).canvasHeight - 180 = 540 := by
    simp [freshSession]; norm_num
  rw [h520, h540]

theorem levelFifteenSession_speed :
    levelFifteenSession.conveyorSpeed = 28 / 10 ∧ levelFifteenSession.canvasWidth = 1280 := by
  obtain ⟨l, hl, hcfg, _⟩ := Game.initLevel_currentLevel_config
    { freshSession with levelNumber := 15 } false 0 (fun _ => (1/2, 0))
  constructor
  · unfold Game.conveyorSpeed levelFifteenSession
    rw [hl]
    simp only
    rw [hcfg]
    rfl
  · exact (Game.initLevel_frame { freshSession with levelNumber := 15 } false 0
      (fun _ => (1/2, 0))).2.2.2.2.2.2.2.2.2.1

theorem slotCup_five_fields :
    (Game.slotCup 17 520 540 false (fun _ => (1/2, 0)) 5).x = -2120 ∧
    (Game.slotCup 17 520 540 false (fun _ => (1/2, 0)) 5).y = 520 ∧
    (Game.slotCup 17 520 540 false (fun _ => (1/2, 0)) 5).width = 110 ∧
    (Game.slotCup 17 520 540 false (fun _ => (1/2, 0)) 5).height = 90 := by
  simp [Game.slotCup, Cup.assignSlot, Cup.new, Cup.mobileScale, Cup.getSizeWidth,
    Cup.getSizeHeight, Game.sizeOfIndex]
  norm_num

theorem slotCup_sixteen_fields :
    (Game.slotCup 17 520 540 false (fun _ => (1/2, 0)) 16).x = -360 ∧
    (Game.slotCup 17 520 540 false (fun _ => (1/2, 0)) 16).y = 520 ∧
    (Game.slotCup 17 520 540 false (fun _ => (1/2, 0)) 16).width = 90 ∧
    (Game.slotCup 17 520 540 false (fun _ => (1/2, 0)) 16).height = 75 ∧
    (Game.slotCup 17 520 540 false (fun _ => (1/2, 0)) 16).offScreenStart +
      ((Game.slotCup 17 520 540 false (fun _ => (1/2, 0)) 16).slotIndex : ℚ) *
        (Game.slotCup 17 520 540 false (fun _ => (1/2, 0)) 16).slotSpacing = -360 := by
  simp [Game.slotCup, Cup.assignSlot, Cup.new, Cup.mobileScale, Cup.getSizeWidth,
    Cup.getSizeHeight, Game.sizeOfIndex]
  norm_num

/-- Two cups with these positions and sizes have overlapping boxes. -/
theorem Cup.boxes_overlap_of_fields (a b : Cup) (hax : a.x = -54328 / 125)
    (haw : a.width = 110) (hah : a.height = 90) (hay : a.y = 520) (hbx : b.x = -360)
    (hbw : b.width = 90) (hbh : b.height = 75) (hby : b.y = 520) :
    CollisionDetection.checkAABB a.getBounds b.getBounds = true := by
  simp only [CollisionDetection.checkAABB, Cup.getBounds, hax, haw, hah, hay, hbx, hbw, hbh, hby]
  norm_num

/-- C13 fails on the code: level 15 (seventeen cups, speed 2.8) on a canvas
1280 px wide, advanced by 627 frames of 16 ms.  The last cup (slot 16) leaves
the canvas in frame 627 and is put back on its slot position x = -360, where
the cup of slot 5 has meanwhile arrived (x = -434.624): the two boxes,
[-489.624, -379.624] and [-405, -315] on the same lane, overlap. -/
theorem C13_cups_overlap_after_first_wrap :
    (levelFifteenSession.advanceFrames 16 627).Reachable ∧
    ∃ a b : Cup,
      (levelFifteenSession.advanceFrames 16 627).coffeeCups[5]? = some a ∧
      (levelFifteenSession.advanceFrames 16 627).coffeeCups[16]? = some b ∧
      a.x = -54328 / 125 ∧ a.width = 110 ∧ b.x = -360 ∧ b.width = 90 ∧ a.y = b.y ∧
      CollisionDetection.checkAABB a.getBounds b.getBounds = true := by
  obtain ⟨hsp, hcw⟩ := levelFifteenSession_speed
  obtain ⟨x5, y5, w5, h5⟩ := slotCup_five_fields
  obtain ⟨x16, y16, w16, h16, s16⟩ := slotCup_sixteen_fields
  have hstep : (0 : ℚ) ≤ 28 / 10 * (16 / 1000) * 60 := by norm_num
  obtain ⟨ax, aw, ah, ay, _⟩ :=
    Cup.updateN_no_wrap (Game.slotCup 17 520 540 false (fun _ => (1/2, 0)) 5) 16 (28 / 10) 1280
      627 hstep (by rw [x5, w5]; norm_num)
  obtain ⟨bx, bw, bh, by'⟩ :=
    Cup.updateN_wrap (Game.slotCup 17 520 540 false (fun _ => (1/2, 0)) 16) 16 (28 / 10) 1280
      626 hstep (by rw [x16, w16]; norm_num) (by rw [x16, w16]; norm_num)
  have hax := ax.trans (show (Game.slotCup 17 520 540 false (fun _ => (1/2, 0)) 5).x +
      ((627 : Nat) : ℚ) * (28 / 10 * (16 / 1000) * 60) = -54328 / 125 by rw [x5]; norm_num)
  have hbx := bx.trans s16
  refine ⟨Game.advanceFrames_reachable _ 16 627 levelFifteenSession_reachable,
    (Game.slotCup 17 520 540 false (fun _ => (1/2, 0)) 5).updateN 16 (28 / 10) 1280 627,
    (Game.slotCup 17 520 540 false (fun _ => (1/2, 0)) 16).updateN 16 (28 / 10) 1280 627,
    ?_, ?_, hax, aw.trans w5, hbx, bw.trans w16, (ay.trans y5).trans (by'.trans y16).symm,
    Cup.boxes_overlap_of_fields _ _ hax (aw.trans w5) (ah.trans h5) (ay.trans y5) hbx
      (bw.trans w16) (bh.trans h16) (by'.trans y16)⟩
  · rw [Game.advanceFrames_cups, levelFifteenSession_cups, hsp, hcw, List.getElem?_map]
    rfl
  · rw [Game.advanceFrames_cups, levelFifteenSession_cups, hsp, hcw, List.getElem?_map]
    rfl

/-! ### Sugar requirement draw, timer colour, box test -/

/-- C22: Cup.generateSugarRequirement maps a draw r to 1 exactly when r < 0.3,
to 2 exactly when 0.3 ≤ r < 0.8 and to 3 exactly when r ≥ 0.8, so the result
is 1, 2 or 3; the three intervals of [0,1) have the lengths of the configured
weights 0.3, 0.5 and 0.2, and the three weights sum to 1. -/
theorem C22_sugar_requirement_distribution (r : ℚ) :
    (Cup.generateSugarRequirement r = 1 ↔ r < 3 / 10) ∧
    (Cup.generateSugarRequirement r = 2 ↔ 3 / 10 ≤ r ∧ r < 8 / 10) ∧
    (Cup.generateSugarRequirement r = 3 ↔ 8 / 10 ≤ r) ∧
    (Cup.generateSugarRequirement r = 1 ∨ Cup.generateSugarRequirement r = 2 ∨
      Cup.generateSugarRequirement r = 3) ∧
    ONE_SUGAR = 3 / 10 - 0 ∧ TWO_SUGAR = 8 / 10 - 3 / 10 ∧ THREE_SUGAR = 1 - 8 / 10 ∧
    ONE_SUGAR + TWO_SUGAR + THREE_SUGAR = 1 := by
  have h8 : ONE_SUGAR + TWO_SUGAR = 8 / 10 := by norm_num [ONE_SUGAR, TWO_SUGAR]
  have h3 : ONE_SUGAR = 3 / 10 := rfl
  refine ⟨?_, ?_, ?_, Cup.generateSugarRequirement_mem r, ?_, ?_, ?_, ?_⟩
  · unfold Cup.generateSugarRequirement
    rw [h8, h3]
    split_ifs with h1 h2 <;> simp [h1]
  · unfold Cup.generateSugarRequirement
    rw [h8, h3]
    split_ifs with h1 h2
    · simp; intro h; linarith
    · simp; exact ⟨not_lt.1 h1, h2⟩
    · simp; intro _; exact not_lt.1 h2
  · unfold Cup.generateSugarRequirement
    rw [h8, h3]
    split_ifs with h1 h2
    · simp; linarith
    · simp; exact h2
    · simp; exact not_lt.1 h2
  · norm_num [ONE_SUGAR]
  · norm_num [TWO_SUGAR]
  · norm_num [THREE_SUGAR]
  · norm_num [ONE_SUGAR, TWO_SUGAR, THREE_SUGAR]

theorem twelveSecondsLeft_fields :
    twelveSecondsLeft.timeRemaining = 12 ∧ twelveSecondsLeft.maxTime = 60 := by
  simp [twelveSecondsLeft, startedLevelOne, Level.update, Level.start, Level.new,
    Level.lookupConfig, LEVELS, Level.fail, Level.complete]
  norm_num

/-- C24, as stated, fails on the boundary: level 1 with 12 of its 60 seconds
left has timer percentage exactly 20, inside the stated warning band
20 ≤ p ≤ 50, and Level.getTimerColorState returns danger. -/
theorem C24_counterexample :
    twelveSecondsLeft.getTimerPercentage = 20 ∧
    (20 ≤ twelveSecondsLeft.getTimerPercentage ∧ twelveSecondsLeft.getTimerPercentage ≤ 50) ∧
    twelveSecondsLeft.getTimerColorState = .danger ∧
    twelveSecondsLeft.getTimerColorState ≠ .warning := by
  obtain ⟨ht, hm⟩ := twelveSecondsLeft_fields
  have hp : twelveSecondsLeft.getTimerPercentage = 20 := by
    unfold Level.getTimerPercentage
    rw [ht, hm]; norm_num
  have hs : twelveSecondsLeft.getTimerColorState = .danger := by
    unfold Level.getTimerColorState
    simp only [hp]
    norm_num
  refine ⟨hp, ⟨by rw [hp], by rw [hp]; norm_num⟩, hs, ?_⟩
  rw [hs]; decide

/-- C24 (amended): with p = 100 * timeRemaining / maxTime, the value of
Level.getTimerColorState is normal exactly when p > 50, warning exactly when
20 < p ≤ 50, and danger exactly when p ≤ 20. -/
theorem C24_timer_color_thresholds (l : Level) :
    l.getTimerPercentage = 100 * l.timeRemaining / l.maxTime ∧
    (l.getTimerColorState = .normal ↔ l.getTimerPercentage > 50) ∧
    (l.getTimerColorState = .warning ↔
      20 < l.getTimerPercentage ∧ l.getTimerPercentage ≤ 50) ∧
    (l.getTimerColorState = .danger ↔ l.getTimerPercentage ≤ 20) := by
  refine ⟨?_, ?_, ?_, ?_⟩
  · unfold Level.getTimerPercentage; ring
  · unfold Level.getTimerColorState
    dsimp only
    split_ifs with h1 h2 <;> simp [h1]
  · unfold Level.getTimerColorState
    dsimp only
    split_ifs with h1 h2
    · simp; intro _; exact h1
    · simp; exact ⟨h2, not_lt.1 h1⟩
    · simp; intro h; exact absurd h h2
  · unfold Level.getTimerColorState
    dsimp only
    split_ifs with h1 h2
    · simp; linarith
    · simp; exact h2
    · simp; exact not_lt.1 h2

theorem grazingCube_touches :
    (CollisionDetection.getSugarBounds grazingCube).right =
      (CollisionDetection.getCupBounds slotZeroCup).left := by
  simp [CollisionDetection.getSugarBounds, CollisionDetection.getCupBounds, Cup.getBounds,
    grazingCube, slotZeroCup, Sugar.new, Cup.new, Cup.assignSlot, Cup.getSizeWidth,
    Cup.mobileScale]
  norm_num

/-- C27: CollisionDetection.checkSugarCupCollision is true exactly when
2 |sugar.x - cup.x| < sugar.width + cup.width and
2 |sugar.y - cup.y| < sugar.height + cup.height; a cube box and a cup box that
share an edge coordinate (touching sides) do not collide; and checkAABB gives
the same answer with its two arguments exchanged. -/
theorem C27_collision_iff_overlap (sugar : Sugar) (cup : Cup) :
    (CollisionDetection.checkSugarCupCollision sugar cup = true ↔
      2 * |sugar.x - cup.x| < sugar.width + cup.width ∧
      2 * |sugar.y - cup.y| < sugar.height + cup.height) ∧
    ((CollisionDetection.getSugarBounds sugar).right =
        (CollisionDetection.getCupBounds cup).left ∨
      (CollisionDetection.getSugarBounds sugar).left =
        (CollisionDetection.getCupBounds cup).right ∨
      (CollisionDetection.getSugarBounds sugar).bottom =
        (CollisionDetection.getCupBounds cup).top ∨
      (CollisionDetection.getSugarBounds sugar).top =
        (CollisionDetection.getCupBounds cup).bottom →
      CollisionDetection.checkSugarCupCollision sugar cup = false) ∧
    (∀ rect1 rect2 : Bounds,
      CollisionDetection.checkAABB rect1 rect2 = CollisionDetection.checkAABB rect2 rect1) := by
  refine ⟨?_, ?_, ?_⟩
  · simp only [CollisionDetection.checkSugarCupCollision, CollisionDetection.checkAABB,
      CollisionDetection.getSugarBounds, CollisionDetection.getCupBounds, Cup.getBounds,
      Bool.and_eq_true, decide_eq_true_eq, gt_iff_lt]
    constructor
    · rintro ⟨⟨⟨h1, h2⟩, h3⟩, h4⟩
      constructor
      · have := abs_lt.2 (⟨by linarith, by linarith⟩ :
          -((sugar.width + cup.width) / 2) < sugar.x - cup.x ∧
            sugar.x - cup.x < (sugar.width + cup.width) / 2)
        linarith
      · have := abs_lt.2 (⟨by linarith, by linarith⟩ :
          -((sugar.height + cup.height) / 2) < sugar.y - cup.y ∧
            sugar.y - cup.y < (sugar.height + cup.height) / 2)
        linarith
    · rintro ⟨hx, hy⟩
      have hx2 : |sugar.x - cup.x| < (sugar.width + cup.width) / 2 := by linarith
      have hy2 : |sugar.y - cup.y| < (sugar.height + cup.height) / 2 := by linarith
      obtain ⟨a1, a2⟩ := abs_lt.1 hx2
      obtain ⟨b1, b2⟩ := abs_lt.1 hy2
      refine ⟨⟨⟨?_, ?_⟩, ?_⟩, ?_⟩ <;> linarith
  · intro h
    simp only [CollisionDetection.checkSugarCupCollision, CollisionDetection.checkAABB]
    rcases h with h | h | h | h
    · rw [h]; simp
    · rw [h]; simp
    · rw [h]; simp
    · rw [h]; simp
  · intro rect1 rect2
    simp only [CollisionDetection.checkAABB, gt_iff_lt]
    rw [Bool.eq_iff_iff]
    simp only [Bool.and_eq_true, decide_eq_true_eq]
    tauto

theorem C27_collision_iff_overlap_witness :
    (CollisionDetection.getSugarBounds grazingCube).right =
      (CollisionDetection.getCupBounds slotZeroCup).left ∧
    CollisionDetection.checkSugarCupCollision grazingCube slotZeroCup = false :=
  ⟨grazingCube_touches,
   (C27_collision_iff_overlap grazingCube slotZeroCup).2.1 (Or.inl grazingCube_touches)⟩

/-! ### Falling steps and the conveyor move -/

/-- The horizontal part of one falling step: x moves by the old velocityX
times dt, then velocityX is damped by 0.995, whether or not the step lands. -/
theorem Sugar.update_falling_horizontal (sinPi : ℚ → ℚ) (s : Sugar)
    (deltaTime canvasHeight : ℚ)
    (hs : s.isSplashing = false) (hb : s.isBouncing = false) (hf : s.isFalling = true) :
    (s.update sinPi deltaTime canvasHeight).x = s.x + s.velocityX * (deltaTime / 1000) ∧
    (s.update sinPi deltaTime canvasHeight).velocityX = s.velocityX * (995 / 1000) := by
  rw [Sugar.update_of_falling sinPi s deltaTime canvasHeight hs hb hf]
  unfold Sugar.updateFallingPhysics Sugar.hitGround Sugar.splash
  dsimp only
  split_ifs <;> exact ⟨rfl, rfl⟩

/-- C28: for a falling cube with vertical velocity v0 and gravity g, after n
calls of Sugar.update of the same deltaTime (dt = deltaTime / 1000 seconds)
that stay above the floor, velocityY = v0 + n g dt and
y = y0 + n v0 dt + g dt² n (n + 1) / 2; and each of these calls moves x by the
velocityX it found times dt and then multiplies velocityX by 0.995. -/
theorem C28_falling_closed_form (sinPi : ℚ → ℚ) (s : Sugar) (deltaTime canvasHeight : ℚ)
    (n : Nat)
    (hs : s.isSplashing = false) (hb : s.isBouncing = false) (hf : s.isFalling = true)
    (hfloor : ∀ k : Nat, 1 ≤ k → k ≤ n →
      s.y + k * s.velocityY * (deltaTime / 1000) +
        s.gravity * (deltaTime / 1000) ^ 2 * k * (k + 1) / 2 + s.height / 2 <
        canvasHeight - 50) :
    (s.updateN sinPi deltaTime canvasHeight n).velocityY =
      s.velocityY + n * s.gravity * (deltaTime / 1000) ∧
    (s.updateN sinPi deltaTime canvasHeight n).y =
      s.y + n * s.velocityY * (deltaTime / 1000) +
        s.gravity * (deltaTime / 1000) ^ 2 * n * (n + 1) / 2 ∧
    (∀ k : Nat, k < n →
      (s.updateN sinPi deltaTime canvasHeight (k + 1)).x =
        (s.updateN sinPi deltaTime canvasHeight k).x +
          (s.updateN sinPi deltaTime canvasHeight k).velocityX * (deltaTime / 1000) ∧
      (s.updateN sinPi deltaTime canvasHeight (k + 1)).velocityX =
        (s.updateN sinPi deltaTime canvasHeight k).velocityX * (995 / 1000)) := by
  obtain ⟨ev, ey, _⟩ := Sugar.updateN_falling sinPi s deltaTime canvasHeight hs hb hf n hfloor
  refine ⟨ev, ey, ?_⟩
  intro k hk
  obtain ⟨_, _, _, _, kf, ks, kb⟩ :=
    Sugar.updateN_falling sinPi s deltaTime canvasHeight hs hb hf k
      (fun j h1 hj => hfloor j h1 (le_trans hj (Nat.le_of_lt hk)))
  exact Sugar.update_falling_horizontal sinPi (s.updateN sinPi deltaTime canvasHeight k)
    deltaTime canvasHeight ks kb kf

theorem C28_falling_closed_form_witness :
    (restingCube.updateN (fun _ => 0) 16 720 10).velocityY =
      restingCube.velocityY + (10 : Nat) * restingCube.gravity * (16 / 1000) ∧
    (restingCube.updateN (fun _ => 0) 16 720 10).y =
      restingCube.y + (10 : Nat) * restingCube.velocityY * (16 / 1000) +
        restingCube.gravity * (16 / 1000) ^ 2 * (10 : Nat) * ((10 : Nat) + 1) / 2 :=
  have h := C28_falling_closed_form (fun _ => 0) restingCube 16 720 10
    restingCube_fields.2.2.2.2.2.1 restingCube_fields.2.2.2.2.2.2 restingCube_fields.2.2.2.2.1
    (by
      intro k _ hk
      rw [restingCube_fields.1, restingCube_fields.2.1, restingCube_fields.2.2.1,
        restingCube_fields.2.2.2.1]
      have hk10 : (k : ℚ) ≤ 10 := by exact_mod_cast hk
      have hk0 : (0 : ℚ) ≤ k := by exact_mod_cast Nat.zero_le k
      nlinarith)
  ⟨h.1, h.2.1⟩

/-- The flag returned by Cup.update: the moved cup has its left side beyond
the canvas width. -/
theorem Cup.update_wrapped_iff (c : Cup) (deltaTime conveyorSpeed canvasWidth : ℚ) :
    (c.update deltaTime conveyorSpeed canvasWidth).2.wrapped = true ↔
      c.x + conveyorSpeed * (deltaTime / 1000) * 60 - c.width / 2 > canvasWidth := by
  unfold Cup.update
  simp only [Cup.resetCup, Cup.snapshot, Cup.calculateSlotPosition]
  split_ifs <;> simp_all

theorem doorwayCup_fields : doorwayCup.x = 1280 ∧ doorwayCup.width = 70 := by
  simp [doorwayCup, Cup.new, Cup.getSizeWidth, Cup.mobileScale]

/-- C29, as stated, fails: a small cup centred on the right border of a
1280 px canvas has its leading (right) side at 1315, beyond the border, before
and after a frame of 16 ms at speed 1, and Cup.update does not wrap it: it is
moved to x = 1280.96. -/
theorem C29_counterexample :
    doorwayCup.x + doorwayCup.width / 2 > 1280 ∧
    (doorwayCup.update 16 1 1280).1.x + (doorwayCup.update 16 1 1280).1.width / 2 > 1280 ∧
    (doorwayCup.update 16 1 1280).2.wrapped = false ∧
    (doorwayCup.update 16 1 1280).1.x = 32024 / 25 := by
  obtain ⟨hx, hw⟩ := doorwayCup_fields
  have hnw : ¬ (doorwayCup.x + 1 * (16 / 1000) * 60 - doorwayCup.width / 2 > 1280) := by
    rw [hx, hw]; norm_num
  have hx1 : (doorwayCup.update 16 1 1280).1.x = 32024 / 25 := by
    rw [Cup.update_x, if_neg hnw, hx]; norm_num
  refine ⟨by rw [hx, hw]; norm_num, ?_, ?_, hx1⟩
  · rw [hx1, (Cup.update_geometry doorwayCup 16 1 1280).1, hw]; norm_num
  · cases hwr : (doorwayCup.update 16 1 1280).2.wrapped with
    | false => rfl
    | true => exact absurd ((Cup.update_wrapped_iff doorwayCup 16 1 1280).1 hwr) hnw

/-- C29 (amended): Cup.update with deltaTime, conveyorSpeed ≥ 0 first moves the
cup rightward by conveyorSpeed * (deltaTime / 1000) * 60; it wraps exactly when
the trailing (left) side of the moved cup, x - width / 2, is beyond
canvasWidth, that is when the whole cup has left the lane; on a wrap x becomes
offScreenStart + slotIndex * slotSpacing whatever the overshoot, without a wrap
x is the moved position, and y is unchanged in both cases. -/
theorem C29_update_moves_and_wraps (c : Cup) (deltaTime conveyorSpeed canvasWidth : ℚ)
    (hdt : 0 ≤ deltaTime) (hsp : 0 ≤ conveyorSpeed) :
    c.x ≤ c.x + conveyorSpeed * (deltaTime / 1000) * 60 ∧
    ((c.update deltaTime conveyorSpeed canvasWidth).2.wrapped = true ↔
      c.x + conveyorSpeed * (deltaTime / 1000) * 60 - c.width / 2 > canvasWidth) ∧
    ((c.update deltaTime conveyorSpeed canvasWidth).2.wrapped = true →
      (c.update deltaTime conveyorSpeed canvasWidth).1.x =
        c.offScreenStart + (c.slotIndex : ℚ) * c.slotSpacing) ∧
    ((c.update deltaTime conveyorSpeed canvasWidth).2.wrapped = false →
      (c.update deltaTime conveyorSpeed canvasWidth).1.x =
        c.x + conveyorSpeed * (deltaTime / 1000) * 60) ∧
    (c.update deltaTime conveyorSpeed canvasWidth).1.y = c.y := by
  have hiff := Cup.update_wrapped_iff c deltaTime conveyorSpeed canvasWidth
  refine ⟨?_, hiff, ?_, ?_, (Cup.update_geometry c deltaTime conveyorSpeed canvasWidth).2.2.1⟩
  · have : 0 ≤ conveyorSpeed * (deltaTime / 1000) * 60 := by positivity
    linarith
  · intro hw
    rw [Cup.update_x, if_pos (hiff.1 hw)]
  · intro hw
    have hn : ¬ (c.x + conveyorSpeed * (deltaTime / 1000) * 60 - c.width / 2 > canvasWidth) := by
      intro h
      rw [hiff.2 h] at hw
      exact absurd hw (by decide)
    rw [Cup.update_x, if_neg hn]

theorem C29_update_moves_and_wraps_witness :
    (0 : ℚ) ≤ 16 ∧ (0 : ℚ) ≤ 1 ∧
    (edgeCup.update 16 1 1280).2.wrapped = true ∧
    (edgeCup.update 16 1 1280).1.x =
      edgeCup.offScreenStart + (edgeCup.slotIndex : ℚ) * edgeCup.slotSpacing ∧
    (edgeCup.update 16 1 1280).1.y = edgeCup.y :=
  ⟨by norm_num, by norm_num, edgeCup_wraps,
   (C29_update_moves_and_wraps edgeCup 16 1 1280 (by norm_num) (by norm_num)).2.2.1 edgeCup_wraps,
   (C29_update_moves_and_wraps edgeCup 16 1 1280 (by norm_num) (by norm_num)).2.2.2.2⟩

/-! ### Level lookup: the fallback and the total-sugar target -/

/-- Level.generateTotalSugarTarget stays inside a non-empty range for every
draw in [0, 1). -/
theorem Level.generateTotalSugarTarget_mem (config : LevelConfig) (rand : ℚ)
    (h0 : 0 ≤ rand) (h1 : rand < 1) (hrange : config.totalSugar.1 ≤ config.totalSugar.2) :
    config.totalSugar.1 ≤ Level.generateTotalSugarTarget config rand ∧
    Level.generateTotalSugarTarget config rand ≤ config.totalSugar.2 := by
  unfold Level.generateTotalSugarTarget
  have hd : (0 : ℚ) < ((config.totalSugar.2 - config.totalSugar.1 + 1 : Int) : ℚ) := by
    have : (0 : Int) < config.totalSugar.2 - config.totalSugar.1 + 1 := by omega
    exact_mod_cast this
  have hlo : 0 ≤ ⌊rand * ((config.totalSugar.2 - config.totalSugar.1 + 1 : Int) : ℚ)⌋ :=
    Int.floor_nonneg.2 (mul_nonneg h0 hd.le)
  have hhi : ⌊rand * ((config.totalSugar.2 - config.totalSugar.1 + 1 : Int) : ℚ)⌋ <
      config.totalSugar.2 - config.totalSugar.1 + 1 := by
    rw [Int.floor_lt]
    nlinarith
  constructor <;> omega

/-- Every record of the table has a non-empty total-sugar range. -/
theorem LEVELS_totalSugar_range (n : Nat) (h1 : 1 ≤ n) (h15 : n ≤ 15) :
    (Level.lookupConfig (n : Int)).totalSugar.1 ≤ (Level.lookupConfig (n : Int)).totalSugar.2 := by
  interval_cases n <;> simp [Level.lookupConfig, LEVELS]

/-- Level.update never writes the total-sugar target. -/
theorem Level.update_totalSugarNeeded (l : Level) (deltaTime : ℚ)
    (completedCups totalCups totalSugarDelivered now : Int) :
    (l.update deltaTime completedCups totalCups totalSugarDelivered now).totalSugarNeeded =
      l.totalSugarNeeded := by
  unfold Level.update Level.complete Level.fail Level.calculateScore
  dsimp only
  split_ifs <;> rfl

/-- On a configured level Game.initLevel overwrites the target drawn by the
Level constructor with the sum of the requirements of the cups it created. -/
theorem Game.initLevel_totalSugarNeeded (g : Game) (mobile : Bool) (randLevel : ℚ)
    (rands : Nat → ℚ × ℚ) (cfg : LevelConfig)
    (hfind : LEVELS.find? (fun level => decide ((level.level : Int) = g.levelNumber)) =
      some cfg) :
    ∃ l, (g.initLevel mobile randLevel rands).currentLevel = some l ∧
      l.totalSugarNeeded =
        (g.initLevel mobile randLevel rands).coffeeCups.foldl
          (fun total cup => total + cup.requiredSugar) 0 ∧
      (g.initLevel mobile randLevel rands).exactSugarNeeded = l.totalSugarNeeded := by
  unfold Game.initLevel Game.createCupsForLevel
  dsimp only
  rw [hfind]
  simp only [Game.setupSlotBasedPositioning_currentLevel]
  exact ⟨_, rfl, rfl, rfl⟩

theorem thriftySession_target :
    ∃ l, thriftySession.currentLevel = some l ∧ l.config.totalSugar = (5, 6) ∧
      l.totalSugarNeeded = 3 ∧
      thriftySession.coffeeCups.foldl (fun total cup => total + cup.requiredSugar) 0 = 3 := by
  simp [thriftySession, freshSession, Game.initLevel, Game.createCupsForLevel, LEVELS,
    Game.setupSlotBasedPositioning, List.range, List.range.loop, Cup.mobileScale,
    Game.sizeOfIndex, Level.new, Level.lookupConfig, Cup.new, Cup.assignSlot,
    Cup.generateSugarRequirement, ONE_SUGAR]

/-- C23, as stated, fails inside a session: level 1 has the configured range
[5, 6] and its constructor draws the target 5 (draw 0), but after
Game.initLevel has created three cups that require one cube each, the level's
total-sugar target is 3: below the range, and equal to the sum of the cups'
required-sugar counts. -/
theorem C23_counterexample :
    (Level.new 1 0).totalSugarNeeded = 5 ∧
    ∃ l, thriftySession.currentLevel = some l ∧ l.config.totalSugar = (5, 6) ∧
      l.totalSugarNeeded = 3 ∧ ¬ (l.config.totalSugar.1 ≤ l.totalSugarNeeded) ∧
      l.totalSugarNeeded =
        thriftySession.coffeeCups.foldl (fun total cup => total + cup.requiredSugar) 0 := by
  obtain ⟨l, hl, hcfg, h3, hsum⟩ := thriftySession_target
  refine ⟨?_, l, hl, hcfg, h3, ?_, ?_⟩
  · simp [Level.new, Level.generateTotalSugarTarget, Level.lookupConfig, LEVELS]
  · rw [hcfg, h3]; decide
  · rw [h3, hsum]

/-- The lookup of the Level constructor outside 1..15 yields the first record. -/
theorem Level.lookupConfig_of_unconfigured (levelNumber : Int)
    (hout : levelNumber < 1 ∨ 15 < levelNumber) :
    Level.lookupConfig levelNumber = LEVEL_ONE := by
  unfold Level.lookupConfig
  rcases hout with h | h
  · rw [if_neg (by omega)]
  · rw [if_pos (by omega)]
    have hlen : LEVELS.length ≤ (levelNumber - 1).toNat := by
      have : LEVELS.length = 15 := rfl
      omega
    rw [List.get?_eq_none.2 hlen]

/-- The search of Game.createCupsForLevel outside 1..15 finds no record. -/
theorem LEVELS_find_of_unconfigured (levelNumber : Int)
    (hout : levelNumber < 1 ∨ 15 < levelNumber) :
    LEVELS.find? (fun level => decide ((level.level : Int) = levelNumber)) = none := by
  rw [List.find?_eq_none]
  intro x hx
  simp only [LEVELS, List.mem_cons, List.mem_singleton, List.not_mem_nil, or_false] at hx
  simp only [decide_eq_true_eq]
  rcases hx with h | h | h | h | h | h | h | h | h | h | h | h | h | h | h <;>
    (rw [h]; simp only [Nat.cast_ofNat, Nat.cast_one]; omega)

/-! ### The completion counter and the cup flags -/

theorem completeCount_cons (d : Cup) (rest : List Cup) :
    completeCount (d :: rest) = completeCount rest + if d.isComplete = true then 1 else 0 := by
  unfold completeCount
  rw [List.countP_cons]

/-- The loop of the resolver keeps the number of cups. -/
theorem Game.collisionLoop_length (now : Int) (sugar : Sugar) (cc tsd : Int) (cups : List Cup) :
    (Game.collisionLoop now sugar cc tsd cups).cups.length = cups.length := by
  induction cups with
  | nil => rfl
  | cons d rest ih =>
    unfold Game.collisionLoop
    dsimp only
    split_ifs <;> simp [ih]

/-- The loop of the resolver keeps the completion counter equal to the number
of complete cups: k counts the complete cups already passed by the loop. -/
theorem Game.collisionLoop_count (now : Int) (sugar : Sugar) (tsd : Int) (cups : List Cup)
    (hinv : ∀ c ∈ cups, c.Inv) (cc : Int) :
    ∀ k : Int, 0 ≤ k → cc = k + (completeCount cups : Int) →
      (Game.collisionLoop now sugar cc tsd cups).cupsCompletedThisLevel =
        k + (completeCount (Game.collisionLoop now sugar cc tsd cups).cups : Int) := by
  induction cups with
  | nil =>
    intro k _ hcc
    simpa [Game.collisionLoop] using hcc
  | cons d rest ih =>
    intro k hk hcc
    have hd : d.Inv := hinv d (List.mem_cons_self d rest)
    have ih' := ih (fun c hc => hinv c (List.mem_cons_of_mem d hc))
    rw [completeCount_cons] at hcc
    by_cases hhit : CollisionDetection.checkSugarCupCollision sugar d = true
    · by_cases hacc : d.canAcceptSugar = true
      · have hlt : d.currentSugar < d.requiredSugar := by
          simp only [Cup.canAcceptSugar, Bool.and_eq_true, decide_eq_true_eq] at hacc
          exact hacc.1
        have hnc : d.isComplete = false := by
          cases hc : d.isComplete with
          | false => rfl
          | true => have := hd.2.2.2.1.1 hc; omega
        unfold Game.collisionLoop
        simp only [hhit, hacc, if_true, hnc, Bool.not_false, Bool.true_and]
        rw [completeCount_cons]
        simp only [hnc, Bool.false_eq_true, if_false, Nat.add_zero] at hcc
        split_ifs with h1
        · push_cast at hcc ⊢; omega
        · push_cast at hcc ⊢; omega
      · have hacc' : d.canAcceptSugar = false := by simpa using hacc
        have hc : d.isComplete = true := Cup.isComplete_of_not_canAcceptSugar hd hacc'
        obtain ⟨hov, _, hov2, _⟩ := Cup.tryOverfill_of_complete d hc
        unfold Game.collisionLoop
        simp only [hhit, hacc', if_true, hov, Bool.false_eq_true, if_false]
        rw [completeCount_cons, hov2]
        simp only [hc, if_true] at hcc
        have hpos : (0 : Int) ≤ cc - 1 := by push_cast at hcc; omega
        rw [max_eq_right hpos]
        push_cast at hcc ⊢; omega
    · have hhit' : CollisionDetection.checkSugarCupCollision sugar d = false := by simpa using hhit
      unfold Game.collisionLoop
      simp only [hhit', Bool.false_eq_true, if_false]
      rw [completeCount_cons]
      have := ih' (k + ((if d.isComplete = true then 1 else 0 : Nat) : Int))
        (by positivity) (by push_cast at hcc ⊢; omega)
      rw [this]
      push_cast; ring

/-- The cup loop of a frame keeps the number of complete cups. -/
theorem completeCount_map_update (cups : List Cup) (deltaTime conveyorSpeed canvasWidth : ℚ) :
    completeCount (cups.map fun cup => (cup.update deltaTime conveyorSpeed canvasWidth).1) =
      completeCount cups := by
  induction cups with
  | nil => rfl
  | cons d rest ih =>
    rw [List.map_cons, completeCount_cons, completeCount_cons, ih,
      (Cup.update_frame d deltaTime conveyorSpeed canvasWidth).2.2.1]

/-- All cups of a list are complete exactly when the count of complete cups
is the length of the list. -/
theorem completeCount_eq_length_iff (cups : List Cup) :
    completeCount cups = cups.length ↔ ∀ c ∈ cups, c.isComplete = true := by
  unfold completeCount
  rw [List.countP_eq_length]

/-! ### The frame update: level end and the time warning -/

/-- The cube loop never writes the session state, the warning flag or the level. -/
theorem Game.sugarLoop_state (host : Host) (deltaTime : ℚ) (now : Int) (cubes : List Sugar)
    (g : Game) :
    (Game.sugarLoop host deltaTime now cubes g).1.state = g.state ∧
    (Game.sugarLoop host deltaTime now cubes g).1.timeWarningPlayed = g.timeWarningPlayed ∧
    (Game.sugarLoop host deltaTime now cubes g).1.currentLevel = g.currentLevel := by
  induction cubes with
  | nil => exact ⟨rfl, rfl, rfl⟩
  | cons s rest ih =>
    simp only [Game.sugarLoop]
    split_ifs
    · simp only [Game.checkSugarCupCollisions]
      exact ih
    · exact ih

/-- The object updates of a frame never write the session state, the warning
flag or the level. -/
theorem Game.updateObjects_state (host : Host) (g : Game) (deltaTime : ℚ) (now : Int) :
    (Game.updateObjects host g deltaTime now).state = g.state ∧
    (Game.updateObjects host g deltaTime now).timeWarningPlayed = g.timeWarningPlayed ∧
    (Game.updateObjects host g deltaTime now).currentLevel = g.currentLevel := by
  unfold Game.updateObjects
  dsimp only
  split_ifs <;> simp only [Game.advanceCups, Game.sugarLoop_state] <;> exact ⟨trivial, trivial, trivial⟩

theorem playingSession_fields :
    playingSession.state = .playing ∧ playingSession.currentLevel = some playingLevel ∧
    playingSession.timeWarningPlayed = false ∧ playingSession.cupsCompletedThisLevel = 0 ∧
    playingSession.targetCupsForLevel = 3 ∧ playingSession.totalSugarDelivered = 0 := by
  simp [playingSession, playingLevel, levelOneSession, freshSession, Game.startLevel,
    Game.initLevel, Game.createCupsForLevel, LEVELS, Game.setupSlotBasedPositioning, List.range,
    List.range.loop, Level.new, Level.lookupConfig, Level.start, Cup.new, Cup.assignSlot,
    Cup.generateSugarRequirement, ONE_SUGAR, TWO_SUGAR]
  norm_num

/-- C26: in a playing frame of a session that holds a level, if Level.update
leaves the level complete, Game.updateGame sets the state to levelComplete and
returns before any object update: cups, cubes, the delivery and completion
counters, the hand and the conveyor offset are exactly as before the frame,
and the level is the updated one; if the level is left failed (and not
complete) the same holds with levelFailed; otherwise the state stays playing.
Game.update calls Game.updateGame exactly in the frames whose state, after the
fade step, is playing. -/
theorem C26_level_end_stops_frame (host : Host) (g : Game) (deltaTime : ℚ) (now : Int)
    (l : Level) (hplay : g.state = .playing) (hl : g.currentLevel = some l) :
    ((l.update deltaTime g.cupsCompletedThisLevel g.targetCupsForLevel
        g.totalSugarDelivered now).isComplete = true →
      (Game.updateGame host g deltaTime now).1.state = .levelComplete ∧
      (Game.updateGame host g deltaTime now).1.coffeeCups = g.coffeeCups ∧
      (Game.updateGame host g deltaTime now).1.sugarCubes = g.sugarCubes ∧
      (Game.updateGame host g deltaTime now).1.totalSugarDelivered = g.totalSugarDelivered ∧
      (Game.updateGame host g deltaTime now).1.cupsCompletedThisLevel =
        g.cupsCompletedThisLevel ∧
      (Game.updateGame host g deltaTime now).1.hand = g.hand ∧
      (Game.updateGame host g deltaTime now).1.conveyorOffset = g.conveyorOffset ∧
      (Game.updateGame host g deltaTime now).1.currentLevel =
        some (l.update deltaTime g.cupsCompletedThisLevel g.targetCupsForLevel
          g.totalSugarDelivered now)) ∧
    ((l.update deltaTime g.cupsCompletedThisLevel g.targetCupsForLevel
        g.totalSugarDelivered now).isComplete = false →
     (l.update deltaTime g.cupsCompletedThisLevel g.targetCupsForLevel
        g.totalSugarDelivered now).isFailed = true →
      (Game.updateGame host g deltaTime now).1.state = .levelFailed ∧
      (Game.updateGame host g deltaTime now).1.coffeeCups = g.coffeeCups ∧
      (Game.updateGame host g deltaTime now).1.sugarCubes = g.sugarCubes ∧
      (Game.updateGame host g deltaTime now).1.totalSugarDelivered = g.totalSugarDelivered ∧
      (Game.updateGame host g deltaTime now).1.cupsCompletedThisLevel =
        g.cupsCompletedThisLevel ∧
      (Game.updateGame host g deltaTime now).1.hand = g.hand ∧
      (Game.updateGame host g deltaTime now).1.conveyorOffset = g.conveyorOffset ∧
      (Game.updateGame host g deltaTime now).1.currentLevel =
        some (l.update deltaTime g.cupsCompletedThisLevel g.targetCupsForLevel
          g.totalSugarDelivered now)) ∧
    ((l.update deltaTime g.cupsCompletedThisLevel g.targetCupsForLevel
        g.totalSugarDelivered now).isComplete = false →
     (l.update deltaTime g.cupsCompletedThisLevel g.targetCupsForLevel
        g.totalSugarDelivered now).isFailed = false →
      (Game.updateGame host g deltaTime now).1.state = .playing) ∧
    (∀ (session : Game) (mobile : Bool) (randLevel : ℚ) (rands : Nat → ℚ × ℚ),
      (session.updateFadeTransition deltaTime mobile now randLevel rands).state = .playing →
      Game.update host session deltaTime mobile now randLevel rands =
        Game.updateGame host (session.updateFadeTransition deltaTime mobile now randLevel rands)
          deltaTime now) := by
  refine ⟨?_, ?_, ?_, ?_⟩
  · intro hc
    unfold Game.updateGame
    simp only [hl, hc, if_true]
    split_ifs <;> simp
  · intro hc hf
    unfold Game.updateGame
    simp only [hl, hc, hf, if_true, Bool.false_eq_true, if_false]
    split_ifs <;> simp
  · intro hc hf
    unfold Game.updateGame
    simp only [hl, hc, hf, Bool.false_eq_true, if_false]
    rw [(Game.updateObjects_state host _ deltaTime now).1]
    split_ifs <;> exact hplay
  · intro session mobile randLevel rands hstate
    unfold Game.update
    simp only [hstate]

theorem playingLevel_timeout :
    (playingLevel.update 60000 0 3 0 0).isComplete = false ∧
    (playingLevel.update 60000 0 3 0 0).isFailed = true ∧
    (playingLevel.update 60000 0 3 0 0).timeRemaining = 0 := by
  simp [playingLevel, Level.update, Level.start, Level.new, Level.lookupConfig, LEVELS,
    Level.fail, Level.complete]
  norm_num

theorem C26_level_end_stops_frame_witness :
    playingSession.state = .playing ∧ playingSession.currentLevel = some playingLevel ∧
    (Game.updateGame audioHost playingSession 60000 0).1.state = .levelFailed ∧
    (Game.updateGame audioHost playingSession 60000 0).1.coffeeCups =
      playingSession.coffeeCups :=
  have h := (C26_level_end_stops_frame audioHost playingSession 60000 0 playingLevel
    playingSession_fields.1 playingSession_fields.2.1).2.1
    (by
      rw [playingSession_fields.2.2.2.1, playingSession_fields.2.2.2.2.1,
        playingSession_fields.2.2.2.2.2]
      exact playingLevel_timeout.1)
    (by
      rw [playingSession_fields.2.2.2.1, playingSession_fields.2.2.2.2.1,
        playingSession_fields.2.2.2.2.2]
      exact playingLevel_timeout.2.1)
  ⟨playingSession_fields.1, playingSession_fields.2.1, h.1, h.2.1⟩

/-! ### The time warning -/

/-- What one call of Game.updateGame does to the time warning: it is played
exactly when an audio manager is set, the flag is clear and the updated level
has 0 < timeRemaining ≤ 10; the flag afterwards is the old flag or the played
signal; and the level held afterwards is the updated level. -/
theorem Game.updateGame_warning (host : Host) (g : Game) (deltaTime : ℚ) (now : Int) :
    ((Game.updateGame host g deltaTime now).2 = true ↔
      host.audioManager = true ∧ g.timeWarningPlayed = false ∧
      ∃ l, g.currentLevel = some l ∧
        0 < (l.update deltaTime g.cupsCompletedThisLevel g.targetCupsForLevel
          g.totalSugarDelivered now).timeRemaining ∧
        (l.update deltaTime g.cupsCompletedThisLevel g.targetCupsForLevel
          g.totalSugarDelivered now).timeRemaining ≤ 10) ∧
    (Game.updateGame host g deltaTime now).1.timeWarningPlayed =
      (g.timeWarningPlayed || (Game.updateGame host g deltaTime now).2) ∧
    (∀ l, g.currentLevel = some l →
      (Game.updateGame host g deltaTime now).1.currentLevel =
        some (l.update deltaTime g.cupsCompletedThisLevel g.targetCupsForLevel
          g.totalSugarDelivered now)) := by
  cases hcl : g.currentLevel with
  | none =>
    unfold Game.updateGame
    simp only [hcl]
    refine ⟨?_, ?_, ?_⟩
    · simp
    · rw [(Game.updateObjects_state host g deltaTime now).2.1]; simp
    · intro l hl; exact absurd hl (by simp)
  | some l =>
    unfold Game.updateGame
    simp only [hcl]
    refine ⟨?_, ?_, ?_⟩
    · split_ifs <;>
        simp [Level.isTimeWarning, and_comm, and_left_comm, and_assoc]
    · split_ifs <;>
        simp_all [(Game.updateObjects_state host _ deltaTime now).2.1]
    · intro l' hl'
      cases hl'
      split_ifs <;>
        simp [(Game.updateObjects_state host _ deltaTime now).2.2]

/-- Once the warning flag is set, no frame plays the warning. -/
theorem Game.updateGameFrames_of_played (host : Host) (frames : List FrameClock) :
    ∀ g : Game, g.timeWarningPlayed = true →
      (∀ b ∈ (Game.updateGameFrames host g frames).2, b = false) ∧
      (Game.updateGameFrames host g frames).1.timeWarningPlayed = true := by
  induction frames with
  | nil => intro g hg; exact ⟨fun b hb => by simp [Game.updateGameFrames] at hb, hg⟩
  | cons f rest ih =>
    intro g hg
    obtain ⟨hiff, hflag, _⟩ := Game.updateGame_warning host g f.deltaTime f.now
    have hnot : (Game.updateGame host g f.deltaTime f.now).2 = false := by
      cases hb : (Game.updateGame host g f.deltaTime f.now).2 with
      | false => rfl
      | true =>
        have := (hiff.1 hb).2.1
        rw [hg] at this
        exact absurd this (by decide)
    have hnext : (Game.updateGame host g f.deltaTime f.now).1.timeWarningPlayed = true := by
      rw [hflag, hg]; rfl
    obtain ⟨hall, hend⟩ := ih _ hnext
    simp only [Game.updateGameFrames]
    refine ⟨?_, hend⟩
    intro b hb
    rcases List.mem_cons.1 hb with hb | hb
    · rw [hb, hnot]
    · exact hall b hb

/-- A run of frames in which no warning was played leaves the flag as it was. -/
theorem Game.updateGameFrames_of_silent (host : Host) (frames : List FrameClock) :
    ∀ g : Game, (∀ b ∈ (Game.updateGameFrames host g frames).2, b = false) →
      (Game.updateGameFrames host g frames).1.timeWarningPlayed = g.timeWarningPlayed := by
  induction frames with
  | nil => intro g _; rfl
  | cons f rest ih =>
    intro g hall
    simp only [Game.updateGameFrames] at hall ⊢
    have hfirst : (Game.updateGame host g f.deltaTime f.now).2 = false :=
      hall _ (List.mem_cons_self _ _)
    rw [ih _ (fun b hb => hall b (List.mem_cons_of_mem _ hb)),
      (Game.updateGame_warning host g f.deltaTime f.now).2.1, hfirst]
    simp

/-- The warning is played in at most one frame of a run. -/
theorem Game.updateGameFrames_count (host : Host) (frames : List FrameClock) :
    ∀ g : Game, (Game.updateGameFrames host g frames).2.count true ≤ 1 := by
  induction frames with
  | nil => intro g; simp [Game.updateGameFrames]
  | cons f rest ih =>
    intro g
    simp only [Game.updateGameFrames]
    cases hb : (Game.updateGame host g f.deltaTime f.now).2 with
    | false =>
      rw [List.count_cons_of_ne (by decide)]
      exact ih _
    | true =>
      have hnext : (Game.updateGame host g f.deltaTime f.now).1.timeWarningPlayed = true := by
        rw [(Game.updateGame_warning host g f.deltaTime f.now).2.1, hb]; simp
      have hall := (Game.updateGameFrames_of_played host rest _ hnext).1
      rw [List.count_cons_self, List.count_eq_zero.2]
      intro hmem
      exact absurd (hall true hmem) (by decide)

theorem playingLevel_nine_left :
    (playingLevel.update 51000 0 3 0 0).timeRemaining = 9 := by
  simp [playingLevel, Level.update, Level.start, Level.new, Level.lookupConfig, LEVELS,
    Level.fail, Level.complete]
  norm_num

/-- C25, as stated, fails: on playingSession (level 1, 60 s, warning flag
clear, audio manager set) one playing frame of 60 s takes timeRemaining from
60 to 0, so timeRemaining has reached a value ≤ 10, the level has failed, and
the run has played no time warning. -/
theorem C25_counterexample :
    audioHost.audioManager = true ∧ playingSession.state = .playing ∧
    playingSession.timeWarningPlayed = false ∧
    (∃ l, (Game.updateGameFrames audioHost playingSession [⟨60000, 0⟩]).1.currentLevel = some l ∧
      l.timeRemaining ≤ 10 ∧ l.isFailed = true) ∧
    (Game.updateGameFrames audioHost playingSession [⟨60000, 0⟩]).2 = [false] := by
  obtain ⟨hstate, hl, hflag, hcc, htarget, htsd⟩ := playingSession_fields
  obtain ⟨hiff, _, hlevel⟩ := Game.updateGame_warning audioHost playingSession 60000 0
  have hlev := hlevel playingLevel hl
  rw [hcc, htarget, htsd] at hlev hiff
  refine ⟨rfl, hstate, hflag, ?_, ?_⟩
  · refine ⟨_, hlev, ?_, playingLevel_timeout.2.1⟩
    rw [playingLevel_timeout.2.2]; norm_num
  · have hnot : (Game.updateGame audioHost playingSession 60000 0).2 = false := by
      cases hb : (Game.updateGame audioHost playingSession 60000 0).2 with
      | false => rfl
      | true =>
        obtain ⟨_, _, l, hl', hpos, _⟩ := hiff.1 hb
        rw [hl] at hl'
        cases hl'
        rw [playingLevel_timeout.2.2] at hpos
        exact absurd hpos (lt_irrefl 0)
    simp only [Game.updateGameFrames, hnot]

/-- C25 (amended): over any run of Game.updateGame frames the time warning is
played in at most one frame; a session whose warning flag is set plays it in
no frame, and a frame that plays it sets the flag; on a session with an audio
manager whose flag is clear, after a run of frames that played nothing, the
next frame plays the warning exactly when the level it has just updated has
0 < timeRemaining ≤ 10 (a frame that takes the timer from above 10 straight
to 0 plays nothing); and Game.initLevel clears the flag for the new level. -/
theorem C25_time_warning_one_shot (host : Host) (g : Game) (frames : List FrameClock)
    (deltaTime : ℚ) (now : Int) :
    (Game.updateGameFrames host g frames).2.count true ≤ 1 ∧
    (g.timeWarningPlayed = true →
      ∀ b ∈ (Game.updateGameFrames host g frames).2, b = false) ∧
    ((Game.updateGame host g deltaTime now).2 = true →
      (Game.updateGame host g deltaTime now).1.timeWarningPlayed = true) ∧
    (host.audioManager = true → g.timeWarningPlayed = false →
      (∀ b ∈ (Game.updateGameFrames host g frames).2, b = false) →
      ((Game.updateGame host (Game.updateGameFrames host g frames).1 deltaTime now).2 = true ↔
        ∃ l, (Game.updateGameFrames host g frames).1.currentLevel = some l ∧
          0 < (l.update deltaTime
                (Game.updateGameFrames host g frames).1.cupsCompletedThisLevel
                (Game.updateGameFrames host g frames).1.targetCupsForLevel
                (Game.updateGameFrames host g frames).1.totalSugarDelivered now).timeRemaining ∧
          (l.update deltaTime
                (Game.updateGameFrames host g frames).1.cupsCompletedThisLevel
                (Game.updateGameFrames host g frames).1.targetCupsForLevel
                (Game.updateGameFrames host g frames).1.totalSugarDelivered now).timeRemaining
            ≤ 10)) ∧
    (∀ (mobile : Bool) (randLevel : ℚ) (rands : Nat → ℚ × ℚ),
      ((Game.updateGameFrames host g frames).1.initLevel mobile randLevel
        rands).timeWarningPlayed = false) := by
  refine ⟨Game.updateGameFrames_count host frames g,
    fun hg => (Game.updateGameFrames_of_played host frames g hg).1, ?_, ?_, ?_⟩
  · intro hb
    rw [(Game.updateGame_warning host g deltaTime now).2.1, hb]
    simp
  · intro haudio hflag hsilent
    have hstill := Game.updateGameFrames_of_silent host frames g hsilent
    rw [hflag] at hstill
    rw [(Game.updateGame_warning host _ deltaTime now).1]
    constructor
    · rintro ⟨_, _, h⟩
      exact h
    · intro h
      exact ⟨haudio, hstill, h⟩
  · intro mobile randLevel rands
    exact (Game.initLevel_frame _ mobile randLevel rands).2.2.2.1

theorem C25_time_warning_one_shot_witness :
    audioHost.audioManager = true ∧ playingSession.timeWarningPlayed = false ∧
    (Game.updateGame audioHost playingSession 51000 0).2 = true :=
  ⟨rfl, playingSession_fields.2.2.1,
   ((C25_time_warning_one_shot audioHost playingSession [] 51000 0).2.2.2.1 rfl
      playingSession_fields.2.2.1 (fun b hb => absurd hb (List.not_mem_nil b))).2
     ⟨playingLevel, playingSession_fields.2.1, by
        show 0 < (playingLevel.update 51000 playingSession.cupsCompletedThisLevel
          playingSession.targetCupsForLevel playingSession.totalSugarDelivered 0).timeRemaining
        rw [playingSession_fields.2.2.2.1, playingSession_fields.2.2.2.2.1,
          playingSession_fields.2.2.2.2.2, playingLevel_nine_left]
        norm_num, by
        show (playingLevel.update 51000 playingSession.cupsCompletedThisLevel
          playingSession.targetCupsForLevel playingSession.totalSugarDelivered 0).timeRemaining
          ≤ 10
        rw [playingSession_fields.2.2.2.1, playingSession_fields.2.2.2.2.1,
          playingSession_fields.2.2.2.2.2, playingLevel_nine_left]
        norm_num⟩⟩

/-! ### The invariant of a session of play -/

/-- The session invariant only reads the cup array, the completion counter,
the level number and the cup target. -/
theorem Game.sessionInv_of_fields {g g' : Game} (h : g.SessionInv)
    (hc : g'.coffeeCups = g.coffeeCups)
    (hcc : g'.cupsCompletedThisLevel = g.cupsCompletedThisLevel)
    (hn : g'.levelNumber = g.levelNumber)
    (ht : g'.targetCupsForLevel = g.targetCupsForLevel) : g'.SessionInv := by
  unfold Game.SessionInv Game.CountInv Game.completeCups at *
  rw [hc, hcc, hn, ht]
  exact h

/-- Game.initLevel establishes the session invariant on any session. -/
theorem Game.sessionInv_initLevel (g : Game) (mobile : Bool) (randLevel : ℚ)
    (rands : Nat → ℚ × ℚ) : (g.initLevel mobile randLevel rands).SessionInv := by
  refine ⟨Game.initLevel_cups_reachable g mobile randLevel rands, ?_, ?_⟩
  · rw [(Game.initLevel_frame g mobile randLevel rands).2.2.1]
    have hz : completeCount (g.initLevel mobile randLevel rands).coffeeCups = 0 := by
      unfold completeCount
      rw [List.countP_eq_zero]
      intro c hc
      rw [(Game.initLevel_cups_fresh g mobile randLevel rands c hc).2.1]
      decide
    unfold Game.completeCups
    rw [hz]; rfl
  · rintro ⟨h1, h15⟩
    rw [(Game.initLevel_frame g mobile randLevel rands).2.2.2.2.2.1] at h1 h15
    have hn : ((g.levelNumber.toNat : Nat) : Int) = g.levelNumber := Int.toNat_of_nonneg (by omega)
    obtain ⟨cfg, _, _, hfind, hcfg, hcups, _⟩ :=
      LEVELS_lookup_of_configured g.levelNumber.toNat (by omega) (by omega)
    rw [hn] at hfind hcfg
    have hlen : (g.initLevel mobile randLevel rands).coffeeCups.length = cfg.cups := by
      rw [(Game.initLevel_of_config g mobile randLevel rands cfg hfind).1]
      simp
    rw [(Game.initLevel_frame g mobile randLevel rands).2.2.2.2.1, hcfg, hlen]
    exact ⟨rfl, Nat.pos_of_ne_zero hcups⟩

/-- The resolver keeps the session invariant. -/
theorem Game.sessionInv_collide {g : Game} (h : g.SessionInv) (sugar : Sugar) (now : Int) :
    (g.checkSugarCupCollisions sugar now).1.SessionInv := by
  obtain ⟨hcups, hcount, hcfg⟩ := h
  have hinv : ∀ c ∈ g.coffeeCups, c.Inv := fun c hc => Cup.inv_of_reachable (hcups c hc)
  refine ⟨?_, ?_, ?_⟩
  · exact Game.collisionLoop_cups_reachable now sugar g.cupsCompletedThisLevel
      g.totalSugarDelivered g.coffeeCups hcups
  · have := Game.collisionLoop_count now sugar g.totalSugarDelivered g.coffeeCups hinv
      g.cupsCompletedThisLevel 0 (le_refl 0) (by rw [hcount]; simp [Game.completeCups])
    simpa [Game.checkSugarCupCollisions, Game.completeCups] using this
  · intro hlevel
    obtain ⟨ht, hpos⟩ := hcfg hlevel
    simp only [Game.checkSugarCupCollisions, Game.collisionLoop_length]
    exact ⟨ht, hpos⟩

/-- The cup loop keeps the session invariant. -/
theorem Game.sessionInv_advanceCups {g : Game} (h : g.SessionInv) (deltaTime : ℚ) :
    (g.advanceCups deltaTime).SessionInv := by
  obtain ⟨hcups, hcount, hcfg⟩ := h
  refine ⟨?_, ?_, ?_⟩
  · intro c hc
    simp only [Game.advanceCups, List.mem_map] at hc
    obtain ⟨d, hd, rfl⟩ := hc
    exact Cup.Reachable.update _ _ _ (hcups d hd)
  · simp only [Game.advanceCups, Game.completeCups, completeCount_map_update]
    exact hcount
  · intro hlevel
    obtain ⟨ht, hpos⟩ := hcfg hlevel
    simp only [Game.advanceCups, List.length_map]
    exact ⟨ht, hpos⟩

/-- Game.startLevel keeps the session invariant. -/
theorem Game.sessionInv_startLevel {g : Game} (h : g.SessionInv) (now : Int) :
    (g.startLevel now).SessionInv := by
  apply Game.sessionInv_of_fields h <;>
  · unfold Game.startLevel
    dsimp only
    cases g.currentLevel <;> rfl

/-- Game.nextLevel keeps the session invariant. -/
theorem Game.sessionInv_nextLevel {g : Game} (h : g.SessionInv) : g.nextLevel.SessionInv := by
  apply Game.sessionInv_of_fields h <;>
  · unfold Game.nextLevel Game.startFadeTransition
    split_ifs <;> rfl

/-- A fade callback leaves a session that satisfies the invariant. -/
theorem Game.sessionInv_runFadeCallback (g : Game) (mobile : Bool) (now : Int) (randLevel : ℚ)
    (rands : Nat → ℚ × ℚ) (cb : FadeCallback) :
    (g.runFadeCallback mobile now randLevel rands cb).SessionInv := by
  cases cb
  simp only [Game.runFadeCallback]
  exact Game.sessionInv_of_fields
    (Game.sessionInv_startLevel (Game.sessionInv_initLevel _ mobile randLevel rands) now)
    rfl rfl rfl rfl

/-- Game.updateFadeTransition keeps the session invariant. -/
theorem Game.sessionInv_updateFadeTransition {g : Game} (h : g.SessionInv) (deltaTime : ℚ)
    (mobile : Bool) (now : Int) (randLevel : ℚ) (rands : Nat → ℚ × ℚ) :
    (g.updateFadeTransition deltaTime mobile now randLevel rands).SessionInv := by
  unfold Game.updateFadeTransition
  dsimp only
  split_ifs
  · cases hcb : g.fadeTransition.callback with
    | none => exact Game.sessionInv_of_fields h rfl rfl rfl rfl
    | some cb => exact Game.sessionInv_runFadeCallback _ mobile now randLevel rands cb
  · exact Game.sessionInv_of_fields h rfl rfl rfl rfl
  · exact Game.sessionInv_of_fields h rfl rfl rfl rfl
  · exact Game.sessionInv_of_fields h rfl rfl rfl rfl
  · exact h
  · exact h

/-- Game.handleDropInput keeps the session invariant. -/
theorem Game.sessionInv_handleDropInput {g : Game} (h : g.SessionInv) (mobile : Bool)
    (now : Int) (randLevel : ℚ) (rands : Nat → ℚ × ℚ) (randVelocity randRotation : ℚ) :
    (g.handleDropInput mobile now randLevel rands randVelocity randRotation).SessionInv := by
  unfold Game.handleDropInput
  dsimp only
  split_ifs
  · exact Game.sessionInv_startLevel h now
  · exact h
  · exact Game.sessionInv_of_fields h rfl rfl rfl rfl
  · exact Game.sessionInv_of_fields h rfl rfl rfl rfl
  · exact Game.sessionInv_nextLevel h
  · exact Game.sessionInv_startLevel (Game.sessionInv_initLevel g mobile randLevel rands) now
  · exact h

/-- The cube loop of a frame keeps the session invariant. -/
theorem Game.sessionInv_sugarLoop (host : Host) (deltaTime : ℚ) (now : Int)
    (cubes : List Sugar) {g : Game} (h : g.SessionInv) :
    (Game.sugarLoop host deltaTime now cubes g).1.SessionInv := by
  induction cubes with
  | nil => exact h
  | cons s rest ih =>
    simp only [Game.sugarLoop]
    split_ifs
    · exact Game.sessionInv_collide ih _ now
    · exact ih

/-- The object updates of a frame keep the session invariant. -/
theorem Game.sessionInv_updateObjects (host : Host) {g : Game} (h : g.SessionInv)
    (deltaTime : ℚ) (now : Int) : (Game.updateObjects host g deltaTime now).SessionInv := by
  have h1 : ({ g with hand := g.hand.update host.sin deltaTime now g.canvasWidth } :
      Game).SessionInv := Game.sessionInv_of_fields h rfl rfl rfl rfl
  have h2 := Game.sessionInv_sugarLoop host deltaTime now g.sugarCubes h1
  unfold Game.updateObjects
  dsimp only
  split_ifs
  · exact Game.sessionInv_advanceCups (Game.sessionInv_of_fields h2 rfl rfl rfl rfl) deltaTime
  · exact Game.sessionInv_advanceCups (Game.sessionInv_of_fields h2 rfl rfl rfl rfl) deltaTime

/-- Game.updateGame keeps the session invariant. -/
theorem Game.sessionInv_updateGame (host : Host) {g : Game} (h : g.SessionInv)
    (deltaTime : ℚ) (now : Int) : (Game.updateGame host g deltaTime now).1.SessionInv := by
  unfold Game.updateGame
  cases hl : g.currentLevel with
  | none => exact Game.sessionInv_updateObjects host h deltaTime now
  | some l =>
    dsimp only
    split_ifs
    · exact Game.sessionInv_of_fields h rfl rfl rfl rfl
    · exact Game.sessionInv_of_fields h rfl rfl rfl rfl
    · exact Game.sessionInv_of_fields h rfl rfl rfl rfl
    · exact Game.sessionInv_of_fields h rfl rfl rfl rfl
    · refine Game.sessionInv_updateObjects host ?_ deltaTime now
      exact Game.sessionInv_of_fields h rfl rfl rfl rfl
    · refine Game.sessionInv_updateObjects host ?_ deltaTime now
      exact Game.sessionInv_of_fields h rfl rfl rfl rfl

/-- Game.update keeps the session invariant. -/
theorem Game.sessionInv_update (host : Host) {g : Game} (h : g.SessionInv) (deltaTime : ℚ)
    (mobile : Bool) (now : Int) (randLevel : ℚ) (rands : Nat → ℚ × ℚ) :
    (Game.update host g deltaTime mobile now randLevel rands).1.SessionInv := by
  have hf := Game.sessionInv_updateFadeTransition h deltaTime mobile now randLevel rands
  unfold Game.update
  dsimp only
  cases hs : (g.updateFadeTransition deltaTime mobile now randLevel rands).state with
  | loading => exact hf
  | menu => exact Game.sessionInv_of_fields hf rfl rfl rfl rfl
  | playing => exact Game.sessionInv_updateGame host hf deltaTime now
  | paused => exact hf
  | levelComplete => exact Game.sessionInv_of_fields hf rfl rfl rfl rfl
  | levelFailed => exact Game.sessionInv_of_fields hf rfl rfl rfl rfl
  | gameComplete => exact Game.sessionInv_of_fields hf rfl rfl rfl rfl

/-- Every session of play satisfies the session invariant. -/
theorem Game.sessionInv_of_reachable {g : Game} (h : g.Reachable) : g.SessionInv := by
  induction h with
  | initLevel g mobile randLevel rands => exact Game.sessionInv_initLevel g mobile randLevel rands
  | collide sugar now _ ih => exact Game.sessionInv_collide ih sugar now
  | advance deltaTime _ ih => exact Game.sessionInv_advanceCups ih deltaTime
  | startLevel now _ ih => exact Game.sessionInv_startLevel ih now
  | handleDropInput mobile now randLevel rands randVelocity randRotation _ ih =>
    exact Game.sessionInv_handleDropInput ih mobile now randLevel rands randVelocity randRotation
  | updateGame host deltaTime now _ ih => exact Game.sessionInv_updateGame host ih deltaTime now
  | update host deltaTime mobile now randLevel rands _ ih =>
    exact Game.sessionInv_update host ih deltaTime mobile now randLevel rands

/-- Every cup of a session of play is a cup the program can build. -/
theorem Game.cups_reachable_of_reachable {g : Game} (h : g.Reachable) :
    ∀ c ∈ g.coffeeCups, c.Reachable :=
  (Game.sessionInv_of_reachable h).1

/-- The state Game.updateGame leaves on a session that holds a level. -/
theorem Game.updateGame_state (host : Host) (g : Game) (deltaTime : ℚ) (now : Int) (l : Level)
    (hl : g.currentLevel = some l) :
    ((l.update deltaTime g.cupsCompletedThisLevel g.targetCupsForLevel
        g.totalSugarDelivered now).isComplete = true →
      (Game.updateGame host g deltaTime now).1.state = .levelComplete) ∧
    ((l.update deltaTime g.cupsCompletedThisLevel g.targetCupsForLevel
        g.totalSugarDelivered now).isComplete = false →
      (Game.updateGame host g deltaTime now).1.state = .levelFailed ∨
      (Game.updateGame host g deltaTime now).1.state = g.state) := by
  constructor
  · intro hc
    unfold Game.updateGame
    simp only [hl, hc, if_true]
  · intro hc
    unfold Game.updateGame
    simp only [hl, hc, Bool.false_eq_true, if_false]
    split_ifs
    · exact Or.inl rfl
    · exact Or.inl rfl
    · right
      rw [(Game.updateObjects_state host _ deltaTime now).1]
    · right
      rw [(Game.updateObjects_state host _ deltaTime now).1]

theorem playingSession_reachable : playingSession.Reachable :=
  Game.Reachable.startLevel 0 levelOneSession_reachable

theorem playingLevel_running : playingLevel.running := by
  simp [Level.running, playingLevel, Level.start, Level.new]

theorem playingSession_levelNumber : playingSession.levelNumber = 1 :=
  ((Game.startLevel_frame levelOneSession 0).2.2.2.2.1).trans
    (Game.initLevel_frame freshSession false 0 (fun _ => (1/2, 0))).2.2.2.2.2.1

/-- C30: in every session state of play (reachable from Game.initLevel through
level starts, drop inputs, frames, resolver calls with any cube and cup
advances), cupsCompletedThisLevel is the number of cups whose isComplete flag
is set, and every cup is complete exactly when currentSugar = requiredSugar.
Hence whenever a cup is complete (the only case in which the resolver applies
the overfill penalty) the counter is at least 1 and the floor
max(0, counter - 1) is counter - 1, the counter again matches the cups after
every resolver call, and, on a configured level (1..15), the session's own
running level, updated with the session counters, is reported complete exactly
when every cup is complete: a playing frame of Game.updateGame then ends in
the state levelComplete exactly in that case. -/
theorem C30_completed_counter_matches_cups (g : Game) (h : g.Reachable) :
    g.cupsCompletedThisLevel = (g.completeCups : Int) ∧
    (∀ c ∈ g.coffeeCups, (c.isComplete = true ↔ c.currentSugar = c.requiredSugar)) ∧
    (∀ c ∈ g.coffeeCups, c.isComplete = true →
      max 0 (g.cupsCompletedThisLevel - 1) = g.cupsCompletedThisLevel - 1) ∧
    (∀ (sugar : Sugar) (now : Int),
      (g.checkSugarCupCollisions sugar now).1.cupsCompletedThisLevel =
        ((g.checkSugarCupCollisions sugar now).1.completeCups : Int)) ∧
    (1 ≤ g.levelNumber ∧ g.levelNumber ≤ 15 →
      ∀ (l : Level), g.currentLevel = some l → l.running →
        ∀ (host : Host) (deltaTime : ℚ) (now : Int),
          ((l.update deltaTime g.cupsCompletedThisLevel g.targetCupsForLevel
              g.totalSugarDelivered now).isComplete = true ↔
            ∀ c ∈ g.coffeeCups, c.isComplete = true) ∧
          (g.state = .playing →
            ((Game.updateGame host g deltaTime now).1.state = .levelComplete ↔
              ∀ c ∈ g.coffeeCups, c.isComplete = true))) := by
  obtain ⟨hcups, hcount, hcfg⟩ := Game.sessionInv_of_reachable h
  refine ⟨hcount, ?_, ?_, ?_, ?_⟩
  · intro c hc
    exact (Cup.inv_of_reachable (hcups c hc)).2.2.2.1
  · intro c hc hcomplete
    have hpos : 0 < completeCount g.coffeeCups := by
      unfold completeCount
      rw [List.countP_pos_iff]
      exact ⟨c, hc, hcomplete⟩
    have : (0 : Int) ≤ g.cupsCompletedThisLevel - 1 := by
      rw [hcount]; unfold Game.completeCups; omega
    exact max_eq_right this
  · intro sugar now
    exact (Game.sessionInv_collide (Game.sessionInv_of_reachable h) sugar now).2.1
  · intro hlevel l hl hrun host deltaTime now
    obtain ⟨htarget, hpos⟩ := hcfg hlevel
    have hiff : (l.update deltaTime g.cupsCompletedThisLevel g.targetCupsForLevel
        g.totalSugarDelivered now).isComplete = true ↔
        ∀ c ∈ g.coffeeCups, c.isComplete = true := by
      rw [Level.update_isComplete_iff l deltaTime _ _ _ now hrun, hcount, htarget,
        ← completeCount_eq_length_iff]
      unfold Game.completeCups
      constructor
      · rintro ⟨_, heq⟩
        exact_mod_cast heq
      · intro heq
        rw [heq]
        exact ⟨by exact_mod_cast hpos, rfl⟩
    refine ⟨hiff, ?_⟩
    intro hplay
    obtain ⟨hyes, hno⟩ := Game.updateGame_state host g deltaTime now l hl
    rw [← hiff]
    constructor
    · intro hstate
      cases hc : (l.update deltaTime g.cupsCompletedThisLevel g.targetCupsForLevel
          g.totalSugarDelivered now).isComplete with
      | true => rfl
      | false =>
        rcases hno hc with hs | hs
        · rw [hs] at hstate; exact absurd hstate (by decide)
        · rw [hs, hplay] at hstate; exact absurd hstate (by decide)
    · exact hyes

theorem C30_completed_counter_matches_cups_witness :
    playingSession.Reachable ∧
    (1 ≤ playingSession.levelNumber ∧ playingSession.levelNumber ≤ 15) ∧
    playingSession.currentLevel = some playingLevel ∧ playingLevel.running ∧
    playingSession.state = .playing ∧
    playingSession.cupsCompletedThisLevel = (playingSession.completeCups : Int) ∧
    ((Game.updateGame audioHost playingSession 16 0).1.state = .levelComplete ↔
      ∀ c ∈ playingSession.coffeeCups, c.isComplete = true) :=
  have hlevel : 1 ≤ playingSession.levelNumber ∧ playingSession.levelNumber ≤ 15 := by
    rw [playingSession_levelNumber]; decide
  ⟨playingSession_reachable, hlevel, playingSession_fields.2.1, playingLevel_running,
   playingSession_fields.1,
   (C30_completed_counter_matches_cups playingSession playingSession_reachable).1,
   ((C30_completed_counter_matches_cups playingSession playingSession_reachable).2.2.2.2 hlevel
      playingLevel playingSession_fields.2.1 playingLevel_running audioHost 16 0).2
     playingSession_fields.1⟩

/-! ### The total-sugar target during play, and the unconfigured level -/

/-- A sequence of Level.update calls never writes the total-sugar target. -/
theorem Level.updates_totalSugarNeeded (calls : List Level.UpdateCall) :
    ∀ l : Level, (l.updates calls).totalSugarNeeded = l.totalSugarNeeded := by
  induction calls with
  | nil => intro l; rfl
  | cons call rest ih =>
    intro l
    unfold Level.updates
    rw [List.foldl_cons]
    exact (ih _).trans (Level.update_totalSugarNeeded l _ _ _ _ _)

/-- A run of Game.updateGame frames keeps a level in the session and never
writes its total-sugar target. -/
theorem Game.updateGameFrames_totalSugarNeeded (host : Host) (frames : List FrameClock) :
    ∀ (g : Game) (l : Level), g.currentLevel = some l →
      ∃ l', (Game.updateGameFrames host g frames).1.currentLevel = some l' ∧
        l'.totalSugarNeeded = l.totalSugarNeeded := by
  induction frames with
  | nil => intro g l hl; exact ⟨l, hl, rfl⟩
  | cons f rest ih =>
    intro g l hl
    have hnext := (Game.updateGame_warning host g f.deltaTime f.now).2.2 l hl
    obtain ⟨l', hl', htarget⟩ := ih _ _ hnext
    simp only [Game.updateGameFrames]
    exact ⟨l', hl', htarget.trans (Level.update_totalSugarNeeded l _ _ _ _ _)⟩

/-- C23 (amended): for every configured level, the Level constructor draws an
integer target inside the level's configured [min, max] range, for every draw
in [0, 1); in a session Game.initLevel then overwrites that draw, before play
starts, with the literal sum of the required-sugar counts of the cups it
created, and that sum stays the target of the level once it is started and
running: through any sequence of Level.update calls on the started level and
through any run of Game.updateGame frames of the started session. -/
theorem C23_total_sugar_target (n : Nat) (h1 : 1 ≤ n) (h15 : n ≤ 15) (rand : ℚ)
    (h0 : 0 ≤ rand) (hlt : rand < 1) (g : Game) (hg : g.levelNumber = (n : Int))
    (mobile : Bool) (rands : Nat → ℚ × ℚ) :
    ((Level.lookupConfig (n : Int)).totalSugar.1 ≤ (Level.new (n : Int) rand).totalSugarNeeded ∧
      (Level.new (n : Int) rand).totalSugarNeeded ≤ (Level.lookupConfig (n : Int)).totalSugar.2) ∧
    ∃ l, (g.initLevel mobile rand rands).currentLevel = some l ∧
      l.totalSugarNeeded =
        (g.initLevel mobile rand rands).coffeeCups.foldl
          (fun total cup => total + cup.requiredSugar) 0 ∧
      (∀ now0 : Int, (l.start now0).running ∧
        ((g.initLevel mobile rand rands).startLevel now0).currentLevel = some (l.start now0)) ∧
      (∀ (now0 : Int) (calls : List Level.UpdateCall),
        ((l.start now0).updates calls).totalSugarNeeded =
          (g.initLevel mobile rand rands).coffeeCups.foldl
            (fun total cup => total + cup.requiredSugar) 0) ∧
      (∀ (host : Host) (now0 : Int) (frames : List FrameClock),
        ∃ l', (Game.updateGameFrames host ((g.initLevel mobile rand rands).startLevel now0)
            frames).1.currentLevel = some l' ∧
          l'.totalSugarNeeded =
            (g.initLevel mobile rand rands).coffeeCups.foldl
              (fun total cup => total + cup.requiredSugar) 0) := by
  constructor
  · exact Level.generateTotalSugarTarget_mem (Level.lookupConfig (n : Int)) rand h0 hlt
      (LEVELS_totalSugar_range n h1 h15)
  · obtain ⟨cfg, _, _, hfind, _⟩ := LEVELS_lookup_of_configured n h1 h15
    rw [← hg] at hfind
    obtain ⟨l, hl, hsum, _⟩ := Game.initLevel_totalSugarNeeded g mobile rand rands cfg hfind
    obtain ⟨l2, hl2, _, _, _, _, _, hc, hf, _, hp⟩ :=
      Game.initLevel_currentLevel_fresh g mobile rand rands
    rw [hl] at hl2
    cases hl2
    have hstart : ∀ now0 : Int,
        ((g.initLevel mobile rand rands).startLevel now0).currentLevel = some (l.start now0) := by
      intro now0
      rw [(Game.startLevel_frame _ now0).2.1, hl]
      rfl
    refine ⟨l, hl, hsum, ?_, ?_, ?_⟩
    · intro now0
      exact ⟨⟨rfl, hp, hc, hf⟩, hstart now0⟩
    · intro now0 calls
      rw [Level.updates_totalSugarNeeded calls (l.start now0)]
      exact hsum
    · intro host now0 frames
      obtain ⟨l', hl', htarget⟩ :=
        Game.updateGameFrames_totalSugarNeeded host frames _ _ (hstart now0)
      exact ⟨l', hl', htarget.trans hsum⟩

theorem C23_total_sugar_target_witness :
    (1 ≤ 1 ∧ 1 ≤ 15 ∧ (0 : ℚ) ≤ 0 ∧ (0 : ℚ) < 1 ∧ freshSession.levelNumber = ((1 : Nat) : Int)) ∧
    ((Level.lookupConfig ((1 : Nat) : Int)).totalSugar.1 ≤
        (Level.new ((1 : Nat) : Int) 0).totalSugarNeeded ∧
      (Level.new ((1 : Nat) : Int) 0).totalSugarNeeded ≤
        (Level.lookupConfig ((1 : Nat) : Int)).totalSugar.2) :=
  ⟨⟨le_refl 1, by decide, le_refl 0, by norm_num, rfl⟩,
   (C23_total_sugar_target 1 (le_refl 1) (by decide) 0 (le_refl 0) (by norm_num) freshSession rfl
      false (fun _ => (0, 0))).1⟩

/-- Game.initLevel on a level number outside 1..15: the Level takes the first
record, the cup target is 3, and no cup is created. -/
theorem Game.initLevel_of_unconfigured (g : Game) (mobile : Bool) (randLevel : ℚ)
    (rands : Nat → ℚ × ℚ) (hout : g.levelNumber < 1 ∨ 15 < g.levelNumber) :
    (∃ l, (g.initLevel mobile randLevel rands).currentLevel = some l ∧
      l.config = LEVEL_ONE ∧ l.maxTime = 60 ∧ l.config.speed = 13 / 10 ∧
      l.totalCupsNeeded = 3) ∧
    (g.initLevel mobile randLevel rands).targetCupsForLevel = 3 ∧
    (g.initLevel mobile randLevel rands).coffeeCups = [] := by
  have hcfg := Level.lookupConfig_of_unconfigured g.levelNumber hout
  have hfind := LEVELS_find_of_unconfigured g.levelNumber hout
  refine ⟨?_, ?_, ?_⟩
  · unfold Game.initLevel Game.createCupsForLevel
    dsimp only
    rw [hfind]
    refine ⟨_, rfl, ?_, ?_, ?_, ?_⟩
    · simp only [Level.new]; exact hcfg
    · simp only [Level.new]; rw [hcfg]; rfl
    · simp only [Level.new]; rw [hcfg]; rfl
    · simp only [Level.new]; rw [hcfg]; rfl
  · rw [(Game.initLevel_frame g mobile randLevel rands).2.2.2.2.1, hcfg]; rfl
  · unfold Game.initLevel Game.createCupsForLevel
    dsimp only
    rw [hfind]

/-- C21, as stated, fails on the cup set: a session asked to create level 16
gets a Level with the first record (three cups needed, cup target 3), but the
cup set created for it by Game.initLevel is empty, not three cups. -/
theorem C21_counterexample :
    (15 : Int) < ({ freshSession with levelNumber := 16 } : Game).levelNumber ∧
    (∃ l, strayLevelSession.currentLevel = some l ∧ l.config = LEVEL_ONE ∧
      l.totalCupsNeeded = 3) ∧
    strayLevelSession.targetCupsForLevel = 3 ∧
    strayLevelSession.coffeeCups.length = 0 ∧ strayLevelSession.coffeeCups.length ≠ 3 := by
  obtain ⟨⟨l, hl, hcfg, _, _, hneed⟩, htarget, hcups⟩ :=
    Game.initLevel_of_unconfigured { freshSession with levelNumber := 16 } false 0
      (fun _ => (1/2, 0)) (Or.inr (by decide))
  refine ⟨by decide, ⟨l, hl, hcfg, hneed⟩, htarget, ?_, ?_⟩
  · show (({ freshSession with levelNumber := 16 } : Game).initLevel false 0
      (fun _ => (1/2, 0))).coffeeCups.length = 0
    rw [hcups]; rfl
  · show (({ freshSession with levelNumber := 16 } : Game).initLevel false 0
      (fun _ => (1/2, 0))).coffeeCups.length ≠ 3
    rw [hcups]; decide

/-- C21 (amended): for a level number outside 1..15 the Level made by
Game.initLevel falls back to the first record (time limit 60, speed 1.3, three
cups needed, and the session's cup target is 3); Game.createCupsForLevel does
not fall back: it finds no record for that number, returns, and the cup array
is empty. -/
theorem C21_fallback_level_has_no_cups (g : Game) (mobile : Bool) (randLevel : ℚ)
    (rands : Nat → ℚ × ℚ) (hout : g.levelNumber < 1 ∨ 15 < g.levelNumber) :
    (∃ l, (g.initLevel mobile randLevel rands).currentLevel = some l ∧
      l.config = LEVEL_ONE ∧ l.maxTime = 60 ∧ l.config.speed = 13 / 10 ∧
      l.totalCupsNeeded = 3) ∧
    (g.initLevel mobile randLevel rands).targetCupsForLevel = 3 ∧
    (g.initLevel mobile randLevel rands).coffeeCups = [] :=
  Game.initLevel_of_unconfigured g mobile randLevel rands hout

theorem C21_fallback_level_has_no_cups_witness :
    (15 : Int) < 16 ∧ strayLevelSession.targetCupsForLevel = 3 ∧
    strayLevelSession.coffeeCups = [] :=
  ⟨by decide,
   (C21_fallback_level_has_no_cups { freshSession with levelNumber := 16 } false 0
      (fun _ => (1/2, 0)) (Or.inr (by decide))).2.1,
   (C21_fallback_level_has_no_cups { freshSession with levelNumber := 16 } false 0
      (fun _ => (1/2, 0)) (Or.inr (by decide))).2.2⟩

end SweetBarista
